import Mathlib

/-!
# Slinky: wave physics, segment kinematics and the hit/win state machine

A shallow embedding of `controller.js` and `player.js` of the Slinky sketch.

Modelling conventions.

* JavaScript numbers are exact rationals (`ℚ`), and a decimal literal such
  as `0.05` is the rational `5 / 100`.  Rounding, `NaN` and the infinities of
  IEEE doubles are outside the model; a division by zero is `0` here, as in
  every Lean field.  Counters (`hitCount`, `winHits`, `attempts`) are natural
  numbers.
* Loops are total recursive functions: the two bounded retry loops recurse on
  the number of attempts left, `forEach` recurses on the list.
* `Math.sin` and `Math.exp` have no rational closed form; they are taken as the
  two fields of a `MathFns` argument.  `Math.PI` is the exact value of the
  double the language defines.
* The p5 library function `random(a, b)` is external.  Its successive results
  are an arbitrary stream `Rng`; each call consumes the head of the stream.
  That a result lies between the two arguments is a hypothesis of the theorems
  that need it.
* Globals that the controller reads or writes (`colorDefs.targetCore`,
  `colorDefs.targetHit`, the random stream) are gathered in `Env`, carried by
  the controller state.  Drawing calls (`background`, `display.renderFrame`,
  `display.show`, `initColors`) touch no simulation state and are left out.
-/

namespace Slinky

/-! ## Numeric helpers -/

/-- The functions `Math.sin` and `Math.exp`. -/
structure MathFns where
  sin : ℚ → ℚ
  exp : ℚ → ℚ

/-- The constant `Math.PI`: the double nearest to pi, `0x400921FB54442D18`. -/
def Math_PI : ℚ := 884279719003555 / 281474976710656

/-- The function `Math.sign` on numbers. -/
def Math_sign (x : ℚ) : ℚ :=
  if 0 < x then 1 else if x < 0 then -1 else 0

/-- The function `Math.round`: nearest integer, halves towards plus infinity. -/
def Math_round (x : ℚ) : ℚ := (⌊x + 1 / 2⌋ : ℤ)

/-- The p5 function `constrain(n, low, high)`, that is
`Math.max(Math.min(n, high), low)`. -/
def constrain (n low high : ℚ) : ℚ := max (min n high) low

/-- The stream of the values that the coming calls of p5 `random` return. -/
abbrev Rng := ℕ → ℚ

/-- The stream left after one call of `random`. -/
def Rng.rest (rng : Rng) : Rng := fun n => rng (n + 1)

/-- A call `random(a, b)`: the head of the stream is returned, the rest is left
for later calls.  The arguments do not enter the model; see `Between`. -/
def random (rng : Rng) (_a _b : ℚ) : ℚ × Rng := (rng 0, rng.rest)

/-- The value `v` lies between the two arguments of `random(a, b)`, whichever
of the two is the larger. -/
def Between (a b v : ℚ) : Prop := min a b ≤ v ∧ v ≤ max a b

instance (a b v : ℚ) : Decidable (Between a b v) := by
  unfold Between; infer_instance

/-! ## Impact presets and geometry (`controller.js`, lines 3-17) -/

/-- The `wave` object of an impact preset. -/
structure WaveParams where
  A0 : ℚ
  alpha : ℚ
  omega : ℚ
  k : ℚ
  speedScale : ℚ
  pushScale : ℚ
deriving DecidableEq, Repr

/-- An entry of `IMPACT_PRESETS`. -/
structure ImpactPreset where
  name : String
  wave : WaveParams
deriving DecidableEq, Repr

def presetSoft : ImpactPreset :=
  { name := "soft"
    wave := { A0 := 300, alpha := 2 / 1000, omega := 30, k := 45 / 1000,
              speedScale := 32 / 10, pushScale := 15 / 10 } }

def presetMedium : ImpactPreset :=
  { name := "medium"
    wave := { A0 := 500, alpha := 15 / 10000, omega := 40, k := 5 / 100,
              speedScale := 48 / 10, pushScale := 2 } }

def presetHard : ImpactPreset :=
  { name := "hard"
    wave := { A0 := 800, alpha := 15 / 10000, omega := 50, k := 8 / 100,
              speedScale := 6, pushScale := 3 } }

def IMPACT_PRESETS : List ImpactPreset := [presetSoft, presetMedium, presetHard]

namespace BASE_GEOMETRY

def barLength : ℚ := 3000
def barHeight : ℚ := 50
def segmentHalfLength : ℚ := 200
def blockHalfLength : ℚ := 30
def targetHalfLength : ℚ := 90
def targetMinGap : ℚ := 80
def targetOffsetFromCenter : ℚ := 200

end BASE_GEOMETRY

/-! ## Wave (`controller.js`, lines 19-59) -/

/-- The fields of a `Wave` object. -/
structure Wave where
  dir : ℚ
  barLength : ℚ
  startTime : ℚ
  A0 : ℚ
  alpha : ℚ
  omega : ℚ
  k : ℚ
  speedScale : ℚ
  pushScale : ℚ
  c : ℚ
  lambda : ℚ
  halfPeriod : ℚ
  travelTime : ℚ
  duration : ℚ
  blockPushed : Bool
deriving DecidableEq

/-- The JavaScript expression `x || 1` on a number: `1` when `x` is `0`. -/
def orOne (x : ℚ) : ℚ := if x = 0 then 1 else x

/-- The constructor `new Wave(direction, barLength, params, startTime)`. -/
def Wave.new (direction barLength : ℚ) (params : WaveParams) (startTime : ℚ) : Wave :=
  let speedScale := orOne params.speedScale
  let pushScale := orOne params.pushScale
  let c := (params.omega / params.k) * speedScale
  let halfPeriod := Math_PI / params.omega
  let travelTime := barLength / c
  { dir := direction
    barLength := barLength
    startTime := startTime
    A0 := params.A0
    alpha := params.alpha
    omega := params.omega
    k := params.k
    speedScale := speedScale
    pushScale := pushScale
    c := c
    lambda := (2 * Math_PI) / params.k
    halfPeriod := halfPeriod
    travelTime := travelTime
    duration := travelTime + halfPeriod
    blockPushed := false }

/-- The method `active(t)`. -/
def Wave.active (w : Wave) (t : ℚ) : Bool :=
  decide (t ≥ w.startTime) && decide (t ≤ w.startTime + w.duration)

/-- The method `displacementAt(x, t)`. -/
def Wave.displacementAt (M : MathFns) (w : Wave) (x t : ℚ) : ℚ :=
  let tau := t - w.startTime
  if tau < 0 ∨ ¬ w.active t = true then 0
  else
    let baseX := if w.dir = 1 then x else w.barLength - x
    let phaseOffset := baseX / w.c
    let localTau := tau - phaseOffset
    if localTau < 0 ∨ localTau > w.halfPeriod then 0
    else
      let amp := w.A0 * M.exp (-w.alpha * baseX)
      let phase := w.omega * localTau
      let disp := amp * M.sin phase
      if w.dir = 1 then disp else -disp

/-- The method `frontPosition(t)`. -/
def Wave.frontPosition (w : Wave) (t : ℚ) : ℚ :=
  let tau := t - w.startTime
  if w.dir = 1 then w.c * tau else w.barLength - w.c * tau

/-! ## Anchor segments (`player.js`, lines 4-52) -/

/-- The fields of an `AnchorSegment` object. -/
structure AnchorSegment where
  restCenter : ℚ
  baseHalfLength : ℚ
  blend : ℚ
  breatheAmp : ℚ
  breatheOmega : ℚ
  beta : ℚ
  center : ℚ
  length : ℚ
deriving DecidableEq

/-- The constructor `new AnchorSegment(center, halfLength, blend, breatheAmp,
breatheOmega, beta)`. -/
def AnchorSegment.new (center halfLength blend breatheAmp breatheOmega beta : ℚ) :
    AnchorSegment :=
  { restCenter := center
    baseHalfLength := halfLength
    blend := blend
    breatheAmp := breatheAmp
    breatheOmega := breatheOmega
    beta := beta
    center := center
    length := halfLength }

/-- The accumulation `u = 0; waves.forEach(wave => u += wave.displacementAt(x, t))`. -/
def sumDisplacement (M : MathFns) (waves : List Wave) (x t : ℚ) : ℚ :=
  waves.foldl (fun u wave => u + wave.displacementAt M x t) 0

/-- The method `AnchorSegment.update(waves, t)`. -/
def AnchorSegment.update (M : MathFns) (s : AnchorSegment) (waves : List Wave) (t : ℚ) :
    AnchorSegment :=
  let breatheScale := 1 + s.breatheAmp * M.sin (s.breatheOmega * t)
  let halfL := s.baseHalfLength * breatheScale
  let xLeftRest := s.restCenter - halfL
  let xRightRest := s.restCenter + halfL
  let uLeft := sumDisplacement M waves xLeftRest t
  let uRight := sumDisplacement M waves xRightRest t
  let xLeftWave := xLeftRest + uLeft
  let xRightWave := xRightRest + uRight
  let centerWave := (1 / 2) * (xLeftWave + xRightWave)
  let halfLWave := max 1 ((1 / 2) * |xRightWave - xLeftWave|)
  let xRestMid := (1 / 2) * (xLeftRest + xRightRest)
  let uMid := sumDisplacement M waves xRestMid t
  let centerLocal := xRestMid + uMid
  { s with
    center := (1 - s.beta) * centerWave + s.beta * centerLocal
    length := halfLWave }

/-! ## The block (`player.js`, lines 55-84) -/

/-- The fields of a `BlockSegment` object. -/
structure BlockSegment where
  center : ℚ
  length : ℚ
  blend : ℚ
  speedScale : ℚ
  barLength : ℚ
  targetCenter : ℚ
  velocity : ℚ
deriving DecidableEq

/-- The constructor `new BlockSegment(center, length, blend, speedScale, barLength)`. -/
def BlockSegment.new (center length blend speedScale barLength : ℚ) : BlockSegment :=
  { center := center
    length := length
    blend := blend
    speedScale := speedScale
    barLength := barLength
    targetCenter := center
    velocity := 0 }

/-- The method `push(distance, waveSpeed)`. -/
def BlockSegment.push (b : BlockSegment) (distance waveSpeed : ℚ) : BlockSegment :=
  { b with
    targetCenter := constrain (b.center + distance) 0 b.barLength
    velocity := |waveSpeed| * b.speedScale }

/-- The method `BlockSegment.update(dt)`. -/
def BlockSegment.update (b : BlockSegment) (dt : ℚ) : BlockSegment :=
  if |b.targetCenter - b.center| < 1 then
    { b with center := b.targetCenter, velocity := 0 }
  else
    let dir := Math_sign (b.targetCenter - b.center)
    let center := b.center + dir * b.velocity * dt
    if (dir > 0 ∧ center > b.targetCenter) ∨ (dir < 0 ∧ center < b.targetCenter) then
      { b with center := b.targetCenter, velocity := 0 }
    else
      { b with center := center }

/-- The block states that a sequence of `push` and `update` calls reaches from
a constructed block. -/
inductive BlockSegment.Reachable : BlockSegment → Prop
  | new (center length blend speedScale barLength : ℚ) :
      BlockSegment.Reachable (BlockSegment.new center length blend speedScale barLength)
  | push {b : BlockSegment} (distance waveSpeed : ℚ) :
      BlockSegment.Reachable b → BlockSegment.Reachable (b.push distance waveSpeed)
  | update {b : BlockSegment} (dt : ℚ) :
      BlockSegment.Reachable b → BlockSegment.Reachable (b.update dt)

/-! ## The target (`player.js`, lines 87-110) -/

/-- The fields of a `TargetSegment` object. -/
structure TargetSegment where
  center : ℚ
  length : ℚ
  blend : ℚ
  barLength : ℚ
deriving DecidableEq

/-- The constructor `new TargetSegment(center, length, blend, barLength)`. -/
def TargetSegment.new (center length blend barLength : ℚ) : TargetSegment :=
  { center := center, length := length, blend := blend, barLength := barLength }

/-- The local `margin` of `respawn`. -/
def TargetSegment.margin (t : TargetSegment) (minGap : ℚ) : ℚ :=
  max (t.length + minGap) 80

/-- The locals of `respawn` when its rejection loop is left, and the random
stream that remains. -/
structure RespawnLocals where
  candidate : ℚ
  attempts : ℕ
  rng : Rng

/-- The rejection loop of `respawn`,
`while (Math.abs(candidate - avoidCenter) <= length + avoidLength + minGap && attempts < 30)`,
entered with the given values of `candidate` and `attempts`. -/
def TargetSegment.respawnLoop (t : TargetSegment) (minGap avoidCenter avoidLength : ℚ)
    (candidate : ℚ) (attempts : ℕ) (rng : Rng) : RespawnLocals :=
  if |candidate - avoidCenter| ≤ t.length + avoidLength + minGap ∧ attempts < 30 then
    let margin := t.margin minGap
    let draw := random rng margin (t.barLength - margin)
    t.respawnLoop minGap avoidCenter avoidLength draw.1 (attempts + 1) draw.2
  else
    { candidate := candidate, attempts := attempts, rng := rng }
termination_by 30 - attempts
decreasing_by omega

/-- The body of `respawn(minGap, avoidCenter, avoidLength)` up to the final
assignment; `avoidCenter` is `none` for `null`. -/
def TargetSegment.respawnRun (t : TargetSegment) (minGap : ℚ) (avoidCenter : Option ℚ)
    (avoidLength : ℚ) (rng : Rng) : RespawnLocals :=
  let margin := t.margin minGap
  let draw := random rng margin (t.barLength - margin)
  match avoidCenter with
  | some ac => t.respawnLoop minGap ac avoidLength draw.1 0 draw.2
  | none => { candidate := draw.1, attempts := 0, rng := draw.2 }

/-- The method `respawn(minGap, avoidCenter, avoidLength)`: the target with its
new center, and the random stream that remains. -/
def TargetSegment.respawn (t : TargetSegment) (minGap : ℚ) (avoidCenter : Option ℚ)
    (avoidLength : ℚ) (rng : Rng) : TargetSegment × Rng :=
  let r := t.respawnRun minGap avoidCenter avoidLength rng
  ({ t with center := r.candidate }, r.rng)

/-! ## Controller state (`controller.js`, lines 61-104) -/

/-- The four values of `gameState`. -/
inductive GameState where
  | PLAY
  | TOUCH
  | HIT
  | WIN
deriving DecidableEq, Repr

/-- A colour definition `{ r, g, b, a }`. -/
structure Color where
  r : ℚ
  g : ℚ
  b : ℚ
  a : ℚ
deriving DecidableEq

/-- The two values of `flashState.mode`. -/
inductive FlashMode where
  | touch
  | hit
deriving DecidableEq, Repr

/-- The object `flashState`; `flashes` is `none` for `Infinity`. -/
structure FlashState where
  mode : FlashMode
  start : ℚ
  interval : ℚ
  flashes : Option ℚ
  continuous : Bool
  originalColor : Color
  hitColor : Color
deriving DecidableEq

/-- The globals the controller works on: the entries `targetCore` and
`targetHit` of `colorDefs` (`none` when absent) and the random stream. -/
structure Env where
  targetCore : Option Color
  targetHit : Option Color
  rng : Rng

/-- The object `anchorParams`. -/
structure AnchorParams where
  blend : ℚ
  breatheAmp : ℚ
  breatheOmega : ℚ
  beta : ℚ
deriving DecidableEq

/-- The fields of the `Controller` object, and the globals in `env`.  The
field `collisionAnimation` is never read by the controller and is left out;
`winStartTime` and `overlapStartTime` are `none` for `null`. -/
structure Controller where
  gameState : GameState
  time : ℚ
  winHits : ℕ
  winStartTime : Option ℚ
  barLength : ℚ
  barHeight : ℚ
  scale : ℚ
  segmentCount : ℕ
  segmentHalfLength : ℚ
  blockHalfLength : ℚ
  blockBlend : ℚ
  blockSpeedScale : ℚ
  targetHalfLength : ℚ
  targetBlend : ℚ
  targetMinGap : ℚ
  targetOffsetFromCenter : ℚ
  overlapThreshold : ℚ
  anchorParams : AnchorParams
  waveParams : WaveParams
  waves : List Wave
  hitCount : ℕ
  segments : List AnchorSegment
  block : BlockSegment
  target : TargetSegment
  overlapStartTime : Option ℚ
  overlappingNow : Bool
  baseTargetColor : Color
  flashState : Option FlashState
  flashInterval : ℚ
  env : Env

namespace Controller

/-- The list that `buildSegments()` builds: `segmentCount` anchors at evenly
spaced rest positions. -/
def buildSegmentList (segmentCount : ℕ) (barLength segmentHalfLength : ℚ)
    (p : AnchorParams) : List AnchorSegment :=
  (List.range segmentCount).map fun i =>
    AnchorSegment.new ((((i : ℚ) + 1) * barLength) / ((segmentCount : ℚ) + 1))
      segmentHalfLength p.blend p.breatheAmp p.breatheOmega p.beta

/-- The method `buildSegments()`. -/
def buildSegments (c : Controller) : Controller :=
  { c with
    segments := buildSegmentList c.segmentCount c.barLength c.segmentHalfLength c.anchorParams }

/-- The method `restoreTargetColor()`: it writes `colorDefs.targetCore`. -/
def restoreTargetColor (c : Controller) : Controller :=
  let baseColor :=
    match c.flashState with
    | some fs => fs.originalColor
    | none => c.baseTargetColor
  { c with env := { c.env with targetCore := some baseColor } }

/-- The body of the `do ... while` loop of `respawnTargetSafe()`, entered with
the given value of `attempts`; it returns the controller and `attempts` at the
exit of the loop. -/
def respawnTargetSafeLoop (c : Controller) (minGap : ℚ) (attempts : ℕ) : Controller × ℕ :=
  let r := c.target.respawn minGap (some c.block.center) c.block.length c.env.rng
  let c1 : Controller := { c with target := r.1, env := { c.env with rng := r.2 } }
  let attempts1 := attempts + 1
  if attempts1 < 40 ∧
      |c1.target.center - c1.block.center| ≤ c1.target.length + c1.block.length + minGap then
    respawnTargetSafeLoop c1 minGap attempts1
  else
    (c1, attempts1)
termination_by 40 - attempts
decreasing_by omega

/-- The method `respawnTargetSafe()`.  The target object always exists, so the
branch `!this.target` is never taken, and `isNaN` is false on every number of
the model. -/
def respawnTargetSafe (c : Controller) : Controller :=
  let minGap := c.targetMinGap
  let minCenter := c.barLength * (5 / 100)
  let maxCenter := c.barLength * (95 / 100)
  let c1 := (c.respawnTargetSafeLoop minGap 0).1
  let center1 :=
    if c1.target.center < 0 ∨ c1.target.center > c1.barLength then
      min (c1.barLength - 100) (c1.barLength * (7 / 10))
    else c1.target.center
  { c1 with target := { c1.target with center := max minCenter (min maxCenter center1) } }

/-- The constructor `new Controller(barLength, barHeight)`, run with the
globals `env`.  The fields assigned after the call of `respawnTargetSafe()` are
not read by it, so they are given with the others. -/
def new (barLength barHeight : ℚ) (env : Env) : Controller :=
  let barLength := max 1 (Math_round barLength)
  let barHeight := max 1 (Math_round barHeight)
  let scale := barLength / BASE_GEOMETRY.barLength
  let blockHalfLength := BASE_GEOMETRY.blockHalfLength * scale
  let targetHalfLength := BASE_GEOMETRY.targetHalfLength * scale
  let targetOffsetFromCenter := BASE_GEOMETRY.targetOffsetFromCenter * scale
  let mid := barLength * (1 / 2)
  let c0 : Controller :=
    { gameState := GameState.PLAY
      time := 0
      winHits := 3
      winStartTime := none
      barLength := barLength
      barHeight := barHeight
      scale := scale
      segmentCount := 4
      segmentHalfLength := BASE_GEOMETRY.segmentHalfLength * scale
      blockHalfLength := blockHalfLength
      blockBlend := 1 / 2
      blockSpeedScale := 35 / 100
      targetHalfLength := targetHalfLength
      targetBlend := 1 / 2
      targetMinGap := max 10 (BASE_GEOMETRY.targetMinGap * scale)
      targetOffsetFromCenter := targetOffsetFromCenter
      overlapThreshold := 2
      anchorParams := { blend := 5 / 100, breatheAmp := 1 / 2, breatheOmega := 15 / 10,
                        beta := 6 / 10 }
      waveParams := presetMedium.wave
      waves := []
      hitCount := 0
      segments := []
      block := BlockSegment.new mid blockHalfLength (1 / 2) (35 / 100) barLength
      target := TargetSegment.new (mid + targetOffsetFromCenter) targetHalfLength (1 / 2)
        barLength
      overlapStartTime := none
      overlappingNow := false
      baseTargetColor :=
        match env.targetCore with
        | some col => col
        | none => { r := 238, g := 255, b := 0, a := 255 }
      flashState := none
      flashInterval := 15 / 100
      env := env }
  c0.buildSegments.respawnTargetSafe

/-- The method `setImpactPreset(index)`; `none` stands for the exception that
reading `.wave` of a missing array entry raises. -/
def setImpactPreset (c : Controller) (index : ℤ) : Option Controller :=
  let i := constrain ((index : ℚ) - 1) 0 ((IMPACT_PRESETS.length : ℚ) - 1)
  if i = ((⌊i⌋.toNat : ℕ) : ℚ) then
    match IMPACT_PRESETS.get? ⌊i⌋.toNat with
    | some preset => some { c with waveParams := preset.wave }
    | none => none
  else none

/-- The method `launchWave(direction)`. -/
def launchWave (c : Controller) (direction : ℚ) : Controller :=
  if c.gameState = GameState.WIN then c
  else
    let now := c.time
    let wave := Wave.new direction c.barLength c.waveParams now
    { c with waves := c.waves ++ [wave] }

/-- The test of `updateWaves()` that the front of `wave` has reached the block. -/
def frontReached (now : ℚ) (block : BlockSegment) (wave : Wave) : Prop :=
  (wave.dir = 1 ∧ wave.frontPosition now ≥ block.center) ∨
    (wave.dir = -1 ∧ wave.frontPosition now ≤ block.center)

instance (now : ℚ) (block : BlockSegment) (wave : Wave) :
    Decidable (frontReached now block wave) := by
  unfold frontReached; infer_instance

/-- The callback of `this.waves.forEach` in `updateWaves()`, as a function of
the block and the wave it works on. -/
def pushStep (now : ℚ) (block : BlockSegment) (wave : Wave) : BlockSegment × Wave :=
  if wave.blockPushed = true then (block, wave)
  else if frontReached now block wave then
    let baseA0 : ℚ := 400
    let distance := wave.dir * wave.lambda * (wave.A0 / baseA0) * wave.pushScale
    (block.push distance wave.c, { wave with blockPushed := true })
  else (block, wave)

/-- The loop `waves.forEach(callback)` of `updateWaves()`: the waves are
visited in order, the block is handed from one visit to the next. -/
def forEachWave (now : ℚ) : BlockSegment → List Wave → BlockSegment × List Wave
  | block, [] => (block, [])
  | block, wave :: rest =>
    let r := pushStep now block wave
    let rs := forEachWave now r.1 rest
    (rs.1, r.2 :: rs.2)

/-- The method `updateWaves()`. -/
def updateWaves (c : Controller) : Controller :=
  let now := c.time
  let r := forEachWave now c.block (c.waves.filter fun w => w.active now)
  { c with waves := r.2, block := r.1 }

/-- The method `updateSegments()`. -/
def updateSegments (M : MathFns) (c : Controller) : Controller :=
  { c with segments := c.segments.map fun seg => seg.update M c.waves c.time }

/-- The method `updateBlock(dt)`. -/
def updateBlock (c : Controller) (dt : ℚ) : Controller :=
  { c with block := c.block.update dt }

/-- The method `isOverlapping()`. -/
def isOverlapping (c : Controller) : Bool :=
  decide (|c.block.center - c.target.center| ≤ c.block.length + c.target.length)

/-- The method `resetTouchState()`. -/
def resetTouchState (c : Controller) : Controller :=
  let c1 : Controller := { c with overlapStartTime := none }
  let c2 : Controller :=
    if c1.gameState = GameState.TOUCH then { c1 with gameState := GameState.PLAY } else c1
  match c2.flashState with
  | some fs =>
    if fs.mode = FlashMode.touch then { c2.restoreTargetColor with flashState := none } else c2
  | none => c2

/-- The method `startTouchFlash()`. -/
def startTouchFlash (c : Controller) : Controller :=
  let hitRunning :=
    match c.flashState with
    | some fs => decide (fs.mode = FlashMode.hit)
    | none => false
  if hitRunning = true then c
  else
    { c with
      flashState := some
        { mode := FlashMode.touch
          start := c.time
          interval := c.flashInterval
          flashes := none
          continuous := true
          originalColor := c.baseTargetColor
          hitColor :=
            match c.env.targetHit with
            | some col => col
            | none => { r := 0, g := 229, b := 255, a := 255 } } }

/-- The method `transitionToWin()`. -/
def transitionToWin (c : Controller) : Controller :=
  restoreTargetColor
    { c with
      gameState := GameState.WIN
      winStartTime := some c.time
      waves := []
      overlapStartTime := none }

/-- The method `finishHit(willWin)`. -/
def finishHit (c : Controller) (willWin : Bool) : Controller :=
  let c1 : Controller := { c with gameState := GameState.HIT }
  let c2 : Controller := { c1.restoreTargetColor with flashState := none }
  if willWin = true then c2.transitionToWin
  else { c2.respawnTargetSafe with gameState := GameState.PLAY }

/-- The method `triggerHit()`. -/
def triggerHit (c : Controller) : Controller :=
  if c.gameState = GameState.HIT then c
  else
    let c1 : Controller := { c with hitCount := c.hitCount + 1 }
    let willWin := decide (c1.hitCount ≥ c1.winHits)
    let c2 : Controller := { c1 with overlapStartTime := none }
    c2.finishHit willWin

/-- The method `handleOverlap()`.  Where `elapsed` is computed the field
`overlapStartTime` is a number; `getD 0` is the value `null` has in a
subtraction. -/
def handleOverlap (c : Controller) : Controller :=
  if c.gameState = GameState.HIT ∨ c.gameState = GameState.WIN then
    { c with overlappingNow := false }
  else
    let overlap := c.isOverlapping
    let c1 : Controller := { c with overlappingNow := overlap }
    if overlap = false then c1.resetTouchState
    else
      let c2 : Controller :=
        match c1.overlapStartTime with
        | none =>
          startTouchFlash
            { c1 with overlapStartTime := some c1.time, gameState := GameState.TOUCH }
        | some _ =>
          if c1.gameState ≠ GameState.TOUCH then { c1 with gameState := GameState.TOUCH }
          else c1
      let elapsed := c2.time - c2.overlapStartTime.getD 0
      if elapsed ≥ c2.overlapThreshold then c2.triggerHit else c2

/-- The method `resetGame()`. -/
def resetGame (c : Controller) : Controller :=
  let center := c.barLength * (1 / 2)
  let c1 : Controller :=
    { c with
      hitCount := 0
      time := 0
      winStartTime := none
      waves := []
      block := { c.block with center := center, targetCenter := center, velocity := 0 } }
  let c2 := c1.respawnTargetSafe
  restoreTargetColor
    { c2 with
      gameState := GameState.PLAY
      overlapStartTime := none
      overlappingNow := false
      flashState := none }

/-- The method `ensureTargetValid()`; see `respawnTargetSafe` for `!this.target`
and `isNaN`. -/
def ensureTargetValid (c : Controller) : Controller :=
  if c.target.center < 0 ∨ c.target.center > c.barLength then c.respawnTargetSafe else c

/-- The method `updateFlash()`. -/
def updateFlash (c : Controller) : Controller :=
  match c.flashState with
  | none => c
  | some fs =>
    let elapsed := c.time - fs.start
    let toggleCount : ℤ := ⌊elapsed / fs.interval⌋
    let reached : Bool :=
      match fs.flashes with
      | some n => decide ((toggleCount : ℚ) ≥ n * 2)
      | none => false
    let shouldEnd := !fs.continuous && reached
    if shouldEnd = true then
      let c1 : Controller := { c.restoreTargetColor with flashState := none }
      if fs.mode = FlashMode.hit then { c1 with gameState := GameState.PLAY }
      else if fs.mode = FlashMode.touch ∧ c1.overlappingNow = false then
        { c1 with gameState := GameState.PLAY }
      else c1
    else
      let useHit := decide (toggleCount.tmod 2 = 1)
      let col := if useHit = true then fs.hitColor else fs.originalColor
      { c with env := { c.env with targetCore := some col } }

/-- The method `update()`, run with the global `deltaTime` (milliseconds).  The
wrapper that `animation.js` puts around it only drives the win overlay and the
display. -/
def update (M : MathFns) (c : Controller) (deltaTime : ℚ) : Controller :=
  if c.gameState = GameState.PLAY ∨ c.gameState = GameState.HIT ∨
      c.gameState = GameState.TOUCH then
    let dt := deltaTime / 1000
    let c1 : Controller := { c with time := c.time + dt }
    let c2 := c1.ensureTargetValid
    let c3 := c2.updateWaves
    let c4 := c3.updateSegments M
    let c5 := c4.updateBlock dt
    let c6 := c5.handleOverlap
    c6.updateFlash
  else if c.gameState = GameState.WIN then
    let dt := deltaTime / 1000
    let c1 : Controller := { c with time := c.time + dt }
    let c2 := c1.ensureTargetValid
    match c2.winStartTime with
    | some w => if c2.time - w ≥ 3 then c2.resetGame else c2
    | none => c2
  else c

end Controller

/-! ## Auxiliary definitions used to state the properties, and sample data -/

/-- The block with its center put on the target and its velocity cleared: the
result of both snapping branches of `BlockSegment.update`. -/
def BlockSegment.snapped (b : BlockSegment) : BlockSegment :=
  { b with center := b.targetCenter, velocity := 0 }

/-- A block as the controller builds it for a bar of length `3000`. -/
def sampleBlock : BlockSegment := BlockSegment.new 1500 30 (1 / 2) (35 / 100) 3000

/-- A target as the controller builds it for a bar of length `3000`. -/
def sampleTarget : TargetSegment := TargetSegment.new 1700 90 (1 / 2) 3000

/-- A random stream whose first value is `1500` and whose later values are
`2000`. -/
def sampleDraws : Rng := fun n => if n = 0 then 1500 else 2000

/-- A target as the controller builds it for a bar of length `100`: the half
length is `90 * (100 / 3000)`. -/
def narrowTarget : TargetSegment := TargetSegment.new 70 3 (1 / 2) 100

/-- A random stream that returns `70` at every call. -/
def narrowDraws : Rng := fun _ => 70

/-- The guard under which the callback of `updateWaves()` reaches its call of
`block.push`: the flag is still clear and the front has reached the block. -/
def Controller.pushFires (now : ℚ) (block : BlockSegment) (wave : Wave) : Prop :=
  wave.blockPushed = false ∧ Controller.frontReached now block wave

instance (now : ℚ) (block : BlockSegment) (wave : Wave) :
    Decidable (Controller.pushFires now block wave) := by
  unfold Controller.pushFires; infer_instance

/-- The history of one wave instance: `visits` lists, for each later call of
`updateWaves()` that still holds the wave, the time and the block with which
the callback visits it.  This counts the visits that call `block.push`. -/
def Controller.pushCount (wave : Wave) : List (ℚ × BlockSegment) → ℕ
  | [] => 0
  | v :: rest =>
    (if Controller.pushFires v.1 v.2 wave then 1 else 0) +
      Controller.pushCount (Controller.pushStep v.1 v.2 wave).2 rest

/-- The number of visits that change `blockPushed` from `false` to `true`. -/
def Controller.flagFlips (wave : Wave) : List (ℚ × BlockSegment) → ℕ
  | [] => 0
  | v :: rest =>
    (if wave.blockPushed = false ∧ (Controller.pushStep v.1 v.2 wave).2.blockPushed = true
      then 1 else 0) +
      Controller.flagFlips (Controller.pushStep v.1 v.2 wave).2 rest

/-- The number of visits that change `blockPushed` from `true` to `false`. -/
def Controller.flagResets (wave : Wave) : List (ℚ × BlockSegment) → ℕ
  | [] => 0
  | v :: rest =>
    (if wave.blockPushed = true ∧ (Controller.pushStep v.1 v.2 wave).2.blockPushed = false
      then 1 else 0) +
      Controller.flagResets (Controller.pushStep v.1 v.2 wave).2 rest

/-- The distance of the push that `wave` gives the block in `updateWaves()`. -/
def Controller.pushDistance (wave : Wave) : ℚ :=
  wave.dir * wave.lambda * (wave.A0 / 400) * wave.pushScale

/-- The globals of a sketch with the default palette and a random stream that
returns `2000` at every call. -/
def sampleEnv : Env :=
  { targetCore := some { r := 238, g := 255, b := 0, a := 255 }
    targetHit := some { r := 0, g := 229, b := 255, a := 255 }
    rng := fun _ => 2000 }

/-- The controller of a bar of length `3000` and height `50`. -/
def sampleController : Controller := Controller.new 3000 50 sampleEnv

/-- A controller that entered `WIN` at time `10` and is now at time `12`. -/
def sampleWin : Controller :=
  { sampleController with
    gameState := GameState.WIN
    hitCount := 3
    winStartTime := some 10
    time := 12 }

/-- The controller inside `finishHit` of a hit that does not win, at the call
of `respawnTargetSafe()`: the hit is counted, the overlap and the flash are
cleared, the target colour is restored and the state is `HIT`. -/
def Controller.hitPending (c : Controller) : Controller :=
  { Controller.restoreTargetColor
      { c with
        hitCount := c.hitCount + 1
        overlapStartTime := none
        gameState := GameState.HIT } with
    flashState := none }

/-- The controller states that a sequence of `update`, `launchWave` and
`setImpactPreset` calls reaches from a constructed controller. -/
inductive Controller.Reachable (M : MathFns) : Controller → Prop
  | new (barLength barHeight : ℚ) (env : Env) :
      Controller.Reachable M (Controller.new barLength barHeight env)
  | update {c : Controller} (deltaTime : ℚ) :
      Controller.Reachable M c → Controller.Reachable M (c.update M deltaTime)
  | launchWave {c : Controller} (direction : ℚ) :
      Controller.Reachable M c → Controller.Reachable M (c.launchWave direction)
  | setImpactPreset {c c1 : Controller} (index : ℤ) :
      Controller.Reachable M c → c.setImpactPreset index = some c1 →
      Controller.Reachable M c1

/-- The controller inside `update()` at the call of `handleOverlap()`, for a
tick that starts in `PLAY`, `TOUCH` or `HIT`. -/
def Controller.beforeOverlap (M : MathFns) (c : Controller) (deltaTime : ℚ) : Controller :=
  Controller.updateBlock
    (Controller.updateSegments M
      (Controller.updateWaves
        (Controller.ensureTargetValid { c with time := c.time + deltaTime / 1000 })))
    (deltaTime / 1000)

/-- The controller inside `handleOverlap()` once an overlap is found and the
overlap start is recorded, just before the elapsed time is compared with the
threshold. -/
def Controller.touching (c : Controller) : Controller :=
  match c.overlapStartTime with
  | none =>
    Controller.startTouchFlash
      { c with
        overlappingNow := true
        overlapStartTime := some c.time
        gameState := GameState.TOUCH }
  | some _ =>
    if c.gameState ≠ GameState.TOUCH then
      { c with overlappingNow := true, gameState := GameState.TOUCH }
    else { c with overlappingNow := true }

/-- The controller after the ticks whose `deltaTime` values are listed. -/
def Controller.run (M : MathFns) : Controller → List ℚ → Controller
  | c, [] => c
  | c, deltaTime :: rest => Controller.run M (c.update M deltaTime) rest

/-- Block and target overlap, at the call of `handleOverlap()`, on every one of
the listed ticks. -/
def Controller.OverlapsThroughout (M : MathFns) : Controller → List ℚ → Prop
  | _, [] => True
  | c, deltaTime :: rest =>
    (c.beforeOverlap M deltaTime).isOverlapping = true ∧
      Controller.OverlapsThroughout M (c.update M deltaTime) rest

/-- The seconds that the listed ticks add to the simulation time. -/
def elapsedSeconds (ticks : List ℚ) : ℚ := (ticks.map fun deltaTime => deltaTime / 1000).sum

/-- A controller of a bar of length `3000` in `PLAY`, at time `0`, with no
wave under way, the block at rest at `1500` and the target at `1560`, so that
block and target overlap. -/
def sampleOverlap : Controller :=
  { gameState := GameState.PLAY
    time := 0
    winHits := 3
    winStartTime := none
    barLength := 3000
    barHeight := 50
    scale := 1
    segmentCount := 4
    segmentHalfLength := 200
    blockHalfLength := 30
    blockBlend := 1 / 2
    blockSpeedScale := 35 / 100
    targetHalfLength := 90
    targetBlend := 1 / 2
    targetMinGap := 80
    targetOffsetFromCenter := 200
    overlapThreshold := 2
    anchorParams := { blend := 5 / 100, breatheAmp := 1 / 2, breatheOmega := 15 / 10,
                      beta := 6 / 10 }
    waveParams := presetMedium.wave
    waves := []
    hitCount := 0
    segments := Controller.buildSegmentList 4 3000 200
      { blend := 5 / 100, breatheAmp := 1 / 2, breatheOmega := 15 / 10, beta := 6 / 10 }
    block := BlockSegment.new 1500 30 (1 / 2) (35 / 100) 3000
    target := TargetSegment.new 1560 90 (1 / 2) 3000
    overlapStartTime := none
    overlappingNow := false
    baseTargetColor := { r := 238, g := 255, b := 0, a := 255 }
    flashState := none
    flashInterval := 15 / 100
    env := sampleEnv }

/-- The local `halfL` of `AnchorSegment.update`: the breathing half length. -/
def AnchorSegment.halfL (M : MathFns) (s : AnchorSegment) (t : ℚ) : ℚ :=
  s.baseHalfLength * (1 + s.breatheAmp * M.sin (s.breatheOmega * t))

/-- The local `xLeftRest` of `AnchorSegment.update`. -/
def AnchorSegment.xLeftRest (M : MathFns) (s : AnchorSegment) (t : ℚ) : ℚ :=
  s.restCenter - s.halfL M t

/-- The local `xRightRest` of `AnchorSegment.update`. -/
def AnchorSegment.xRightRest (M : MathFns) (s : AnchorSegment) (t : ℚ) : ℚ :=
  s.restCenter + s.halfL M t

/-- The local `uLeft` of `AnchorSegment.update` after its loop. -/
def AnchorSegment.uLeft (M : MathFns) (s : AnchorSegment) (waves : List Wave) (t : ℚ) : ℚ :=
  sumDisplacement M waves (s.xLeftRest M t) t

/-- The local `uRight` of `AnchorSegment.update` after its loop. -/
def AnchorSegment.uRight (M : MathFns) (s : AnchorSegment) (waves : List Wave) (t : ℚ) : ℚ :=
  sumDisplacement M waves (s.xRightRest M t) t

/-- The local `xLeftWave` of `AnchorSegment.update`: the perturbed left end. -/
def AnchorSegment.xLeftWave (M : MathFns) (s : AnchorSegment) (waves : List Wave) (t : ℚ) :
    ℚ :=
  s.xLeftRest M t + s.uLeft M waves t

/-- The local `xRightWave` of `AnchorSegment.update`: the perturbed right end. -/
def AnchorSegment.xRightWave (M : MathFns) (s : AnchorSegment) (waves : List Wave) (t : ℚ) :
    ℚ :=
  s.xRightRest M t + s.uRight M waves t

/-- The local `centerWave` of `AnchorSegment.update`. -/
def AnchorSegment.centerWave (M : MathFns) (s : AnchorSegment) (waves : List Wave) (t : ℚ) :
    ℚ :=
  (1 / 2) * (s.xLeftWave M waves t + s.xRightWave M waves t)

/-- The local `xRestMid` of `AnchorSegment.update`. -/
def AnchorSegment.xRestMid (M : MathFns) (s : AnchorSegment) (t : ℚ) : ℚ :=
  (1 / 2) * (s.xLeftRest M t + s.xRightRest M t)

/-- The local `uMid` of `AnchorSegment.update` after its loop. -/
def AnchorSegment.uMid (M : MathFns) (s : AnchorSegment) (waves : List Wave) (t : ℚ) : ℚ :=
  sumDisplacement M waves (s.xRestMid M t) t

/-- The local `centerLocal` of `AnchorSegment.update`. -/
def AnchorSegment.centerLocal (M : MathFns) (s : AnchorSegment) (waves : List Wave) (t : ℚ) :
    ℚ :=
  s.xRestMid M t + s.uMid M waves t

/-- No flash of mode `hit` is running: `flashState` is `null` or a touch
flash. -/
def Controller.FlashIsTouch (c : Controller) : Prop :=
  ∀ fs, c.flashState = some fs → fs.mode = FlashMode.touch

/-- The controller states in which a method of the controller is called while
the sketch runs: the states reached between the calls of `update`, `launchWave`
and `setImpactPreset`, and, inside `update()`, the state at the call of
`ensureTargetValid()` and the state at the call of `handleOverlap()`. -/
inductive Controller.Occurs (M : MathFns) : Controller → Prop
  | reached {c : Controller} : Controller.Reachable M c → Controller.Occurs M c
  | timeAdvanced {c : Controller} (deltaTime : ℚ) :
      Controller.Reachable M c →
      Controller.Occurs M { c with time := c.time + deltaTime / 1000 }
  | beforeOverlap {c : Controller} (deltaTime : ℚ) :
      Controller.Reachable M c → Controller.Occurs M (c.beforeOverlap M deltaTime)

/-- The globals of a sketch whose random stream returns `1500` at every
call: on a bar of length `3000` every draw falls on the block. -/
def stuckEnv : Env :=
  { targetCore := some { r := 238, g := 255, b := 0, a := 255 }
    targetHit := some { r := 0, g := 229, b := 255, a := 255 }
    rng := fun _ => 1500 }

/-- The controller of a bar of length `3000` built with the globals
`stuckEnv`: every respawn attempt is used up and the target ends on the
block. -/
def stuckController : Controller := Controller.new 3000 50 stuckEnv

/-- The value `v` falls in the exclusion zone of `respawn`: the test of its
rejection loop. -/
def TargetSegment.Blocked (t : TargetSegment) (minGap avoidCenter avoidLength v : ℚ) : Prop :=
  |v - avoidCenter| ≤ t.length + avoidLength + minGap

instance (t : TargetSegment) (minGap avoidCenter avoidLength v : ℚ) :
    Decidable (t.Blocked minGap avoidCenter avoidLength v) := by
  unfold TargetSegment.Blocked; infer_instance

/-- A random stream whose first thirty values are `1500` and whose
thirty-first value is `2000`. -/
def lateDraws : Rng := fun n => if n = 30 then 2000 else 1500

/-- The lengths that the constructor fixes for the target respawn: the bar
length, the minimal gap, and the half length and bar length of the target. -/
def Controller.geometry (c : Controller) : ℚ × ℚ × ℚ × ℚ :=
  (c.barLength, c.targetMinGap, c.target.length, c.target.barLength)

/-- A block that lies on its bar: speed scale and velocity are not negative,
center and target center lie between `0` and the bar length. -/
def BlockSegment.OnBar (b : BlockSegment) : Prop :=
  0 ≤ b.speedScale ∧ 0 ≤ b.velocity ∧
    (0 ≤ b.center ∧ b.center ≤ b.barLength) ∧
    (0 ≤ b.targetCenter ∧ b.targetCenter ≤ b.barLength)

/-- The controller states that a sequence of `update` ticks with a time step
that is not negative, `launchWave` and `setImpactPreset` calls reaches from a
constructed controller. -/
inductive Controller.ReachableForward (M : MathFns) : Controller → Prop
  | new (barLength barHeight : ℚ) (env : Env) :
      Controller.ReachableForward M (Controller.new barLength barHeight env)
  | update {c : Controller} (deltaTime : ℚ) :
      0 ≤ deltaTime → Controller.ReachableForward M c →
      Controller.ReachableForward M (c.update M deltaTime)
  | launchWave {c : Controller} (direction : ℚ) :
      Controller.ReachableForward M c → Controller.ReachableForward M (c.launchWave direction)
  | setImpactPreset {c c1 : Controller} (index : ℤ) :
      Controller.ReachableForward M c → c.setImpactPreset index = some c1 →
      Controller.ReachableForward M c1

/-! ## Double-precision arithmetic

The numbers of the program are doubles.  Where the rounding of a sum, a
difference or a product decides what a method does, the method is given a
second time below with every such result passed through a rounding function
`fl`; with `fl = id` it is the method in exact arithmetic, with
`fl = binary64` it is the method on doubles. -/

/-- Rounding of a rational to the nearest whole number, a tie to the even one. -/
def roundHalfEven (x : ℚ) : ℤ :=
  if x - ⌊x⌋ < 1 / 2 then ⌊x⌋
  else if 1 / 2 < x - ⌊x⌋ then ⌊x⌋ + 1
  else if ⌊x⌋ % 2 = 0 then ⌊x⌋ else ⌊x⌋ + 1

/-- The exponent of the last place of the double nearest to `x`: the `e` with
`2^(e+52) ≤ |x| < 2^(e+53)`. -/
def ulpExponent (x : ℚ) : ℤ := Int.log 2 |x| - 52

/-- The double nearest to `x`, a tie to the even last place: 53 significant
bits.  The range of the exponent is not bounded: overflow to `Infinity` and
underflow are outside the model. -/
def binary64 (x : ℚ) : ℚ := (roundHalfEven (x / 2 ^ ulpExponent x) : ℚ) * 2 ^ ulpExponent x

/-- What the properties below use of the rounding `fl` of the arithmetic: it
keeps the order, `0` and the sign, and a rounded value is its own rounding. -/
structure Rounding (fl : ℚ → ℚ) : Prop where
  mono : Monotone fl
  zero : fl 0 = 0
  neg : ∀ x, fl (-x) = -fl x
  idem : ∀ x, fl (fl x) = fl x

/-- The method `push(distance, waveSpeed)`, every sum and product rounded by
`fl`. -/
def Rounded.BlockSegment.push (fl : ℚ → ℚ) (b : BlockSegment) (distance waveSpeed : ℚ) :
    BlockSegment :=
  { b with
    targetCenter := constrain (fl (b.center + distance)) 0 b.barLength
    velocity := fl (|waveSpeed| * b.speedScale) }

/-- The method `BlockSegment.update(dt)`, every difference, sum and product
rounded by `fl`. -/
def Rounded.BlockSegment.update (fl : ℚ → ℚ) (b : BlockSegment) (dt : ℚ) : BlockSegment :=
  if |fl (b.targetCenter - b.center)| < 1 then
    { b with center := b.targetCenter, velocity := 0 }
  else
    let dir := Math_sign (fl (b.targetCenter - b.center))
    let center := fl (b.center + fl (fl (dir * b.velocity) * dt))
    if (dir > 0 ∧ center > b.targetCenter) ∨ (dir < 0 ∧ center < b.targetCenter) then
      { b with center := b.targetCenter, velocity := 0 }
    else
      { b with center := center }

/-- The value that `this.center += dir * this.velocity * dt` assigns. -/
def Rounded.BlockSegment.stepped (fl : ℚ → ℚ) (b : BlockSegment) (dt : ℚ) : ℚ :=
  fl (b.center + fl (fl (Math_sign (fl (b.targetCenter - b.center)) * b.velocity) * dt))

/-- The tests of `update(dt)` that put the block on its target: the rounded
distance is below one unit, or the value assigned to the center lies strictly
beyond the target. -/
def Rounded.BlockSegment.Snaps (fl : ℚ → ℚ) (b : BlockSegment) (dt : ℚ) : Prop :=
  |fl (b.targetCenter - b.center)| < 1 ∨
    (Math_sign (fl (b.targetCenter - b.center)) > 0 ∧
      Rounded.BlockSegment.stepped fl b dt > b.targetCenter) ∨
    (Math_sign (fl (b.targetCenter - b.center)) < 0 ∧
      Rounded.BlockSegment.stepped fl b dt < b.targetCenter)

/-- A block at `1500` on its way to the target at `3000` with velocity
`1312.5`, the velocity a push by a wave of speed `3750` gives. -/
def landingBlock : BlockSegment :=
  { center := 1500
    length := 30
    blend := 1 / 2
    speedScale := 35 / 100
    barLength := 3000
    targetCenter := 3000
    velocity := 2625 / 2 }

/-- The double `1.142857142857143`, a time step in seconds. -/
def landingStep : ℚ := 5146971002709139 / 4503599627370496

/-- What the field `target` holds when `ensureTargetValid()` is called: no
object (`null`), a target whose center is not a finite number (`NaN`,
`Infinity` or `-Infinity`), or a target whose center is a number. -/
inductive TargetSlot where
  | missing
  | notFinite (length blend barLength : ℚ)
  | finite (t : TargetSegment)

/-- The method `ensureTargetValid()` run with the field `target` holding
`slot`.  With no object, `respawnTargetSafe()` first builds
`new TargetSegment(barLength * 0.5, targetHalfLength, targetBlend, barLength)`.
A center that is not a finite number passes one of the tests `isNaN`, `< 0`
and `> barLength`, and `respawn` overwrites it without reading it, so that `0`
stands for it here (`Controller.respawnTargetSafe_forgets_center`). -/
def Controller.ensureTargetValidAt (c : Controller) (slot : TargetSlot) : Controller :=
  match slot with
  | TargetSlot.missing =>
    Controller.respawnTargetSafe
      { c with
        target := TargetSegment.new (c.barLength * (1 / 2)) c.targetHalfLength c.targetBlend
          c.barLength }
  | TargetSlot.notFinite length blend barLength =>
    Controller.respawnTargetSafe
      { c with
        target := { center := 0, length := length, blend := blend, barLength := barLength } }
  | TargetSlot.finite t => Controller.ensureTargetValid { c with target := t }

/-! ## Waves and anchors, with the rounding of their arithmetic -/

/-- The method `active(t)`, the sum rounded by `fl`. -/
def Rounded.Wave.active (fl : ℚ → ℚ) (w : Wave) (t : ℚ) : Bool :=
  decide (t ≥ w.startTime) && decide (t ≤ fl (w.startTime + w.duration))

/-- The method `displacementAt(x, t)`, every difference, quotient and product
rounded by `fl`; `Math.sin` and `Math.exp` return doubles. -/
def Rounded.Wave.displacementAt (fl : ℚ → ℚ) (M : MathFns) (w : Wave) (x t : ℚ) : ℚ :=
  let tau := fl (t - w.startTime)
  if tau < 0 ∨ ¬ Rounded.Wave.active fl w t = true then 0
  else
    let baseX := if w.dir = 1 then x else fl (w.barLength - x)
    let phaseOffset := fl (baseX / w.c)
    let localTau := fl (tau - phaseOffset)
    if localTau < 0 ∨ localTau > w.halfPeriod then 0
    else
      let amp := fl (w.A0 * M.exp (fl (-w.alpha * baseX)))
      let phase := fl (w.omega * localTau)
      let disp := fl (amp * M.sin phase)
      if w.dir = 1 then disp else -disp

/-- The accumulation `u = 0; waves.forEach(wave => u += wave.displacementAt(x, t))`,
every sum rounded by `fl`. -/
def Rounded.sumDisplacement (fl : ℚ → ℚ) (M : MathFns) (waves : List Wave) (x t : ℚ) : ℚ :=
  waves.foldl (fun u wave => fl (u + Rounded.Wave.displacementAt fl M wave x t)) 0

/-- The method `AnchorSegment.update(waves, t)`, every sum, difference and
product rounded by `fl`. -/
def Rounded.AnchorSegment.update (fl : ℚ → ℚ) (M : MathFns) (s : AnchorSegment)
    (waves : List Wave) (t : ℚ) : AnchorSegment :=
  let breatheScale := fl (1 + fl (s.breatheAmp * M.sin (fl (s.breatheOmega * t))))
  let halfL := fl (s.baseHalfLength * breatheScale)
  let xLeftRest := fl (s.restCenter - halfL)
  let xRightRest := fl (s.restCenter + halfL)
  let uLeft := Rounded.sumDisplacement fl M waves xLeftRest t
  let uRight := Rounded.sumDisplacement fl M waves xRightRest t
  let xLeftWave := fl (xLeftRest + uLeft)
  let xRightWave := fl (xRightRest + uRight)
  let centerWave := fl ((1 / 2) * fl (xLeftWave + xRightWave))
  let halfLWave := max 1 (fl ((1 / 2) * |fl (xRightWave - xLeftWave)|))
  let xRestMid := fl ((1 / 2) * fl (xLeftRest + xRightRest))
  let uMid := Rounded.sumDisplacement fl M waves xRestMid t
  let centerLocal := fl (xRestMid + uMid)
  { s with
    center := fl (fl (fl (1 - s.beta) * centerWave) + fl (s.beta * centerLocal))
    length := halfLWave }

/-- The local `halfL` of the rounded `AnchorSegment.update`. -/
def Rounded.AnchorSegment.halfL (fl : ℚ → ℚ) (M : MathFns) (s : AnchorSegment) (t : ℚ) : ℚ :=
  fl (s.baseHalfLength * fl (1 + fl (s.breatheAmp * M.sin (fl (s.breatheOmega * t)))))

/-- The local `xLeftRest` of the rounded `AnchorSegment.update`. -/
def Rounded.AnchorSegment.xLeftRest (fl : ℚ → ℚ) (M : MathFns) (s : AnchorSegment) (t : ℚ) :
    ℚ :=
  fl (s.restCenter - Rounded.AnchorSegment.halfL fl M s t)

/-- The local `xRightRest` of the rounded `AnchorSegment.update`. -/
def Rounded.AnchorSegment.xRightRest (fl : ℚ → ℚ) (M : MathFns) (s : AnchorSegment) (t : ℚ) :
    ℚ :=
  fl (s.restCenter + Rounded.AnchorSegment.halfL fl M s t)

/-- The local `uLeft` of the rounded `AnchorSegment.update` after its loop. -/
def Rounded.AnchorSegment.uLeft (fl : ℚ → ℚ) (M : MathFns) (s : AnchorSegment)
    (waves : List Wave) (t : ℚ) : ℚ :=
  Rounded.sumDisplacement fl M waves (Rounded.AnchorSegment.xLeftRest fl M s t) t

/-- The local `uRight` of the rounded `AnchorSegment.update` after its loop. -/
def Rounded.AnchorSegment.uRight (fl : ℚ → ℚ) (M : MathFns) (s : AnchorSegment)
    (waves : List Wave) (t : ℚ) : ℚ :=
  Rounded.sumDisplacement fl M waves (Rounded.AnchorSegment.xRightRest fl M s t) t

/-- The local `centerWave` of the rounded `AnchorSegment.update`. -/
def Rounded.AnchorSegment.centerWave (fl : ℚ → ℚ) (M : MathFns) (s : AnchorSegment)
    (waves : List Wave) (t : ℚ) : ℚ :=
  fl ((1 / 2) *
    fl (fl (Rounded.AnchorSegment.xLeftRest fl M s t + Rounded.AnchorSegment.uLeft fl M s waves t) +
      fl (Rounded.AnchorSegment.xRightRest fl M s t +
        Rounded.AnchorSegment.uRight fl M s waves t)))

/-- The local `xRestMid` of the rounded `AnchorSegment.update`. -/
def Rounded.AnchorSegment.xRestMid (fl : ℚ → ℚ) (M : MathFns) (s : AnchorSegment) (t : ℚ) :
    ℚ :=
  fl ((1 / 2) *
    fl (Rounded.AnchorSegment.xLeftRest fl M s t + Rounded.AnchorSegment.xRightRest fl M s t))

/-- The local `uMid` of the rounded `AnchorSegment.update` after its loop. -/
def Rounded.AnchorSegment.uMid (fl : ℚ → ℚ) (M : MathFns) (s : AnchorSegment)
    (waves : List Wave) (t : ℚ) : ℚ :=
  Rounded.sumDisplacement fl M waves (Rounded.AnchorSegment.xRestMid fl M s t) t

/-- The local `centerLocal` of the rounded `AnchorSegment.update`. -/
def Rounded.AnchorSegment.centerLocal (fl : ℚ → ℚ) (M : MathFns) (s : AnchorSegment)
    (waves : List Wave) (t : ℚ) : ℚ :=
  fl (Rounded.AnchorSegment.xRestMid fl M s t + Rounded.AnchorSegment.uMid fl M s waves t)

/-- The third of the four anchors of a bar of length `1536`, as the constructor
builds it on doubles: rest center `3 * 1536 / 5`, the double `921.6`, and half
length `200 * (1536 / 3000)`, the double `102.4`; `beta` is the double `0.6`. -/
def driftAnchor : AnchorSegment :=
  AnchorSegment.new (8106479329266893 / 8796093022208) (3602879701896397 / 35184372088832)
    (3602879701896397 / 72057594037927936) (1 / 2) (3 / 2)
    (5404319552844595 / 9007199254740992)

/-! ## The controller, with the rounding of its arithmetic

The decimal constants `0.05`, `0.95` and `0.7` are not doubles; the program
holds their roundings.  The methods `restoreTargetColor`, `resetTouchState`,
`startTouchFlash` and `transitionToWin` do no arithmetic and are the ones
above. -/

/-- The method `frontPosition(t)`, the difference and the products rounded by
`fl`. -/
def Rounded.Wave.frontPosition (fl : ℚ → ℚ) (w : Wave) (t : ℚ) : ℚ :=
  let tau := fl (t - w.startTime)
  if w.dir = 1 then fl (w.c * tau) else fl (w.barLength - fl (w.c * tau))

/-- The local `margin` of `respawn`, the sum rounded by `fl`. -/
def Rounded.TargetSegment.margin (fl : ℚ → ℚ) (t : TargetSegment) (minGap : ℚ) : ℚ :=
  max (fl (t.length + minGap)) 80

/-- The rejection loop of `respawn`, entered with the locals `candidate` and
`attempts`, every sum and difference rounded by `fl`. -/
def Rounded.TargetSegment.respawnLoop (fl : ℚ → ℚ) (t : TargetSegment)
    (minGap avoidCenter avoidLength : ℚ) (candidate : ℚ) (attempts : ℕ) (rng : Rng) :
    RespawnLocals :=
  if |fl (candidate - avoidCenter)| ≤ fl (fl (t.length + avoidLength) + minGap) ∧
      attempts < 30 then
    let margin := Rounded.TargetSegment.margin fl t minGap
    let draw := random rng margin (fl (t.barLength - margin))
    Rounded.TargetSegment.respawnLoop fl t minGap avoidCenter avoidLength draw.1
      (attempts + 1) draw.2
  else
    { candidate := candidate, attempts := attempts, rng := rng }
termination_by 30 - attempts
decreasing_by omega

/-- The body of `respawn(minGap, avoidCenter, avoidLength)` up to the final
assignment, rounded by `fl`. -/
def Rounded.TargetSegment.respawnRun (fl : ℚ → ℚ) (t : TargetSegment) (minGap : ℚ)
    (avoidCenter : Option ℚ) (avoidLength : ℚ) (rng : Rng) : RespawnLocals :=
  let margin := Rounded.TargetSegment.margin fl t minGap
  let draw := random rng margin (fl (t.barLength - margin))
  match avoidCenter with
  | some ac => Rounded.TargetSegment.respawnLoop fl t minGap ac avoidLength draw.1 0 draw.2
  | none => { candidate := draw.1, attempts := 0, rng := draw.2 }

/-- The method `respawn(minGap, avoidCenter, avoidLength)`, rounded by `fl`. -/
def Rounded.TargetSegment.respawn (fl : ℚ → ℚ) (t : TargetSegment) (minGap : ℚ)
    (avoidCenter : Option ℚ) (avoidLength : ℚ) (rng : Rng) : TargetSegment × Rng :=
  let r := Rounded.TargetSegment.respawnRun fl t minGap avoidCenter avoidLength rng
  ({ t with center := r.candidate }, r.rng)

/-- The body of the `do ... while` loop of `respawnTargetSafe()`, rounded by
`fl`. -/
def Rounded.Controller.respawnTargetSafeLoop (fl : ℚ → ℚ) (c : Controller) (minGap : ℚ)
    (attempts : ℕ) : Controller × ℕ :=
  let r := Rounded.TargetSegment.respawn fl c.target minGap (some c.block.center)
    c.block.length c.env.rng
  let c1 : Controller := { c with target := r.1, env := { c.env with rng := r.2 } }
  let attempts1 := attempts + 1
  if attempts1 < 40 ∧
      |fl (c1.target.center - c1.block.center)| ≤
        fl (fl (c1.target.length + c1.block.length) + minGap) then
    Rounded.Controller.respawnTargetSafeLoop fl c1 minGap attempts1
  else
    (c1, attempts1)
termination_by 40 - attempts
decreasing_by omega

/-- The method `respawnTargetSafe()`, rounded by `fl`. -/
def Rounded.Controller.respawnTargetSafe (fl : ℚ → ℚ) (c : Controller) : Controller :=
  let minGap := c.targetMinGap
  let minCenter := fl (c.barLength * fl (5 / 100))
  let maxCenter := fl (c.barLength * fl (95 / 100))
  let c1 := (Rounded.Controller.respawnTargetSafeLoop fl c minGap 0).1
  let center1 :=
    if c1.target.center < 0 ∨ c1.target.center > c1.barLength then
      min (fl (c1.barLength - 100)) (fl (c1.barLength * fl (7 / 10)))
    else c1.target.center
  { c1 with target := { c1.target with center := max minCenter (min maxCenter center1) } }

/-- The method `ensureTargetValid()`, with the rounded `respawnTargetSafe()`.
In a `Controller` value the target is there and its centre is a number, so
the tests `!this.target` and `isNaN(center)` are false here;
`Controller.ensureTargetValidAt` has the other cases. -/
def Rounded.Controller.ensureTargetValid (fl : ℚ → ℚ) (c : Controller) : Controller :=
  if c.target.center < 0 ∨ c.target.center > c.barLength then
    Rounded.Controller.respawnTargetSafe fl c
  else c

/-- The callback of `this.waves.forEach` in `updateWaves()`, rounded by `fl`. -/
def Rounded.Controller.pushStep (fl : ℚ → ℚ) (now : ℚ) (block : BlockSegment) (wave : Wave) :
    BlockSegment × Wave :=
  if wave.blockPushed = true then (block, wave)
  else
    let front := Rounded.Wave.frontPosition fl wave now
    if (wave.dir = 1 ∧ front ≥ block.center) ∨ (wave.dir = -1 ∧ front ≤ block.center) then
      let baseA0 : ℚ := 400
      let distance := fl (fl (fl (wave.dir * wave.lambda) * fl (wave.A0 / baseA0)) *
        wave.pushScale)
      (Rounded.BlockSegment.push fl block distance wave.c, { wave with blockPushed := true })
    else (block, wave)

/-- The loop `waves.forEach(callback)` of `updateWaves()`, rounded by `fl`. -/
def Rounded.Controller.forEachWave (fl : ℚ → ℚ) (now : ℚ) :
    BlockSegment → List Wave → BlockSegment × List Wave
  | block, [] => (block, [])
  | block, wave :: rest =>
    let r := Rounded.Controller.pushStep fl now block wave
    let rs := Rounded.Controller.forEachWave fl now r.1 rest
    (rs.1, r.2 :: rs.2)

/-- The method `updateWaves()`, rounded by `fl`. -/
def Rounded.Controller.updateWaves (fl : ℚ → ℚ) (c : Controller) : Controller :=
  let now := c.time
  let r := Rounded.Controller.forEachWave fl now c.block
    (c.waves.filter fun w => Rounded.Wave.active fl w now)
  { c with waves := r.2, block := r.1 }

/-- The method `updateSegments()`, rounded by `fl`. -/
def Rounded.Controller.updateSegments (fl : ℚ → ℚ) (M : MathFns) (c : Controller) :
    Controller :=
  { c with
    segments := c.segments.map fun seg => Rounded.AnchorSegment.update fl M seg c.waves c.time }

/-- The method `updateBlock(dt)`, rounded by `fl`. -/
def Rounded.Controller.updateBlock (fl : ℚ → ℚ) (c : Controller) (dt : ℚ) : Controller :=
  { c with block := Rounded.BlockSegment.update fl c.block dt }

/-- The method `isOverlapping()`, the difference and the sum rounded by `fl`. -/
def Rounded.Controller.isOverlapping (fl : ℚ → ℚ) (c : Controller) : Bool :=
  decide (|fl (c.block.center - c.target.center)| ≤ fl (c.block.length + c.target.length))

/-- The method `finishHit(willWin)`, with the rounded `respawnTargetSafe()`. -/
def Rounded.Controller.finishHit (fl : ℚ → ℚ) (c : Controller) (willWin : Bool) :
    Controller :=
  let c1 : Controller := { c with gameState := GameState.HIT }
  let c2 : Controller := { c1.restoreTargetColor with flashState := none }
  if willWin = true then c2.transitionToWin
  else { Rounded.Controller.respawnTargetSafe fl c2 with gameState := GameState.PLAY }

/-- The method `triggerHit()`, with the rounded `finishHit`.  The hit counter
is a small whole number: adding `1` is exact. -/
def Rounded.Controller.triggerHit (fl : ℚ → ℚ) (c : Controller) : Controller :=
  if c.gameState = GameState.HIT then c
  else
    let c1 : Controller := { c with hitCount := c.hitCount + 1 }
    let willWin := decide (c1.hitCount ≥ c1.winHits)
    let c2 : Controller := { c1 with overlapStartTime := none }
    Rounded.Controller.finishHit fl c2 willWin

/-- The method `handleOverlap()`, the overlap test and `elapsed` rounded by
`fl`. -/
def Rounded.Controller.handleOverlap (fl : ℚ → ℚ) (c : Controller) : Controller :=
  if c.gameState = GameState.HIT ∨ c.gameState = GameState.WIN then
    { c with overlappingNow := false }
  else
    let overlap := Rounded.Controller.isOverlapping fl c
    let c1 : Controller := { c with overlappingNow := overlap }
    if overlap = false then c1.resetTouchState
    else
      let c2 : Controller :=
        match c1.overlapStartTime with
        | none =>
          Controller.startTouchFlash
            { c1 with overlapStartTime := some c1.time, gameState := GameState.TOUCH }
        | some _ =>
          if c1.gameState ≠ GameState.TOUCH then { c1 with gameState := GameState.TOUCH }
          else c1
      let elapsed := fl (c2.time - c2.overlapStartTime.getD 0)
      if elapsed ≥ c2.overlapThreshold then Rounded.Controller.triggerHit fl c2 else c2

/-- The method `resetGame()`, rounded by `fl`. -/
def Rounded.Controller.resetGame (fl : ℚ → ℚ) (c : Controller) : Controller :=
  let center := fl (c.barLength * (1 / 2))
  let c1 : Controller :=
    { c with
      hitCount := 0
      time := 0
      winStartTime := none
      waves := []
      block := { c.block with center := center, targetCenter := center, velocity := 0 } }
  let c2 := Rounded.Controller.respawnTargetSafe fl c1
  Controller.restoreTargetColor
    { c2 with
      gameState := GameState.PLAY
      overlapStartTime := none
      overlappingNow := false
      flashState := none }

/-- The method `updateFlash()`, rounded by `fl`. -/
def Rounded.Controller.updateFlash (fl : ℚ → ℚ) (c : Controller) : Controller :=
  match c.flashState with
  | none => c
  | some fs =>
    let elapsed := fl (c.time - fs.start)
    let toggleCount : ℤ := ⌊fl (elapsed / fs.interval)⌋
    let reached : Bool :=
      match fs.flashes with
      | some n => decide ((toggleCount : ℚ) ≥ fl (n * 2))
      | none => false
    let shouldEnd := !fs.continuous && reached
    if shouldEnd = true then
      let c1 : Controller := { c.restoreTargetColor with flashState := none }
      if fs.mode = FlashMode.hit then { c1 with gameState := GameState.PLAY }
      else if fs.mode = FlashMode.touch ∧ c1.overlappingNow = false then
        { c1 with gameState := GameState.PLAY }
      else c1
    else
      let useHit := decide (toggleCount.tmod 2 = 1)
      let col := if useHit = true then fs.hitColor else fs.originalColor
      { c with env := { c.env with targetCore := some col } }

/-- The method `update()`, run with the global `deltaTime` (milliseconds),
every quotient, sum and difference rounded by `fl`. -/
def Rounded.Controller.update (fl : ℚ → ℚ) (M : MathFns) (c : Controller) (deltaTime : ℚ) :
    Controller :=
  if c.gameState = GameState.PLAY ∨ c.gameState = GameState.HIT ∨
      c.gameState = GameState.TOUCH then
    let dt := fl (deltaTime / 1000)
    let c1 : Controller := { c with time := fl (c.time + dt) }
    let c2 := Rounded.Controller.ensureTargetValid fl c1
    let c3 := Rounded.Controller.updateWaves fl c2
    let c4 := Rounded.Controller.updateSegments fl M c3
    let c5 := Rounded.Controller.updateBlock fl c4 dt
    let c6 := Rounded.Controller.handleOverlap fl c5
    Rounded.Controller.updateFlash fl c6
  else if c.gameState = GameState.WIN then
    let dt := fl (deltaTime / 1000)
    let c1 : Controller := { c with time := fl (c.time + dt) }
    let c2 := Rounded.Controller.ensureTargetValid fl c1
    match c2.winStartTime with
    | some w => if fl (c2.time - w) ≥ 3 then Rounded.Controller.resetGame fl c2 else c2
    | none => c2
  else c

/-- The controller inside the rounded `update()` at the call of
`handleOverlap()`, for a tick that starts in `PLAY`, `TOUCH` or `HIT`. -/
def Rounded.Controller.beforeOverlap (fl : ℚ → ℚ) (M : MathFns) (c : Controller)
    (deltaTime : ℚ) : Controller :=
  Rounded.Controller.updateBlock fl
    (Rounded.Controller.updateSegments fl M
      (Rounded.Controller.updateWaves fl
        (Rounded.Controller.ensureTargetValid fl
          { c with time := fl (c.time + fl (deltaTime / 1000)) })))
    (fl (deltaTime / 1000))

/-- The controller after the ticks whose `deltaTime` values are listed, on the
rounded `update()`. -/
def Rounded.Controller.run (fl : ℚ → ℚ) (M : MathFns) : Controller → List ℚ → Controller
  | c, [] => c
  | c, deltaTime :: rest =>
    Rounded.Controller.run fl M (Rounded.Controller.update fl M c deltaTime) rest

/-- Block and target overlap, at the call of `handleOverlap()`, on every one of
the listed ticks of the rounded `update()`. -/
def Rounded.Controller.OverlapsThroughout (fl : ℚ → ℚ) (M : MathFns) :
    Controller → List ℚ → Prop
  | _, [] => True
  | c, deltaTime :: rest =>
    Rounded.Controller.isOverlapping fl (Rounded.Controller.beforeOverlap fl M c deltaTime) =
        true ∧
      Rounded.Controller.OverlapsThroughout fl M (Rounded.Controller.update fl M c deltaTime)
        rest

/-- The value of `this.time` after the listed ticks, from the value `time`:
each tick assigns `time + deltaTime / 1000`, quotient and sum rounded. -/
def Rounded.timeAfter (fl : ℚ → ℚ) : ℚ → List ℚ → ℚ
  | time, [] => time
  | time, deltaTime :: rest => Rounded.timeAfter fl (fl (time + fl (deltaTime / 1000))) rest

/-- On every one of the listed ticks, from the time `time` on, the elapsed
overlap time `this.time - this.overlapStartTime` that `handleOverlap()`
computes is below the threshold. -/
def Rounded.BelowThreshold (fl : ℚ → ℚ) (start threshold : ℚ) : ℚ → List ℚ → Prop
  | _, [] => True
  | time, deltaTime :: rest =>
    fl (fl (time + fl (deltaTime / 1000)) - start) < threshold ∧
      Rounded.BelowThreshold fl start threshold (fl (time + fl (deltaTime / 1000))) rest

/-! ## Sample functions and wave -/

/-- A stand-in for `Math.sin` and `Math.exp` on which the definitions can be
evaluated: the first terms of their power series. -/
def sampleMath : MathFns :=
  { sin := fun x => x - x ^ 3 / 6
    exp := fun x => 1 + x + x ^ 2 / 2 }

/-- The medium preset launched from the left at time `0` on a bar of length
`3000`. -/
def sampleWave : Wave := Wave.new 1 3000 presetMedium.wave 0

/-! ## Waves: the activity window -/

theorem Math_PI_pos : 0 < Math_PI := by
  unfold Math_PI; norm_num

theorem Wave.active_iff (w : Wave) (t : ℚ) :
    w.active t = true ↔ w.startTime ≤ t ∧ t ≤ w.startTime + w.duration := by
  simp [Wave.active]

/-- C1: outside the window from `startTime` to `startTime + duration` the
method `displacementAt` returns exactly `0`, whatever the wave, the position
and the functions `Math.sin`, `Math.exp`. -/
theorem Wave.displacementAt_outside_window (M : MathFns) (w : Wave) (x t : ℚ)
    (h : t < w.startTime ∨ t > w.startTime + w.duration) :
    w.displacementAt M x t = 0 := by
  unfold Wave.displacementAt
  have hcond : t - w.startTime < 0 ∨ ¬ w.active t = true := by
    rcases h with h | h
    · left; linarith
    · right
      rw [Wave.active_iff]
      intro hc
      linarith [hc.2]
  simp only [hcond, if_true]

theorem Wave.displacementAt_outside_window_witness :
    ((200 : ℚ) < sampleWave.startTime ∨ (200 : ℚ) > sampleWave.startTime + sampleWave.duration) ∧
      sampleWave.displacementAt sampleMath 100 200 = 0 :=
  ⟨by
      right
      simp only [sampleWave, Wave.new, presetMedium, orOne, Math_PI]
      norm_num,
    Wave.displacementAt_outside_window sampleMath sampleWave 100 200 (by
      right
      simp only [sampleWave, Wave.new, presetMedium, orOne, Math_PI]
      norm_num)⟩

/-- C10: a wave built from positive `omega`, `k`, `speedScale` on a bar of
positive length has `c = (omega / k) * speedScale` and
`duration = barLength / c + Math.PI / omega`; `active(t)` holds exactly for
`startTime ≤ t ≤ startTime + duration`; the wave is active half-way through its
travel time and inactive at every time later than `startTime + duration`. -/
theorem Wave.active_window (direction barLength : ℚ) (p : WaveParams) (startTime : ℚ)
    (hω : 0 < p.omega) (hk : 0 < p.k) (hs : 0 < p.speedScale) (hL : 0 < barLength) :
    (Wave.new direction barLength p startTime).c = (p.omega / p.k) * p.speedScale ∧
    (Wave.new direction barLength p startTime).duration =
      barLength / ((p.omega / p.k) * p.speedScale) + Math_PI / p.omega ∧
    (∀ t : ℚ, (Wave.new direction barLength p startTime).active t = true ↔
      startTime ≤ t ∧ t ≤ startTime + (Wave.new direction barLength p startTime).duration) ∧
    (Wave.new direction barLength p startTime).active
      (startTime + (Wave.new direction barLength p startTime).travelTime / 2) = true ∧
    (∀ e : ℚ, 0 < e → (Wave.new direction barLength p startTime).active
      (startTime + (Wave.new direction barLength p startTime).duration + e) = false) := by
  have hs0 : orOne p.speedScale = p.speedScale := by
    unfold orOne; rw [if_neg (ne_of_gt hs)]
  have hc : 0 < (p.omega / p.k) * p.speedScale := mul_pos (div_pos hω hk) hs
  have htravel : 0 < barLength / ((p.omega / p.k) * p.speedScale) := div_pos hL hc
  have hhalf : 0 < Math_PI / p.omega := div_pos Math_PI_pos hω
  refine ⟨?_, ?_, ?_, ?_, ?_⟩
  · simp [Wave.new, hs0]
  · simp [Wave.new, hs0]
  · intro t
    rw [Wave.active_iff]
    simp [Wave.new]
  · rw [Wave.active_iff]
    simp only [Wave.new, hs0]
    constructor <;> linarith
  · intro e he
    rw [Bool.eq_false_iff, Ne, Wave.active_iff]
    intro hc2
    have hst : (Wave.new direction barLength p startTime).startTime = startTime := rfl
    rw [hst] at hc2
    linarith [hc2.2]

theorem Wave.active_window_witness :
    sampleWave.active (0 + sampleWave.travelTime / 2) = true ∧
      sampleWave.active (0 + sampleWave.duration + 1 / 100) = false :=
  have h := Wave.active_window 1 3000 presetMedium.wave 0
    (by norm_num [presetMedium]) (by norm_num [presetMedium])
    (by norm_num [presetMedium]) (by norm_num)
  ⟨h.2.2.2.1, h.2.2.2.2 (1 / 100) (by norm_num)⟩

/-! ## The block: snapping and convergence -/

theorem Math_sign_of_pos {x : ℚ} (h : 0 < x) : Math_sign x = 1 := by
  unfold Math_sign; rw [if_pos h]

theorem Math_sign_of_neg {x : ℚ} (h : x < 0) : Math_sign x = -1 := by
  unfold Math_sign; rw [if_neg (not_lt.mpr (le_of_lt h)), if_pos h]

/-- The five ways `update(dt)` can go: the distance is below one unit; the
target is ahead and the step passes it, or does not; the target is behind and
the step passes it, or does not. -/
theorem BlockSegment.update_cases (b : BlockSegment) (dt : ℚ) :
    (|b.targetCenter - b.center| < 1 ∧ b.update dt = b.snapped) ∨
    (1 ≤ b.targetCenter - b.center ∧ b.targetCenter < b.center + b.velocity * dt ∧
      b.update dt = b.snapped) ∨
    (1 ≤ b.targetCenter - b.center ∧ b.center + b.velocity * dt ≤ b.targetCenter ∧
      b.update dt = { b with center := b.center + b.velocity * dt }) ∨
    (b.targetCenter - b.center ≤ -1 ∧ b.center - b.velocity * dt < b.targetCenter ∧
      b.update dt = b.snapped) ∨
    (b.targetCenter - b.center ≤ -1 ∧ b.targetCenter ≤ b.center - b.velocity * dt ∧
      b.update dt = { b with center := b.center - b.velocity * dt }) := by
  by_cases h1 : |b.targetCenter - b.center| < 1
  · left
    exact ⟨h1, by unfold BlockSegment.update; rw [if_pos h1]; rfl⟩
  · right
    have h1' : 1 ≤ |b.targetCenter - b.center| := not_lt.mp h1
    rcases le_abs'.mp h1' with hneg | hpos
    · -- the target is behind the block
      right; right
      have hlt : b.targetCenter - b.center < 0 := by linarith
      have hsign := Math_sign_of_neg hlt
      by_cases hpass : b.center - b.velocity * dt < b.targetCenter
      · left
        refine ⟨hneg, hpass, ?_⟩
        unfold BlockSegment.update
        rw [if_neg h1]
        simp only [hsign]
        rw [if_pos]
        · rfl
        · right
          exact ⟨by norm_num, by linarith⟩
      · right
        refine ⟨hneg, not_lt.mp hpass, ?_⟩
        unfold BlockSegment.update
        rw [if_neg h1]
        simp only [hsign]
        rw [if_neg]
        · congr 1; ring
        · rintro (⟨h, -⟩ | ⟨-, h⟩)
          · norm_num at h
          · exact hpass (by linarith)
    · -- the target is ahead of the block
      have hgt : 0 < b.targetCenter - b.center := by linarith
      have hsign := Math_sign_of_pos hgt
      by_cases hpass : b.targetCenter < b.center + b.velocity * dt
      · left
        refine ⟨hpos, hpass, ?_⟩
        unfold BlockSegment.update
        rw [if_neg h1]
        simp only [hsign]
        rw [if_pos]
        · rfl
        · left
          exact ⟨by norm_num, by linarith⟩
      · right; left
        refine ⟨hpos, not_lt.mp hpass, ?_⟩
        unfold BlockSegment.update
        rw [if_neg h1]
        simp only [hsign]
        rw [if_neg]
        · congr 1; ring
        · rintro (⟨-, h⟩ | ⟨h, -⟩)
          · exact hpass (by linarith)
          · norm_num at h

/-- C5, as stated, fails: a push of distance `0` on a freshly built block, and
an update step that lands exactly on the target, both give a reachable state
with `center = targetCenter` and velocity `1344`. -/
theorem BlockSegment.velocity_at_target_counterexample :
    ((sampleBlock.push 0 3840).Reachable ∧
      (sampleBlock.push 0 3840).center = (sampleBlock.push 0 3840).targetCenter ∧
      (sampleBlock.push 0 3840).velocity = 1344) ∧
    (((sampleBlock.push 1344 3840).update 1).Reachable ∧
      ((sampleBlock.push 1344 3840).update 1).center =
        ((sampleBlock.push 1344 3840).update 1).targetCenter ∧
      ((sampleBlock.push 1344 3840).update 1).velocity = 1344) := by
  refine ⟨⟨?_, ?_, ?_⟩, ?_, ?_, ?_⟩
  · exact BlockSegment.Reachable.push 0 3840 (BlockSegment.Reachable.new _ _ _ _ _)
  · norm_num [sampleBlock, BlockSegment.new, BlockSegment.push, constrain]
  · norm_num [sampleBlock, BlockSegment.new, BlockSegment.push, constrain]
  · exact BlockSegment.Reachable.update 1
      (BlockSegment.Reachable.push 1344 3840 (BlockSegment.Reachable.new _ _ _ _ _))
  · norm_num [sampleBlock, BlockSegment.new, BlockSegment.push, BlockSegment.update, constrain,
      Math_sign]
  · norm_num [sampleBlock, BlockSegment.new, BlockSegment.push, BlockSegment.update, constrain,
      Math_sign]

/-! ## The target: respawn -/

/-- Whatever holds of the candidate at the entry of the rejection loop and of
every value of the random stream holds of the candidate at the exit. -/
theorem TargetSegment.respawnLoop_candidate (P : ℚ → Prop) (t : TargetSegment)
    (minGap avoidCenter avoidLength : ℚ) (candidate : ℚ) (attempts : ℕ) (rng : Rng)
    (hc : P candidate) (hr : ∀ i, P (rng i)) :
    P (t.respawnLoop minGap avoidCenter avoidLength candidate attempts rng).candidate := by
  induction candidate, attempts, rng using
    TargetSegment.respawnLoop.induct t minGap avoidCenter avoidLength with
  | case1 candidate attempts rng hcond margin draw ih =>
    rw [TargetSegment.respawnLoop, if_pos hcond]
    exact ih (hr 0) (fun i => hr (i + 1))
  | case2 candidate attempts rng hcond =>
    rw [TargetSegment.respawnLoop, if_neg hcond]
    exact hc

/-- At the exit of the rejection loop either the candidate is clear of the
exclusion zone or the thirty redraws are used up. -/
theorem TargetSegment.respawnLoop_exit (t : TargetSegment)
    (minGap avoidCenter avoidLength : ℚ) (candidate : ℚ) (attempts : ℕ) (rng : Rng) :
    t.length + avoidLength + minGap <
        |(t.respawnLoop minGap avoidCenter avoidLength candidate attempts rng).candidate
          - avoidCenter| ∨
      30 ≤ (t.respawnLoop minGap avoidCenter avoidLength candidate attempts rng).attempts := by
  induction candidate, attempts, rng using
    TargetSegment.respawnLoop.induct t minGap avoidCenter avoidLength with
  | case1 candidate attempts rng hcond margin draw ih =>
    rw [TargetSegment.respawnLoop, if_pos hcond]
    exact ih
  | case2 candidate attempts rng hcond =>
    rw [TargetSegment.respawnLoop, if_neg hcond]
    rcases not_and_or.mp hcond with h | h
    · left; exact not_le.mp h
    · right; exact not_lt.mp h

/-- Whatever holds of every value of the random stream holds of the center
that `respawn` leaves. -/
theorem TargetSegment.respawn_center (P : ℚ → Prop) (t : TargetSegment) (minGap : ℚ)
    (avoidCenter : Option ℚ) (avoidLength : ℚ) (rng : Rng) (hr : ∀ i, P (rng i)) :
    P (t.respawn minGap avoidCenter avoidLength rng).1.center := by
  cases avoidCenter with
  | none => exact hr 0
  | some ac =>
    exact TargetSegment.respawnLoop_candidate P t minGap ac avoidLength _ 0 _ (hr 0)
      (fun i => hr (i + 1))

/-- C7, as stated, fails on a short bar: for the target of a bar of length
`100` the margin is `80`, every draw `70` lies between the arguments `80` and
`20` of `random`, and `respawn` leaves the center `70`, which is not in the
(empty) range from `margin` to `barLength - margin`. -/
theorem TargetSegment.respawn_margin_counterexample :
    narrowTarget.margin 10 = 80 ∧
    (∀ i, Between (narrowTarget.margin 10) (narrowTarget.barLength - narrowTarget.margin 10)
      (narrowDraws i)) ∧
    (narrowTarget.respawn 10 (some 50) 1 narrowDraws).1.center = 70 ∧
    ¬ (narrowTarget.margin 10 ≤ (narrowTarget.respawn 10 (some 50) 1 narrowDraws).1.center ∧
        (narrowTarget.respawn 10 (some 50) 1 narrowDraws).1.center ≤
          narrowTarget.barLength - narrowTarget.margin 10) := by
  have hm : narrowTarget.margin 10 = 80 := by
    norm_num [narrowTarget, TargetSegment.new, TargetSegment.margin]
  have hc : (narrowTarget.respawn 10 (some 50) 1 narrowDraws).1.center = 70 := by
    simp only [TargetSegment.respawn, TargetSegment.respawnRun, random, narrowDraws]
    rw [TargetSegment.respawnLoop, if_neg]
    norm_num [narrowTarget, TargetSegment.new, abs_le]
  refine ⟨hm, ?_, hc, ?_⟩
  · intro i
    rw [hm]
    norm_num [Between, narrowTarget, TargetSegment.new, narrowDraws]
  · rw [hm, hc]
    norm_num

/-- C7, amended: when every value that `random` returns lies between its two
arguments, `respawn` leaves the center between `margin` and
`barLength - margin`, and so within the range from `margin` to
`barLength - margin` whenever that range is not empty
(`margin ≤ barLength - margin`); the other fields are untouched. -/
theorem TargetSegment.respawn_within_margin (t : TargetSegment) (minGap : ℚ)
    (avoidCenter : Option ℚ) (avoidLength : ℚ) (rng : Rng)
    (hdraw : ∀ i, Between (t.margin minGap) (t.barLength - t.margin minGap) (rng i)) :
    Between (t.margin minGap) (t.barLength - t.margin minGap)
      (t.respawn minGap avoidCenter avoidLength rng).1.center ∧
    (t.margin minGap ≤ t.barLength - t.margin minGap →
      t.margin minGap ≤ (t.respawn minGap avoidCenter avoidLength rng).1.center ∧
        (t.respawn minGap avoidCenter avoidLength rng).1.center ≤
          t.barLength - t.margin minGap) ∧
    (t.respawn minGap avoidCenter avoidLength rng).1.length = t.length ∧
    (t.respawn minGap avoidCenter avoidLength rng).1.barLength = t.barLength := by
  have hb := TargetSegment.respawn_center
    (Between (t.margin minGap) (t.barLength - t.margin minGap)) t minGap avoidCenter
    avoidLength rng hdraw
  refine ⟨hb, ?_, rfl, rfl⟩
  intro hroom
  have h1 := hb.1
  have h2 := hb.2
  rw [min_eq_left hroom] at h1
  rw [max_eq_right hroom] at h2
  exact ⟨h1, h2⟩

theorem TargetSegment.respawn_within_margin_witness :
    sampleTarget.margin 80 ≤ (sampleTarget.respawn 80 (some 1500) 30 sampleDraws).1.center ∧
      (sampleTarget.respawn 80 (some 1500) 30 sampleDraws).1.center ≤
        sampleTarget.barLength - sampleTarget.margin 80 := by
  have hm : sampleTarget.margin 80 = 170 := by
    norm_num [sampleTarget, TargetSegment.new, TargetSegment.margin]
  have hL : sampleTarget.barLength = 3000 := rfl
  have h := TargetSegment.respawn_within_margin sampleTarget 80 (some 1500) 30 sampleDraws
    (by
      intro i
      rw [hm, hL]
      by_cases hi : i = 0
      · norm_num [Between, sampleDraws, hi]
      · norm_num [Between, sampleDraws, hi])
  exact h.2.1 (by rw [hm, hL]; norm_num)

/-- C8: when `respawn` is called with an `avoidCenter` and its rejection loop
is left with fewer than thirty redraws made, the new center is clear of the
exclusion zone: `|center - avoidCenter| > length + avoidLength + minGap`. -/
theorem TargetSegment.respawn_clear_of_zone (t : TargetSegment)
    (minGap avoidCenter avoidLength : ℚ) (rng : Rng)
    (hstop : (t.respawnRun minGap (some avoidCenter) avoidLength rng).attempts < 30) :
    |(t.respawn minGap (some avoidCenter) avoidLength rng).1.center - avoidCenter| >
      t.length + avoidLength + minGap := by
  have h := TargetSegment.respawnLoop_exit t minGap avoidCenter avoidLength
    (random rng (t.margin minGap) (t.barLength - t.margin minGap)).1 0
    (random rng (t.margin minGap) (t.barLength - t.margin minGap)).2
  rcases h with h | h
  · exact h
  · exact absurd hstop (not_lt.mpr h)

theorem TargetSegment.respawn_clear_of_zone_witness :
    (sampleTarget.respawnRun 80 (some 1500) 90 sampleDraws).attempts = 1 ∧
      |(sampleTarget.respawn 80 (some 1500) 90 sampleDraws).1.center - 1500| >
        sampleTarget.length + 90 + 80 := by
  have ha : (sampleTarget.respawnRun 80 (some 1500) 90 sampleDraws).attempts = 1 := by
    simp [TargetSegment.respawnRun, TargetSegment.respawnLoop, random, Rng.rest, sampleTarget,
      sampleDraws, TargetSegment.new, TargetSegment.margin]
    norm_num [abs_le]
  exact ⟨ha, TargetSegment.respawn_clear_of_zone sampleTarget 80 1500 90 sampleDraws
    (by rw [ha]; norm_num)⟩

/-! ## Waves push the block once -/

/-- The callback of `updateWaves()` either leaves block and wave as they are,
or, when `pushFires` holds, pushes the block and sets the flag of the wave. -/
theorem Controller.pushStep_eq (now : ℚ) (block : BlockSegment) (wave : Wave) :
    (¬ Controller.pushFires now block wave ∧
      Controller.pushStep now block wave = (block, wave)) ∨
    (Controller.pushFires now block wave ∧
      Controller.pushStep now block wave =
        (block.push (Controller.pushDistance wave) wave.c,
          { wave with blockPushed := true })) := by
  unfold Controller.pushStep Controller.pushFires
  by_cases hp : wave.blockPushed = true
  · left
    rw [if_pos hp]
    exact ⟨fun h => by rw [hp] at h; exact Bool.noConfusion h.1, rfl⟩
  · rw [if_neg hp]
    have hf : wave.blockPushed = false := Bool.eq_false_iff.mpr hp
    by_cases hr : Controller.frontReached now block wave
    · right
      rw [if_pos hr]
      exact ⟨⟨hf, hr⟩, rfl⟩
    · left
      rw [if_neg hr]
      exact ⟨fun h => hr h.2, rfl⟩

/-- A wave whose flag is set is never pushed from, flipped or reset again. -/
theorem Controller.pushed_wave_is_inert (wave : Wave) (visits : List (ℚ × BlockSegment))
    (hp : wave.blockPushed = true) :
    Controller.pushCount wave visits = 0 ∧ Controller.flagFlips wave visits = 0 ∧
      Controller.flagResets wave visits = 0 := by
  induction visits with
  | nil => exact ⟨rfl, rfl, rfl⟩
  | cons v rest ih =>
    have hstep : Controller.pushStep v.1 v.2 wave = (v.2, wave) := by
      unfold Controller.pushStep; rw [if_pos hp]
    have hnf : ¬ Controller.pushFires v.1 v.2 wave := by
      intro h; rw [h.1] at hp; exact Bool.noConfusion hp
    simp only [Controller.pushCount, Controller.flagFlips, Controller.flagResets, hstep,
      if_neg hnf, ih.1, ih.2.1, ih.2.2, hp]
    simp

/-- C9: in one call of `updateWaves()` every wave that is kept is either left
as it is or has its flag `blockPushed` changed from `false` to `true`, and a
call in which every wave is already flagged leaves the block alone; and along
any sequence of visits of the callback to one wave instance, `block.push` is
called at most once, the flag goes from `false` to `true` at most once and
never from `true` to `false`, and a flagged wave never pushes again. -/
theorem Controller.wave_pushes_block_at_most_once (c : Controller) (wave : Wave)
    (visits : List (ℚ × BlockSegment)) :
    List.Forall₂
      (fun w w1 => w1 = w ∨ (w.blockPushed = false ∧ w1 = { w with blockPushed := true }))
      (c.waves.filter fun w => w.active c.time) c.updateWaves.waves ∧
    ((∀ w ∈ c.waves, w.blockPushed = true) → c.updateWaves.block = c.block) ∧
    Controller.pushCount wave visits ≤ 1 ∧
    Controller.flagFlips wave visits ≤ 1 ∧
    Controller.flagResets wave visits = 0 ∧
    (wave.blockPushed = true → Controller.pushCount wave visits = 0) := by
  refine ⟨?_, ?_, ?_, ?_, ?_, fun hp => (Controller.pushed_wave_is_inert wave visits hp).1⟩
  · -- one call, the waves
    show List.Forall₂ _ _ (Controller.forEachWave c.time c.block
      (c.waves.filter fun w => w.active c.time)).2
    generalize (c.waves.filter fun w => w.active c.time) = ws
    generalize c.block = block
    induction ws generalizing block with
    | nil => exact List.Forall₂.nil
    | cons w rest ih =>
      simp only [Controller.forEachWave]
      refine List.Forall₂.cons ?_ (ih _)
      rcases Controller.pushStep_eq c.time block w with ⟨_, he⟩ | ⟨hf, he⟩
      · left; rw [he]
      · right; rw [he]; exact ⟨hf.1, rfl⟩
  · -- one call, the block
    intro hall
    show (Controller.forEachWave c.time c.block
      (c.waves.filter fun w => w.active c.time)).1 = c.block
    have hall2 : ∀ w ∈ (c.waves.filter fun w => w.active c.time), w.blockPushed = true :=
      fun w hw => hall w (List.mem_of_mem_filter hw)
    generalize (c.waves.filter fun w => w.active c.time) = ws at hall2
    generalize c.block = block
    induction ws generalizing block with
    | nil => rfl
    | cons w rest ih =>
      have hw : w.blockPushed = true := hall2 w (List.mem_cons_self _ _)
      have hstep : Controller.pushStep c.time block w = (block, w) := by
        unfold Controller.pushStep; rw [if_pos hw]
      simp only [Controller.forEachWave, hstep]
      exact ih (fun w1 h1 => hall2 w1 (List.mem_cons_of_mem _ h1)) block
  · -- a wave instance: calls of push
    induction visits generalizing wave with
    | nil => exact Nat.zero_le _
    | cons v rest ih =>
      rcases Controller.pushStep_eq v.1 v.2 wave with ⟨hn, he⟩ | ⟨hf, he⟩
      · simp only [Controller.pushCount, if_neg hn, he, Nat.zero_add]
        exact ih wave
      · simp only [Controller.pushCount, if_pos hf, he]
        rw [(Controller.pushed_wave_is_inert _ rest rfl).1]
  · -- a wave instance: flips of the flag
    induction visits generalizing wave with
    | nil => exact Nat.zero_le _
    | cons v rest ih =>
      rcases Controller.pushStep_eq v.1 v.2 wave with ⟨_, he⟩ | ⟨hf, he⟩
      · simp only [Controller.flagFlips, he]
        have hz : ¬ (wave.blockPushed = false ∧ wave.blockPushed = true) := by
          rintro ⟨h1, h2⟩; rw [h1] at h2; exact Bool.noConfusion h2
        rw [if_neg hz, Nat.zero_add]
        exact ih wave
      · simp only [Controller.flagFlips, he]
        rw [(Controller.pushed_wave_is_inert _ rest rfl).2.1]
        split <;> simp
  · -- a wave instance: the flag is never cleared
    induction visits generalizing wave with
    | nil => rfl
    | cons v rest ih =>
      rcases Controller.pushStep_eq v.1 v.2 wave with ⟨_, he⟩ | ⟨hf, he⟩
      · simp only [Controller.flagResets, he]
        have hz : ¬ (wave.blockPushed = true ∧ wave.blockPushed = false) := by
          rintro ⟨h1, h2⟩; rw [h1] at h2; exact Bool.noConfusion h2
        rw [if_neg hz, Nat.zero_add]
        exact ih wave
      · simp only [Controller.flagResets, he]
        rw [(Controller.pushed_wave_is_inert _ rest rfl).2.2]
        simp

/-! ## The controller: what the target respawn leaves alone -/

/-- The loop of `respawnTargetSafe()` changes the target and the random stream
only. -/
theorem Controller.respawnTargetSafeLoop_shape (c : Controller) (minGap : ℚ) (attempts : ℕ) :
    ∃ tgt rng, (c.respawnTargetSafeLoop minGap attempts).1 =
      { c with target := tgt, env := { c.env with rng := rng } } := by
  induction c, minGap, attempts using Controller.respawnTargetSafeLoop.induct with
  | case1 c minGap attempts r c1 attempts1 hcond ih =>
    rw [Controller.respawnTargetSafeLoop, if_pos hcond]
    obtain ⟨tgt, rng, h⟩ := ih
    exact ⟨tgt, rng, h⟩
  | case2 c minGap attempts r c1 attempts1 hcond =>
    rw [Controller.respawnTargetSafeLoop, if_neg hcond]
    exact ⟨_, _, rfl⟩

/-- The method `respawnTargetSafe()` changes the target and the random stream
only. -/
theorem Controller.respawnTargetSafe_shape (c : Controller) :
    ∃ tgt rng, c.respawnTargetSafe =
      { c with target := tgt, env := { c.env with rng := rng } } := by
  obtain ⟨tgt, rng, h⟩ := c.respawnTargetSafeLoop_shape c.targetMinGap 0
  unfold Controller.respawnTargetSafe
  simp only [h]
  exact ⟨_, _, rfl⟩

/-- The method `ensureTargetValid()` changes the target and the random stream
only. -/
theorem Controller.ensureTargetValid_shape (c : Controller) :
    ∃ tgt rng, c.ensureTargetValid =
      { c with target := tgt, env := { c.env with rng := rng } } := by
  unfold Controller.ensureTargetValid
  split
  · exact c.respawnTargetSafe_shape
  · exact ⟨c.target, c.env.rng, rfl⟩

@[simp] theorem Controller.respawnTargetSafe_gameState (c : Controller) :
    c.respawnTargetSafe.gameState = c.gameState := by
  obtain ⟨_, _, h⟩ := c.respawnTargetSafe_shape; rw [h]

@[simp] theorem Controller.respawnTargetSafe_time (c : Controller) :
    c.respawnTargetSafe.time = c.time := by
  obtain ⟨_, _, h⟩ := c.respawnTargetSafe_shape; rw [h]

@[simp] theorem Controller.respawnTargetSafe_winHits (c : Controller) :
    c.respawnTargetSafe.winHits = c.winHits := by
  obtain ⟨_, _, h⟩ := c.respawnTargetSafe_shape; rw [h]

@[simp] theorem Controller.respawnTargetSafe_winStartTime (c : Controller) :
    c.respawnTargetSafe.winStartTime = c.winStartTime := by
  obtain ⟨_, _, h⟩ := c.respawnTargetSafe_shape; rw [h]

@[simp] theorem Controller.respawnTargetSafe_barLength (c : Controller) :
    c.respawnTargetSafe.barLength = c.barLength := by
  obtain ⟨_, _, h⟩ := c.respawnTargetSafe_shape; rw [h]

@[simp] theorem Controller.respawnTargetSafe_barHeight (c : Controller) :
    c.respawnTargetSafe.barHeight = c.barHeight := by
  obtain ⟨_, _, h⟩ := c.respawnTargetSafe_shape; rw [h]

@[simp] theorem Controller.respawnTargetSafe_scale (c : Controller) :
    c.respawnTargetSafe.scale = c.scale := by
  obtain ⟨_, _, h⟩ := c.respawnTargetSafe_shape; rw [h]

@[simp] theorem Controller.respawnTargetSafe_segmentCount (c : Controller) :
    c.respawnTargetSafe.segmentCount = c.segmentCount := by
  obtain ⟨_, _, h⟩ := c.respawnTargetSafe_shape; rw [h]

@[simp] theorem Controller.respawnTargetSafe_segmentHalfLength (c : Controller) :
    c.respawnTargetSafe.segmentHalfLength = c.segmentHalfLength := by
  obtain ⟨_, _, h⟩ := c.respawnTargetSafe_shape; rw [h]

@[simp] theorem Controller.respawnTargetSafe_blockHalfLength (c : Controller) :
    c.respawnTargetSafe.blockHalfLength = c.blockHalfLength := by
  obtain ⟨_, _, h⟩ := c.respawnTargetSafe_shape; rw [h]

@[simp] theorem Controller.respawnTargetSafe_blockBlend (c : Controller) :
    c.respawnTargetSafe.blockBlend = c.blockBlend := by
  obtain ⟨_, _, h⟩ := c.respawnTargetSafe_shape; rw [h]

@[simp] theorem Controller.respawnTargetSafe_blockSpeedScale (c : Controller) :
    c.respawnTargetSafe.blockSpeedScale = c.blockSpeedScale := by
  obtain ⟨_, _, h⟩ := c.respawnTargetSafe_shape; rw [h]

@[simp] theorem Controller.respawnTargetSafe_targetHalfLength (c : Controller) :
    c.respawnTargetSafe.targetHalfLength = c.targetHalfLength := by
  obtain ⟨_, _, h⟩ := c.respawnTargetSafe_shape; rw [h]

@[simp] theorem Controller.respawnTargetSafe_targetBlend (c : Controller) :
    c.respawnTargetSafe.targetBlend = c.targetBlend := by
  obtain ⟨_, _, h⟩ := c.respawnTargetSafe_shape; rw [h]

@[simp] theorem Controller.respawnTargetSafe_targetMinGap (c : Controller) :
    c.respawnTargetSafe.targetMinGap = c.targetMinGap := by
  obtain ⟨_, _, h⟩ := c.respawnTargetSafe_shape; rw [h]

@[simp] theorem Controller.respawnTargetSafe_targetOffsetFromCenter (c : Controller) :
    c.respawnTargetSafe.targetOffsetFromCenter = c.targetOffsetFromCenter := by
  obtain ⟨_, _, h⟩ := c.respawnTargetSafe_shape; rw [h]

@[simp] theorem Controller.respawnTargetSafe_overlapThreshold (c : Controller) :
    c.respawnTargetSafe.overlapThreshold = c.overlapThreshold := by
  obtain ⟨_, _, h⟩ := c.respawnTargetSafe_shape; rw [h]

@[simp] theorem Controller.respawnTargetSafe_anchorParams (c : Controller) :
    c.respawnTargetSafe.anchorParams = c.anchorParams := by
  obtain ⟨_, _, h⟩ := c.respawnTargetSafe_shape; rw [h]

@[simp] theorem Controller.respawnTargetSafe_waveParams (c : Controller) :
    c.respawnTargetSafe.waveParams = c.waveParams := by
  obtain ⟨_, _, h⟩ := c.respawnTargetSafe_shape; rw [h]

@[simp] theorem Controller.respawnTargetSafe_waves (c : Controller) :
    c.respawnTargetSafe.waves = c.waves := by
  obtain ⟨_, _, h⟩ := c.respawnTargetSafe_shape; rw [h]

@[simp] theorem Controller.respawnTargetSafe_hitCount (c : Controller) :
    c.respawnTargetSafe.hitCount = c.hitCount := by
  obtain ⟨_, _, h⟩ := c.respawnTargetSafe_shape; rw [h]

@[simp] theorem Controller.respawnTargetSafe_segments (c : Controller) :
    c.respawnTargetSafe.segments = c.segments := by
  obtain ⟨_, _, h⟩ := c.respawnTargetSafe_shape; rw [h]

@[simp] theorem Controller.respawnTargetSafe_block (c : Controller) :
    c.respawnTargetSafe.block = c.block := by
  obtain ⟨_, _, h⟩ := c.respawnTargetSafe_shape; rw [h]

@[simp] theorem Controller.respawnTargetSafe_overlapStartTime (c : Controller) :
    c.respawnTargetSafe.overlapStartTime = c.overlapStartTime := by
  obtain ⟨_, _, h⟩ := c.respawnTargetSafe_shape; rw [h]

@[simp] theorem Controller.respawnTargetSafe_overlappingNow (c : Controller) :
    c.respawnTargetSafe.overlappingNow = c.overlappingNow := by
  obtain ⟨_, _, h⟩ := c.respawnTargetSafe_shape; rw [h]

@[simp] theorem Controller.respawnTargetSafe_baseTargetColor (c : Controller) :
    c.respawnTargetSafe.baseTargetColor = c.baseTargetColor := by
  obtain ⟨_, _, h⟩ := c.respawnTargetSafe_shape; rw [h]

@[simp] theorem Controller.respawnTargetSafe_flashState (c : Controller) :
    c.respawnTargetSafe.flashState = c.flashState := by
  obtain ⟨_, _, h⟩ := c.respawnTargetSafe_shape; rw [h]

@[simp] theorem Controller.respawnTargetSafe_flashInterval (c : Controller) :
    c.respawnTargetSafe.flashInterval = c.flashInterval := by
  obtain ⟨_, _, h⟩ := c.respawnTargetSafe_shape; rw [h]

@[simp] theorem Controller.respawnTargetSafe_env_targetCore (c : Controller) :
    c.respawnTargetSafe.env.targetCore = c.env.targetCore := by
  obtain ⟨_, _, h⟩ := c.respawnTargetSafe_shape; rw [h]

@[simp] theorem Controller.respawnTargetSafe_env_targetHit (c : Controller) :
    c.respawnTargetSafe.env.targetHit = c.env.targetHit := by
  obtain ⟨_, _, h⟩ := c.respawnTargetSafe_shape; rw [h]

@[simp] theorem Controller.ensureTargetValid_gameState (c : Controller) :
    c.ensureTargetValid.gameState = c.gameState := by
  obtain ⟨_, _, h⟩ := c.ensureTargetValid_shape; rw [h]

@[simp] theorem Controller.ensureTargetValid_time (c : Controller) :
    c.ensureTargetValid.time = c.time := by
  obtain ⟨_, _, h⟩ := c.ensureTargetValid_shape; rw [h]

@[simp] theorem Controller.ensureTargetValid_winHits (c : Controller) :
    c.ensureTargetValid.winHits = c.winHits := by
  obtain ⟨_, _, h⟩ := c.ensureTargetValid_shape; rw [h]

@[simp] theorem Controller.ensureTargetValid_winStartTime (c : Controller) :
    c.ensureTargetValid.winStartTime = c.winStartTime := by
  obtain ⟨_, _, h⟩ := c.ensureTargetValid_shape; rw [h]

@[simp] theorem Controller.ensureTargetValid_barLength (c : Controller) :
    c.ensureTargetValid.barLength = c.barLength := by
  obtain ⟨_, _, h⟩ := c.ensureTargetValid_shape; rw [h]

@[simp] theorem Controller.ensureTargetValid_barHeight (c : Controller) :
    c.ensureTargetValid.barHeight = c.barHeight := by
  obtain ⟨_, _, h⟩ := c.ensureTargetValid_shape; rw [h]

@[simp] theorem Controller.ensureTargetValid_scale (c : Controller) :
    c.ensureTargetValid.scale = c.scale := by
  obtain ⟨_, _, h⟩ := c.ensureTargetValid_shape; rw [h]

@[simp] theorem Controller.ensureTargetValid_segmentCount (c : Controller) :
    c.ensureTargetValid.segmentCount = c.segmentCount := by
  obtain ⟨_, _, h⟩ := c.ensureTargetValid_shape; rw [h]

@[simp] theorem Controller.ensureTargetValid_segmentHalfLength (c : Controller) :
    c.ensureTargetValid.segmentHalfLength = c.segmentHalfLength := by
  obtain ⟨_, _, h⟩ := c.ensureTargetValid_shape; rw [h]

@[simp] theorem Controller.ensureTargetValid_blockHalfLength (c : Controller) :
    c.ensureTargetValid.blockHalfLength = c.blockHalfLength := by
  obtain ⟨_, _, h⟩ := c.ensureTargetValid_shape; rw [h]

@[simp] theorem Controller.ensureTargetValid_blockBlend (c : Controller) :
    c.ensureTargetValid.blockBlend = c.blockBlend := by
  obtain ⟨_, _, h⟩ := c.ensureTargetValid_shape; rw [h]

@[simp] theorem Controller.ensureTargetValid_blockSpeedScale (c : Controller) :
    c.ensureTargetValid.blockSpeedScale = c.blockSpeedScale := by
  obtain ⟨_, _, h⟩ := c.ensureTargetValid_shape; rw [h]

@[simp] theorem Controller.ensureTargetValid_targetHalfLength (c : Controller) :
    c.ensureTargetValid.targetHalfLength = c.targetHalfLength := by
  obtain ⟨_, _, h⟩ := c.ensureTargetValid_shape; rw [h]

@[simp] theorem Controller.ensureTargetValid_targetBlend (c : Controller) :
    c.ensureTargetValid.targetBlend = c.targetBlend := by
  obtain ⟨_, _, h⟩ := c.ensureTargetValid_shape; rw [h]

@[simp] theorem Controller.ensureTargetValid_targetMinGap (c : Controller) :
    c.ensureTargetValid.targetMinGap = c.targetMinGap := by
  obtain ⟨_, _, h⟩ := c.ensureTargetValid_shape; rw [h]

@[simp] theorem Controller.ensureTargetValid_targetOffsetFromCenter (c : Controller) :
    c.ensureTargetValid.targetOffsetFromCenter = c.targetOffsetFromCenter := by
  obtain ⟨_, _, h⟩ := c.ensureTargetValid_shape; rw [h]

@[simp] theorem Controller.ensureTargetValid_overlapThreshold (c : Controller) :
    c.ensureTargetValid.overlapThreshold = c.overlapThreshold := by
  obtain ⟨_, _, h⟩ := c.ensureTargetValid_shape; rw [h]

@[simp] theorem Controller.ensureTargetValid_anchorParams (c : Controller) :
    c.ensureTargetValid.anchorParams = c.anchorParams := by
  obtain ⟨_, _, h⟩ := c.ensureTargetValid_shape; rw [h]

@[simp] theorem Controller.ensureTargetValid_waveParams (c : Controller) :
    c.ensureTargetValid.waveParams = c.waveParams := by
  obtain ⟨_, _, h⟩ := c.ensureTargetValid_shape; rw [h]

@[simp] theorem Controller.ensureTargetValid_waves (c : Controller) :
    c.ensureTargetValid.waves = c.waves := by
  obtain ⟨_, _, h⟩ := c.ensureTargetValid_shape; rw [h]

@[simp] theorem Controller.ensureTargetValid_hitCount (c : Controller) :
    c.ensureTargetValid.hitCount = c.hitCount := by
  obtain ⟨_, _, h⟩ := c.ensureTargetValid_shape; rw [h]

@[simp] theorem Controller.ensureTargetValid_segments (c : Controller) :
    c.ensureTargetValid.segments = c.segments := by
  obtain ⟨_, _, h⟩ := c.ensureTargetValid_shape; rw [h]

@[simp] theorem Controller.ensureTargetValid_block (c : Controller) :
    c.ensureTargetValid.block = c.block := by
  obtain ⟨_, _, h⟩ := c.ensureTargetValid_shape; rw [h]

@[simp] theorem Controller.ensureTargetValid_overlapStartTime (c : Controller) :
    c.ensureTargetValid.overlapStartTime = c.overlapStartTime := by
  obtain ⟨_, _, h⟩ := c.ensureTargetValid_shape; rw [h]

@[simp] theorem Controller.ensureTargetValid_overlappingNow (c : Controller) :
    c.ensureTargetValid.overlappingNow = c.overlappingNow := by
  obtain ⟨_, _, h⟩ := c.ensureTargetValid_shape; rw [h]

@[simp] theorem Controller.ensureTargetValid_baseTargetColor (c : Controller) :
    c.ensureTargetValid.baseTargetColor = c.baseTargetColor := by
  obtain ⟨_, _, h⟩ := c.ensureTargetValid_shape; rw [h]

@[simp] theorem Controller.ensureTargetValid_flashState (c : Controller) :
    c.ensureTargetValid.flashState = c.flashState := by
  obtain ⟨_, _, h⟩ := c.ensureTargetValid_shape; rw [h]

@[simp] theorem Controller.ensureTargetValid_flashInterval (c : Controller) :
    c.ensureTargetValid.flashInterval = c.flashInterval := by
  obtain ⟨_, _, h⟩ := c.ensureTargetValid_shape; rw [h]

@[simp] theorem Controller.ensureTargetValid_env_targetCore (c : Controller) :
    c.ensureTargetValid.env.targetCore = c.env.targetCore := by
  obtain ⟨_, _, h⟩ := c.ensureTargetValid_shape; rw [h]

@[simp] theorem Controller.ensureTargetValid_env_targetHit (c : Controller) :
    c.ensureTargetValid.env.targetHit = c.env.targetHit := by
  obtain ⟨_, _, h⟩ := c.ensureTargetValid_shape; rw [h]

/-! ## The controller: the WIN phase -/

/-- C4: a tick in state `WIN` with `winStartTime = w` advances the time by
`dt = deltaTime / 1000`; while `time + dt - w < 3` it leaves the state `WIN`
with hit counter, waves and block as they are; otherwise it runs the full
reset: state `PLAY`, hit counter `0`, time `0`, no waves, no win or overlap
start time, the block at rest at the middle of the bar. -/
theorem Controller.update_in_win (M : MathFns) (c : Controller) (deltaTime w : ℚ)
    (hs : c.gameState = GameState.WIN) (hw : c.winStartTime = some w) :
    (c.time + deltaTime / 1000 - w < 3 →
      (c.update M deltaTime).gameState = GameState.WIN ∧
      (c.update M deltaTime).hitCount = c.hitCount ∧
      (c.update M deltaTime).waves = c.waves ∧
      (c.update M deltaTime).block = c.block ∧
      (c.update M deltaTime).time = c.time + deltaTime / 1000 ∧
      (c.update M deltaTime).winStartTime = some w) ∧
    (¬ (c.time + deltaTime / 1000 - w < 3) →
      (c.update M deltaTime).gameState = GameState.PLAY ∧
      (c.update M deltaTime).hitCount = 0 ∧
      (c.update M deltaTime).time = 0 ∧
      (c.update M deltaTime).waves = [] ∧
      (c.update M deltaTime).winStartTime = none ∧
      (c.update M deltaTime).overlapStartTime = none ∧
      (c.update M deltaTime).block.center = c.barLength * (1 / 2) ∧
      (c.update M deltaTime).block.targetCenter = c.barLength * (1 / 2) ∧
      (c.update M deltaTime).block.velocity = 0) := by
  have h1 : ¬ (c.gameState = GameState.PLAY ∨ c.gameState = GameState.HIT ∨
      c.gameState = GameState.TOUCH) := by
    rw [hs]; decide
  have hwin : (Controller.ensureTargetValid
      { c with time := c.time + deltaTime / 1000 }).winStartTime = some w := by
    rw [Controller.ensureTargetValid_winStartTime]; exact hw
  have htime : (Controller.ensureTargetValid
      { c with time := c.time + deltaTime / 1000 }).time = c.time + deltaTime / 1000 := by
    rw [Controller.ensureTargetValid_time]
  have hupd : c.update M deltaTime =
      if c.time + deltaTime / 1000 - w ≥ 3 then
        Controller.resetGame
          (Controller.ensureTargetValid { c with time := c.time + deltaTime / 1000 })
      else
        Controller.ensureTargetValid { c with time := c.time + deltaTime / 1000 } := by
    unfold Controller.update
    rw [if_neg h1, if_pos hs]
    simp only [hwin, htime]
  constructor
  · intro hlt
    rw [hupd, if_neg (not_le.mpr hlt)]
    simp [hs, hw]
  · intro hge
    rw [hupd, if_pos (not_lt.mp hge)]
    simp [Controller.resetGame, Controller.restoreTargetColor]

theorem Controller.update_in_win_witness :
    ((sampleWin.update sampleMath 500).gameState = GameState.WIN ∧
      (sampleWin.update sampleMath 500).time = 12 + 500 / 1000) ∧
    ((sampleWin.update sampleMath 2000).gameState = GameState.PLAY ∧
      (sampleWin.update sampleMath 2000).hitCount = 0 ∧
      (sampleWin.update sampleMath 2000).time = 0) := by
  have ha := (Controller.update_in_win sampleMath sampleWin 500 10 rfl rfl).1
    (by show (12 : ℚ) + 500 / 1000 - 10 < 3; norm_num)
  have hb := (Controller.update_in_win sampleMath sampleWin 2000 10 rfl rfl).2
    (by show ¬ ((12 : ℚ) + 2000 / 1000 - 10 < 3); norm_num)
  exact ⟨⟨ha.1, ha.2.2.2.2.1⟩, hb.1, hb.2.1, hb.2.2.1⟩

/-! ## The controller: hits -/

/-- The method `triggerHit()` outside the state `HIT`: the hit is counted; it
wins when the counter reaches `winHits`, and otherwise respawns the target and
returns to `PLAY`. -/
theorem Controller.triggerHit_eq (c : Controller) (hs : c.gameState ≠ GameState.HIT) :
    c.triggerHit =
      if c.hitCount + 1 ≥ c.winHits then c.hitPending.transitionToWin
      else { c.hitPending.respawnTargetSafe with gameState := GameState.PLAY } := by
  unfold Controller.triggerHit
  rw [if_neg hs]
  by_cases hw : c.hitCount + 1 ≥ c.winHits
  · rw [if_pos hw]
    simp only [Controller.finishHit, hw, decide_True, if_true]
    rfl
  · rw [if_neg hw]
    simp only [Controller.finishHit, hw, decide_False]
    rfl

/-- The fields that a hit sets, and those it leaves alone. -/
theorem Controller.triggerHit_spec (c : Controller) (hs : c.gameState ≠ GameState.HIT) :
    c.triggerHit.hitCount = c.hitCount + 1 ∧
    c.triggerHit.winHits = c.winHits ∧
    c.triggerHit.gameState =
      (if c.hitCount + 1 ≥ c.winHits then GameState.WIN else GameState.PLAY) ∧
    c.triggerHit.overlapStartTime = none ∧
    c.triggerHit.flashState = none ∧
    c.triggerHit.time = c.time ∧
    c.triggerHit.overlapThreshold = c.overlapThreshold := by
  rw [Controller.triggerHit_eq c hs]
  by_cases hw : c.hitCount + 1 ≥ c.winHits
  · simp only [if_pos hw]
    simp [Controller.transitionToWin, Controller.restoreTargetColor, Controller.hitPending]
  · simp only [if_neg hw]
    simp [Controller.restoreTargetColor, Controller.hitPending]

/-- A tick outside `WIN` is `handleOverlap()` and `updateFlash()` run on the
state `beforeOverlap`. -/
theorem Controller.update_eq_of_playing (M : MathFns) (c : Controller) (deltaTime : ℚ)
    (hs : c.gameState = GameState.PLAY ∨ c.gameState = GameState.HIT ∨
      c.gameState = GameState.TOUCH) :
    c.update M deltaTime = (c.beforeOverlap M deltaTime).handleOverlap.updateFlash := by
  unfold Controller.update
  rw [if_pos hs]
  rfl

/-- What the steps of a tick before `handleOverlap()` leave alone. -/
theorem Controller.beforeOverlap_frame (M : MathFns) (c : Controller) (deltaTime : ℚ) :
    (c.beforeOverlap M deltaTime).gameState = c.gameState ∧
    (c.beforeOverlap M deltaTime).hitCount = c.hitCount ∧
    (c.beforeOverlap M deltaTime).winHits = c.winHits ∧
    (c.beforeOverlap M deltaTime).overlapStartTime = c.overlapStartTime ∧
    (c.beforeOverlap M deltaTime).overlapThreshold = c.overlapThreshold ∧
    (c.beforeOverlap M deltaTime).flashState = c.flashState ∧
    (c.beforeOverlap M deltaTime).time = c.time + deltaTime / 1000 := by
  simp [Controller.beforeOverlap, Controller.updateBlock, Controller.updateSegments,
    Controller.updateWaves]

/-- The method `startTouchFlash()` changes the flash state only. -/
theorem Controller.startTouchFlash_shape (c : Controller) :
    ∃ fs, c.startTouchFlash = { c with flashState := fs } := by
  unfold Controller.startTouchFlash
  simp only
  split_ifs
  · exact ⟨c.flashState, rfl⟩
  · exact ⟨_, rfl⟩

/-- The method `handleOverlap()` in `PLAY` or `TOUCH` while block and target
overlap: the overlap is recorded, and a hit is triggered when the elapsed
overlap time has reached the threshold. -/
theorem Controller.handleOverlap_eq_of_overlap (c : Controller)
    (hs : c.gameState = GameState.PLAY ∨ c.gameState = GameState.TOUCH)
    (ho : c.isOverlapping = true) :
    c.handleOverlap =
      if c.touching.time - c.touching.overlapStartTime.getD 0 ≥ c.touching.overlapThreshold
      then c.touching.triggerHit else c.touching := by
  have h1 : ¬ (c.gameState = GameState.HIT ∨ c.gameState = GameState.WIN) := by
    rcases hs with h | h <;> rw [h] <;> decide
  unfold Controller.handleOverlap Controller.touching
  rw [if_neg h1]
  simp only [ho, Bool.true_eq_false, if_false]

/-- The fields of the state `touching`. -/
theorem Controller.touching_spec (c : Controller) :
    c.touching.gameState = GameState.TOUCH ∧
    c.touching.hitCount = c.hitCount ∧
    c.touching.winHits = c.winHits ∧
    c.touching.time = c.time ∧
    c.touching.overlapThreshold = c.overlapThreshold ∧
    c.touching.overlapStartTime = some (c.overlapStartTime.getD c.time) := by
  unfold Controller.touching
  cases hst : c.overlapStartTime with
  | none =>
    obtain ⟨fs, hfs⟩ := Controller.startTouchFlash_shape
      { c with
        overlappingNow := true
        overlapStartTime := some c.time
        gameState := GameState.TOUCH }
    simp [hfs]
  | some s =>
    simp only
    split_ifs with hg
    · simp
    · simp [not_not.mp hg]

/-- The method `handleOverlap()` in `PLAY` or `TOUCH` while block and target
overlap.  With `start` the pending overlap start, or the current time when none
is pending: below the threshold the state is `TOUCH`, the overlap start is
`start` and no hit is counted; from the threshold on exactly one hit is counted
and the overlap start is cleared. -/
theorem Controller.handleOverlap_overlapping (c : Controller)
    (hs : c.gameState = GameState.PLAY ∨ c.gameState = GameState.TOUCH)
    (ho : c.isOverlapping = true) :
    c.handleOverlap.winHits = c.winHits ∧
    c.handleOverlap.time = c.time ∧
    c.handleOverlap.overlapThreshold = c.overlapThreshold ∧
    (c.time - c.overlapStartTime.getD c.time < c.overlapThreshold →
      c.handleOverlap.hitCount = c.hitCount ∧
      c.handleOverlap.overlapStartTime = some (c.overlapStartTime.getD c.time) ∧
      c.handleOverlap.gameState = GameState.TOUCH) ∧
    (c.overlapThreshold ≤ c.time - c.overlapStartTime.getD c.time →
      c.handleOverlap.hitCount = c.hitCount + 1 ∧
      c.handleOverlap.overlapStartTime = none ∧
      c.handleOverlap.flashState = none ∧
      c.handleOverlap.gameState =
        (if c.hitCount + 1 ≥ c.winHits then GameState.WIN else GameState.PLAY)) := by
  obtain ⟨hg, hh, hw, ht, hT, hst⟩ := c.touching_spec
  have hne : c.touching.gameState ≠ GameState.HIT := by rw [hg]; decide
  obtain ⟨th, tw, tg, tst, tfs, tt, tT⟩ := Controller.triggerHit_spec c.touching hne
  rw [Controller.handleOverlap_eq_of_overlap c hs ho, ht, hT, hst, Option.getD_some]
  by_cases hge : c.overlapThreshold ≤ c.time - c.overlapStartTime.getD c.time
  · rw [if_pos hge, th, tw, tg, tst, tfs, tt, tT, hh, hw, ht, hT]
    exact ⟨rfl, rfl, rfl, fun h => absurd hge (not_le.mpr h), fun _ => ⟨rfl, rfl, rfl, rfl⟩⟩
  · rw [if_neg hge, hh, hw, ht, hT, hst, hg]
    exact ⟨rfl, rfl, rfl, fun _ => ⟨rfl, rfl, rfl⟩, fun h => absurd h hge⟩

/-- The method `resetTouchState()` leaves the counters alone, clears the
overlap start and turns `TOUCH` into `PLAY`. -/
theorem Controller.resetTouchState_spec (c : Controller) :
    c.resetTouchState.hitCount = c.hitCount ∧
    c.resetTouchState.winHits = c.winHits ∧
    c.resetTouchState.overlapStartTime = none ∧
    c.resetTouchState.gameState =
      (if c.gameState = GameState.TOUCH then GameState.PLAY else c.gameState) := by
  unfold Controller.resetTouchState
  cases hfs : c.flashState with
  | none =>
    by_cases hg : c.gameState = GameState.TOUCH
    · simp [hg, hfs]
    · simp [hg, hfs]
  | some fs =>
    by_cases hg : c.gameState = GameState.TOUCH
    · by_cases hm : fs.mode = FlashMode.touch
      · simp [hg, hfs, hm, Controller.restoreTargetColor]
      · simp [hg, hfs, hm]
    · by_cases hm : fs.mode = FlashMode.touch
      · simp [hg, hfs, hm, Controller.restoreTargetColor]
      · simp [hg, hfs, hm]

/-- The method `handleOverlap()` in `PLAY` or `TOUCH`: either no hit is counted
and the state is `PLAY` or `TOUCH`, or one hit is counted, the flash is cleared
and the state is `WIN` or `PLAY` according to the counter. -/
theorem Controller.handleOverlap_count (c : Controller)
    (hs : c.gameState = GameState.PLAY ∨ c.gameState = GameState.TOUCH) :
    c.handleOverlap.winHits = c.winHits ∧
    ((c.handleOverlap.hitCount = c.hitCount ∧
        (c.handleOverlap.gameState = GameState.PLAY ∨
          c.handleOverlap.gameState = GameState.TOUCH)) ∨
      (c.handleOverlap.hitCount = c.hitCount + 1 ∧
        c.handleOverlap.flashState = none ∧
        c.handleOverlap.gameState =
          (if c.hitCount + 1 ≥ c.winHits then GameState.WIN else GameState.PLAY))) := by
  by_cases ho : c.isOverlapping = true
  · obtain ⟨hw, -, -, hlt, hge⟩ := c.handleOverlap_overlapping hs ho
    refine ⟨hw, ?_⟩
    by_cases hT : c.overlapThreshold ≤ c.time - c.overlapStartTime.getD c.time
    · right
      exact ⟨(hge hT).1, (hge hT).2.2.1, (hge hT).2.2.2⟩
    · left
      exact ⟨(hlt (not_le.mp hT)).1, Or.inr (hlt (not_le.mp hT)).2.2⟩
  · have h1 : ¬ (c.gameState = GameState.HIT ∨ c.gameState = GameState.WIN) := by
      rcases hs with h | h <;> rw [h] <;> decide
    have hf : c.isOverlapping = false := Bool.eq_false_iff.mpr ho
    have he : c.handleOverlap =
        Controller.resetTouchState { c with overlappingNow := false } := by
      unfold Controller.handleOverlap
      rw [if_neg h1]
      simp only [hf, if_true]
    obtain ⟨rh, rw1, -, rg⟩ := Controller.resetTouchState_spec { c with overlappingNow := false }
    rw [he]
    refine ⟨rw1, Or.inl ⟨rh, ?_⟩⟩
    rw [rg]
    rcases hs with h | h
    · left; simp [h]
    · left; simp [h]

/-- The method `updateFlash()` leaves counters, times and overlap start alone;
it does nothing without a flash, and otherwise keeps the state or makes it
`PLAY`. -/
theorem Controller.updateFlash_spec (c : Controller) :
    c.updateFlash.hitCount = c.hitCount ∧
    c.updateFlash.winHits = c.winHits ∧
    c.updateFlash.time = c.time ∧
    c.updateFlash.overlapThreshold = c.overlapThreshold ∧
    c.updateFlash.overlapStartTime = c.overlapStartTime ∧
    (c.updateFlash.gameState = c.gameState ∨ c.updateFlash.gameState = GameState.PLAY) ∧
    (c.flashState = none → c.updateFlash = c) := by
  unfold Controller.updateFlash
  cases hfs : c.flashState with
  | none => simp
  | some fs =>
    simp only
    split_ifs <;> simp [Controller.restoreTargetColor]

/-- A tick in `WIN` keeps `winHits`; it either stays in `WIN` with the hit
counter as it is, or resets to `PLAY` with the hit counter `0`. -/
theorem Controller.update_win_cases (M : MathFns) (c : Controller) (deltaTime : ℚ)
    (hs : c.gameState = GameState.WIN) :
    (c.update M deltaTime).winHits = c.winHits ∧
    (((c.update M deltaTime).gameState = GameState.WIN ∧
        (c.update M deltaTime).hitCount = c.hitCount) ∨
      ((c.update M deltaTime).gameState = GameState.PLAY ∧
        (c.update M deltaTime).hitCount = 0)) := by
  have h1 : ¬ (c.gameState = GameState.PLAY ∨ c.gameState = GameState.HIT ∨
      c.gameState = GameState.TOUCH) := by
    rw [hs]; decide
  unfold Controller.update
  rw [if_neg h1, if_pos hs]
  simp only [Controller.ensureTargetValid_winStartTime]
  cases c.winStartTime with
  | none => simp [hs]
  | some w =>
    simp only
    split_ifs
    · simp [Controller.resetGame, Controller.restoreTargetColor]
    · simp [hs]

/-- In every reachable controller state `winHits` is `3`, the state is not
`HIT`, and the state is `WIN` exactly when the hit counter has reached
`winHits`. -/
theorem Controller.reachable_invariant (M : MathFns) (c : Controller)
    (hr : Controller.Reachable M c) :
    c.winHits = 3 ∧ c.gameState ≠ GameState.HIT ∧
      (c.gameState = GameState.WIN ↔ c.hitCount ≥ c.winHits) := by
  induction hr with
  | new barLength barHeight env =>
    simp [Controller.new, Controller.buildSegments]
  | @update c deltaTime _ ih =>
    obtain ⟨hw, hnh, hiff⟩ := ih
    by_cases hwin : c.gameState = GameState.WIN
    · obtain ⟨uw, hcase⟩ := Controller.update_win_cases M c deltaTime hwin
      rw [uw]
      refine ⟨hw, ?_, ?_⟩
      · rcases hcase with ⟨hg, _⟩ | ⟨hg, _⟩ <;> rw [hg] <;> decide
      · rcases hcase with ⟨hg, hh⟩ | ⟨hg, hh⟩
        · rw [hg, hh]; rw [hwin] at hiff; exact hiff
        · rw [hg, hh, hw]; simp
    · have hs : c.gameState = GameState.PLAY ∨ c.gameState = GameState.TOUCH := by
        cases hg : c.gameState with
        | PLAY => exact Or.inl rfl
        | TOUCH => exact Or.inr rfl
        | HIT => exact absurd hg hnh
        | WIN => exact absurd hg hwin
      have hlt : c.hitCount < c.winHits := by
        by_contra hcon
        exact hwin (hiff.mpr (not_lt.mp hcon))
      have hs3 : c.gameState = GameState.PLAY ∨ c.gameState = GameState.HIT ∨
          c.gameState = GameState.TOUCH := by
        rcases hs with h | h
        · exact Or.inl h
        · exact Or.inr (Or.inr h)
      obtain ⟨bg, bh, bw, -, -, -, -⟩ := c.beforeOverlap_frame M deltaTime
      have hsb : (c.beforeOverlap M deltaTime).gameState = GameState.PLAY ∨
          (c.beforeOverlap M deltaTime).gameState = GameState.TOUCH := by
        rw [bg]; exact hs
      obtain ⟨ow, ocase⟩ := Controller.handleOverlap_count _ hsb
      obtain ⟨fh, fw, -, -, -, fg, fnone⟩ :=
        Controller.updateFlash_spec (c.beforeOverlap M deltaTime).handleOverlap
      rw [Controller.update_eq_of_playing M c deltaTime hs3, fw, ow, bw]
      refine ⟨hw, ?_⟩
      rcases ocase with ⟨oh, og⟩ | ⟨oh, ofs, og⟩
      · -- no hit on this tick
        have hg2 : (c.beforeOverlap M deltaTime).handleOverlap.updateFlash.gameState =
              GameState.PLAY ∨
            (c.beforeOverlap M deltaTime).handleOverlap.updateFlash.gameState =
              GameState.TOUCH := by
          rcases fg with h | h
          · rw [h]; exact og
          · exact Or.inl h
        rw [fh, oh, bh]
        constructor
        · rcases hg2 with h | h <;> rw [h] <;> decide
        · constructor
          · intro h
            rcases hg2 with h2 | h2 <;> rw [h2] at h <;> exact absurd h (by decide)
          · intro h
            exact absurd hlt (not_lt.mpr h)
      · -- a hit on this tick
        rw [fnone ofs, og, oh, bh, bw]
        by_cases hge : c.hitCount + 1 ≥ c.winHits
        · rw [if_pos hge]
          exact ⟨by decide, fun _ => hge, fun _ => rfl⟩
        · rw [if_neg hge]
          exact ⟨by decide, fun h => absurd h (by decide), fun h => absurd h hge⟩
  | @launchWave c direction _ ih =>
    unfold Controller.launchWave
    split_ifs
    · exact ih
    · exact ih
  | @setImpactPreset c c1 index _ heq ih =>
    unfold Controller.setImpactPreset at heq
    simp only at heq
    split_ifs at heq
    split at heq
    · injection heq with heq
      rw [← heq]
      exact ih
    · exact absurd heq (by simp)

/-- C3: in every reachable controller state `winHits` is `3` and the state is
`WIN` exactly when the hit counter has reached `winHits`; every `triggerHit()`
adds exactly one to the hit counter; and from a hit counter of `0` (a fresh or
reset controller) the first and the second hit end in `PLAY` with the target
respawned, the third ends in `WIN`. -/
theorem Controller.three_hits_win (M : MathFns) (c : Controller)
    (hr : Controller.Reachable M c) :
    c.winHits = 3 ∧
    (c.gameState = GameState.WIN ↔ c.hitCount ≥ c.winHits) ∧
    c.triggerHit.hitCount = c.hitCount + 1 ∧
    (c.hitCount = 0 →
      (c.triggerHit.hitCount = 1 ∧ c.triggerHit.gameState = GameState.PLAY ∧
        c.triggerHit =
          { c.hitPending.respawnTargetSafe with gameState := GameState.PLAY }) ∧
      (c.triggerHit.triggerHit.hitCount = 2 ∧
        c.triggerHit.triggerHit.gameState = GameState.PLAY ∧
        c.triggerHit.triggerHit =
          { c.triggerHit.hitPending.respawnTargetSafe with gameState := GameState.PLAY }) ∧
      (c.triggerHit.triggerHit.triggerHit.hitCount = 3 ∧
        c.triggerHit.triggerHit.triggerHit.gameState = GameState.WIN)) := by
  obtain ⟨hw, hnh, hiff⟩ := Controller.reachable_invariant M c hr
  obtain ⟨h1c, h1w, h1g, -, -, -, -⟩ := Controller.triggerHit_spec c hnh
  refine ⟨hw, hiff, h1c, ?_⟩
  intro h0
  rw [h0, hw] at h1g
  rw [h0] at h1c
  have h1g2 : c.triggerHit.gameState = GameState.PLAY := by rw [h1g]; decide
  have h1n : c.triggerHit.gameState ≠ GameState.HIT := by rw [h1g2]; decide
  obtain ⟨h2c, h2w, h2g, -, -, -, -⟩ := Controller.triggerHit_spec c.triggerHit h1n
  rw [h1c, h1w, hw] at h2g
  rw [h1c] at h2c
  have h2g2 : c.triggerHit.triggerHit.gameState = GameState.PLAY := by rw [h2g]; decide
  have h2n : c.triggerHit.triggerHit.gameState ≠ GameState.HIT := by rw [h2g2]; decide
  obtain ⟨h3c, h3w, h3g, -, -, -, -⟩ := Controller.triggerHit_spec c.triggerHit.triggerHit h2n
  rw [h2c, h2w, h1w, hw] at h3g
  rw [h2c] at h3c
  refine ⟨⟨h1c, h1g2, ?_⟩, ⟨h2c, h2g2, ?_⟩, h3c, by rw [h3g]; decide⟩
  · rw [Controller.triggerHit_eq c hnh, if_neg]
    rw [h0, hw]; decide
  · rw [Controller.triggerHit_eq c.triggerHit h1n, if_neg]
    rw [h1c, h1w, hw]; decide

theorem Controller.three_hits_win_witness :
    sampleController.triggerHit.gameState = GameState.PLAY ∧
      sampleController.triggerHit.triggerHit.gameState = GameState.PLAY ∧
      sampleController.triggerHit.triggerHit.triggerHit.gameState = GameState.WIN ∧
      sampleController.triggerHit.triggerHit.triggerHit.hitCount = 3 := by
  have h := (Controller.three_hits_win sampleMath sampleController
    (Controller.Reachable.new 3000 50 sampleEnv)).2.2.2
    (by simp [sampleController, Controller.new, Controller.buildSegments])
  exact ⟨h.1.2.1, h.2.1.2.1, h.2.2.2, h.2.2.1⟩

/-! ## The controller: a sustained overlap is one hit -/

theorem Controller.run_append (M : MathFns) (c : Controller) (a b : List ℚ) :
    Controller.run M c (a ++ b) = Controller.run M (Controller.run M c a) b := by
  induction a generalizing c with
  | nil => rfl
  | cons d ds ih => exact ih (c.update M d)

theorem Controller.overlapsThroughout_append (M : MathFns) (c : Controller) (a b : List ℚ) :
    Controller.OverlapsThroughout M c (a ++ b) ↔
      Controller.OverlapsThroughout M c a ∧
        Controller.OverlapsThroughout M (Controller.run M c a) b := by
  induction a generalizing c with
  | nil => simp [Controller.OverlapsThroughout, Controller.run]
  | cons d ds ih =>
    show _ ∧ Controller.OverlapsThroughout M (c.update M d) (ds ++ b) ↔
      (_ ∧ Controller.OverlapsThroughout M (c.update M d) ds) ∧
        Controller.OverlapsThroughout M (Controller.run M (c.update M d) ds) b
    rw [ih, and_assoc]

theorem elapsedSeconds_nonneg (ticks : List ℚ) (h : ∀ d ∈ ticks, 0 ≤ d) :
    0 ≤ elapsedSeconds ticks := by
  induction ticks with
  | nil => simp [elapsedSeconds]
  | cons d ds ih =>
    have hd : 0 ≤ d := h d (List.mem_cons_self _ _)
    have hds := ih (fun x hx => h x (List.mem_cons_of_mem _ hx))
    simp only [elapsedSeconds, List.map_cons, List.sum_cons] at hds ⊢
    have : 0 ≤ d / 1000 := div_nonneg hd (by norm_num)
    linarith

theorem elapsedSeconds_cons (d : ℚ) (ds : List ℚ) :
    elapsedSeconds (d :: ds) = d / 1000 + elapsedSeconds ds := by
  simp [elapsedSeconds]

theorem elapsedSeconds_append (a b : List ℚ) :
    elapsedSeconds (a ++ b) = elapsedSeconds a + elapsedSeconds b := by
  simp [elapsedSeconds]

/-- One tick in `PLAY` or `TOUCH` during which block and target overlap.  With
`now` the time of the tick and `start` the pending overlap start, or `now` when
none is pending: below the threshold no hit is counted and the overlap start
is `start`; from the threshold on exactly one hit is counted and the overlap
start is cleared. -/
theorem Controller.update_overlapping (M : MathFns) (c : Controller) (deltaTime : ℚ)
    (hs : c.gameState = GameState.PLAY ∨ c.gameState = GameState.TOUCH)
    (ho : (c.beforeOverlap M deltaTime).isOverlapping = true) :
    (c.update M deltaTime).time = c.time + deltaTime / 1000 ∧
    (c.update M deltaTime).overlapThreshold = c.overlapThreshold ∧
    (c.time + deltaTime / 1000 - c.overlapStartTime.getD (c.time + deltaTime / 1000)
        < c.overlapThreshold →
      (c.update M deltaTime).hitCount = c.hitCount ∧
      (c.update M deltaTime).overlapStartTime =
        some (c.overlapStartTime.getD (c.time + deltaTime / 1000)) ∧
      ((c.update M deltaTime).gameState = GameState.PLAY ∨
        (c.update M deltaTime).gameState = GameState.TOUCH)) ∧
    (c.overlapThreshold ≤
        c.time + deltaTime / 1000 - c.overlapStartTime.getD (c.time + deltaTime / 1000) →
      (c.update M deltaTime).hitCount = c.hitCount + 1 ∧
      (c.update M deltaTime).overlapStartTime = none ∧
      ((c.update M deltaTime).gameState = GameState.PLAY ∨
        (c.update M deltaTime).gameState = GameState.WIN)) := by
  have hs3 : c.gameState = GameState.PLAY ∨ c.gameState = GameState.HIT ∨
      c.gameState = GameState.TOUCH := by
    rcases hs with h | h
    · exact Or.inl h
    · exact Or.inr (Or.inr h)
  obtain ⟨bg, bh, bw, bst, bT, -, bt⟩ := c.beforeOverlap_frame M deltaTime
  have hsb : (c.beforeOverlap M deltaTime).gameState = GameState.PLAY ∨
      (c.beforeOverlap M deltaTime).gameState = GameState.TOUCH := by
    rw [bg]; exact hs
  obtain ⟨-, ot, oT, olt, oge⟩ := Controller.handleOverlap_overlapping _ hsb ho
  obtain ⟨fh, -, ft, fT, fst, fg, fnone⟩ :=
    Controller.updateFlash_spec (c.beforeOverlap M deltaTime).handleOverlap
  rw [bt, bst, bT] at olt oge
  rw [bh] at olt oge
  rw [Controller.update_eq_of_playing M c deltaTime hs3, ft, fT, fh, fst, ot, oT, bt, bT]
  refine ⟨rfl, rfl, ?_, ?_⟩
  · intro hlt
    obtain ⟨h1, h2, h3⟩ := olt hlt
    refine ⟨h1, h2, ?_⟩
    rcases fg with h | h
    · rw [h, h3]; exact Or.inr rfl
    · exact Or.inl h
  · intro hge
    obtain ⟨h1, h2, h3, h4⟩ := oge hge
    refine ⟨h1, h2, ?_⟩
    rw [fnone h3, h4]
    split_ifs
    · exact Or.inr rfl
    · exact Or.inl rfl

/-- One tick in `PLAY` with no overlap pending and a positive threshold counts
no hit, whether block and target overlap or not. -/
theorem Controller.update_fresh (M : MathFns) (c : Controller) (deltaTime : ℚ)
    (hs : c.gameState = GameState.PLAY) (hnone : c.overlapStartTime = none)
    (hT : 0 < c.overlapThreshold) :
    (c.update M deltaTime).hitCount = c.hitCount ∧
    ((c.beforeOverlap M deltaTime).isOverlapping = true →
      (c.update M deltaTime).overlapStartTime = some (c.time + deltaTime / 1000)) := by
  by_cases ho : (c.beforeOverlap M deltaTime).isOverlapping = true
  · obtain ⟨-, -, hlt, -⟩ := Controller.update_overlapping M c deltaTime (Or.inl hs) ho
    rw [hnone, Option.getD_none, sub_self] at hlt
    exact ⟨(hlt hT).1, fun _ => (hlt hT).2.1⟩
  · refine ⟨?_, fun h => absurd h ho⟩
    obtain ⟨bg, bh, -, -, -, -, -⟩ := c.beforeOverlap_frame M deltaTime
    have hsb : (c.beforeOverlap M deltaTime).gameState = GameState.PLAY ∨
        (c.beforeOverlap M deltaTime).gameState = GameState.TOUCH := by
      rw [bg]; exact Or.inl hs
    have h1 : ¬ ((c.beforeOverlap M deltaTime).gameState = GameState.HIT ∨
        (c.beforeOverlap M deltaTime).gameState = GameState.WIN) := by
      rw [bg, hs]; decide
    have hf : (c.beforeOverlap M deltaTime).isOverlapping = false := Bool.eq_false_iff.mpr ho
    have he : (c.beforeOverlap M deltaTime).handleOverlap =
        Controller.resetTouchState
          { c.beforeOverlap M deltaTime with overlappingNow := false } := by
      unfold Controller.handleOverlap
      rw [if_neg h1]
      simp only [hf, if_true]
    obtain ⟨rh, -, -, -⟩ := Controller.resetTouchState_spec
      { c.beforeOverlap M deltaTime with overlappingNow := false }
    obtain ⟨fh, -, -, -, -, -, -⟩ :=
      Controller.updateFlash_spec (c.beforeOverlap M deltaTime).handleOverlap
    rw [Controller.update_eq_of_playing M c deltaTime (Or.inl hs), fh, he, rh]
    exact bh

/-- A run of ticks, none negative, that starts in `PLAY` or `TOUCH` with an
overlap pending since `s`, keeps block and target overlapping and ends before
the threshold is reached: no hit is counted and the overlap stays pending. -/
theorem Controller.run_below_threshold (M : MathFns) (c : Controller) (s : ℚ)
    (ticks : List ℚ)
    (hs : c.gameState = GameState.PLAY ∨ c.gameState = GameState.TOUCH)
    (hst : c.overlapStartTime = some s)
    (hnn : ∀ d ∈ ticks, 0 ≤ d)
    (hsum : c.time - s + elapsedSeconds ticks < c.overlapThreshold)
    (hov : Controller.OverlapsThroughout M c ticks) :
    (Controller.run M c ticks).hitCount = c.hitCount ∧
    (Controller.run M c ticks).overlapStartTime = some s ∧
    (Controller.run M c ticks).time = c.time + elapsedSeconds ticks ∧
    ((Controller.run M c ticks).gameState = GameState.PLAY ∨
      (Controller.run M c ticks).gameState = GameState.TOUCH) ∧
    (Controller.run M c ticks).overlapThreshold = c.overlapThreshold := by
  induction ticks generalizing c with
  | nil => exact ⟨rfl, hst, by simp [Controller.run, elapsedSeconds], hs, rfl⟩
  | cons d ds ih =>
    have hds : 0 ≤ elapsedSeconds ds :=
      elapsedSeconds_nonneg ds (fun x hx => hnn x (List.mem_cons_of_mem _ hx))
    rw [elapsedSeconds_cons] at hsum
    obtain ⟨ut, uT, ult, -⟩ := Controller.update_overlapping M c d hs hov.1
    rw [hst, Option.getD_some] at ult
    obtain ⟨uh, ust, ug⟩ := ult (by linarith)
    have ih2 := ih (c.update M d) ug ust
      (fun x hx => hnn x (List.mem_cons_of_mem _ hx))
      (by rw [ut, uT]; linarith) hov.2
    obtain ⟨rh, rst, rt, rg, rT⟩ := ih2
    have hrun : Controller.run M c (d :: ds) = Controller.run M (c.update M d) ds := rfl
    rw [hrun, rh, rst, rt, rT, uh, ut, uT, elapsedSeconds_cons]
    exact ⟨rfl, rfl, by ring, rg, rfl⟩

/-- The state `touching` has the waves, block, target and bar length of the
state it is computed from. -/
theorem Controller.touching_frame (c : Controller) :
    c.touching.waves = c.waves ∧ c.touching.block = c.block ∧
      c.touching.target = c.target ∧ c.touching.barLength = c.barLength := by
  unfold Controller.touching
  cases hst : c.overlapStartTime with
  | none =>
    obtain ⟨fs, hfs⟩ := Controller.startTouchFlash_shape
      { c with
        overlappingNow := true
        overlapStartTime := some c.time
        gameState := GameState.TOUCH }
    simp [hfs]
  | some s =>
    simp only
    split_ifs <;> simp

/-- The method `updateFlash()` leaves waves, block, target and bar length
alone. -/
theorem Controller.updateFlash_frame (c : Controller) :
    c.updateFlash.waves = c.waves ∧ c.updateFlash.block = c.block ∧
      c.updateFlash.target = c.target ∧ c.updateFlash.barLength = c.barLength := by
  unfold Controller.updateFlash
  cases hfs : c.flashState with
  | none => simp
  | some fs =>
    simp only
    split_ifs <;> simp [Controller.restoreTargetColor]

/-- A block at rest on its target is not moved by `update(dt)`. -/
theorem BlockSegment.update_at_rest (b : BlockSegment) (dt : ℚ)
    (hrest : b.center = b.targetCenter) (hvel : b.velocity = 0) : b.update dt = b := by
  have hlt : |b.targetCenter - b.center| < 1 := by rw [hrest]; simp
  unfold BlockSegment.update
  rw [if_pos hlt]
  cases b
  simp only at hrest hvel
  simp [hrest, hvel]

/-- A tick in `PLAY` or `TOUCH` with no wave under way, a valid target and the
block at rest where it overlaps the target: the overlap is seen by
`handleOverlap()`, and below the threshold the tick leaves waves, block, target
and bar length as they are. -/
theorem Controller.update_resting (M : MathFns) (c : Controller) (deltaTime : ℚ)
    (hs : c.gameState = GameState.PLAY ∨ c.gameState = GameState.TOUCH)
    (hw : c.waves = []) (hv1 : 0 ≤ c.target.center) (hv2 : c.target.center ≤ c.barLength)
    (hrest : c.block.center = c.block.targetCenter) (hvel : c.block.velocity = 0)
    (hov : |c.block.center - c.target.center| ≤ c.block.length + c.target.length) :
    (c.beforeOverlap M deltaTime).isOverlapping = true ∧
    (c.time + deltaTime / 1000 - c.overlapStartTime.getD (c.time + deltaTime / 1000)
        < c.overlapThreshold →
      (c.update M deltaTime).waves = [] ∧ (c.update M deltaTime).block = c.block ∧
      (c.update M deltaTime).target = c.target ∧
      (c.update M deltaTime).barLength = c.barLength) := by
  have hvalid : ¬ (c.target.center < 0 ∨ c.target.center > c.barLength) := by
    rintro (h | h)
    · exact absurd hv1 (not_le.mpr h)
    · exact absurd hv2 (not_le.mpr h)
  have hb : (c.beforeOverlap M deltaTime).waves = [] ∧
      (c.beforeOverlap M deltaTime).block = c.block ∧
      (c.beforeOverlap M deltaTime).target = c.target ∧
      (c.beforeOverlap M deltaTime).barLength = c.barLength := by
    unfold Controller.beforeOverlap Controller.ensureTargetValid
    rw [if_neg hvalid]
    simp [Controller.updateBlock, Controller.updateSegments, Controller.updateWaves, hw,
      Controller.forEachWave, BlockSegment.update_at_rest _ _ hrest hvel]
  obtain ⟨bw, bb, bt, bL⟩ := hb
  have ho : (c.beforeOverlap M deltaTime).isOverlapping = true := by
    unfold Controller.isOverlapping
    rw [bb, bt]
    exact decide_eq_true hov
  refine ⟨ho, ?_⟩
  intro hlt
  have hs3 : c.gameState = GameState.PLAY ∨ c.gameState = GameState.HIT ∨
      c.gameState = GameState.TOUCH := by
    rcases hs with h | h
    · exact Or.inl h
    · exact Or.inr (Or.inr h)
  obtain ⟨bg, -, -, bst, bT, -, btime⟩ := c.beforeOverlap_frame M deltaTime
  have hsb : (c.beforeOverlap M deltaTime).gameState = GameState.PLAY ∨
      (c.beforeOverlap M deltaTime).gameState = GameState.TOUCH := by
    rw [bg]; exact hs
  obtain ⟨-, -, -, tt, tT, tst⟩ := (c.beforeOverlap M deltaTime).touching_spec
  have he : (c.beforeOverlap M deltaTime).handleOverlap =
      (c.beforeOverlap M deltaTime).touching := by
    rw [Controller.handleOverlap_eq_of_overlap _ hsb ho, if_neg]
    rw [tt, tT, tst, Option.getD_some, btime, bst, bT]
    exact not_le.mpr hlt
  obtain ⟨fw, fb, ft, fL⟩ :=
    Controller.updateFlash_frame (c.beforeOverlap M deltaTime).handleOverlap
  obtain ⟨tw, tb, ttg, tL⟩ := (c.beforeOverlap M deltaTime).touching_frame
  rw [Controller.update_eq_of_playing M c deltaTime hs3, fw, fb, ft, fL, he, tw, tb, ttg, tL,
    bw, bb, bt, bL]
  exact ⟨rfl, rfl, rfl, rfl⟩

/-! ## Waves: the moving window and the pulse -/

/-- C11: for a wave of positive speed `c`, `displacementAt(x, t)` is `0` where
the front has not yet arrived (`x` beyond `frontPosition(t)` in the direction
of travel) and where the half-sine pulse has wholly passed (the front is more
than `c * halfPeriod` beyond `x`), for direction `1` and for direction `-1`, at
every time `t`, active or not. -/
theorem Wave.displacementAt_causal (M : MathFns) (w : Wave) (x t : ℚ) (hc : 0 < w.c)
    (hpos :
      (w.dir = 1 ∧
        (x > w.frontPosition t ∨ w.frontPosition t - x > w.c * w.halfPeriod)) ∨
      (w.dir = -1 ∧
        (x < w.frontPosition t ∨ x - w.frontPosition t > w.c * w.halfPeriod))) :
    w.displacementAt M x t = 0 := by
  unfold Wave.displacementAt
  by_cases h1 : t - w.startTime < 0 ∨ ¬ w.active t = true
  · simp only [h1, if_true]
  · simp only [h1, if_false]
    rcases hpos with ⟨hd, hx⟩ | ⟨hd, hx⟩
    · have hf : w.frontPosition t = w.c * (t - w.startTime) := by
        simp [Wave.frontPosition, hd]
      rw [hf] at hx
      simp only [hd, if_true]
      rw [if_pos]
      rcases hx with hx | hx
      · left
        rw [sub_neg, lt_div_iff₀ hc]
        linarith
      · right
        have h2 : w.halfPeriod + x / w.c < t - w.startTime := by
          have h3 : w.halfPeriod + x / w.c = (w.c * w.halfPeriod + x) / w.c := by
            field_simp; ring
          rw [h3, div_lt_iff₀ hc]
          linarith
        linarith
    · have hne : ¬ w.dir = 1 := by rw [hd]; norm_num
      have hf : w.frontPosition t = w.barLength - w.c * (t - w.startTime) := by
        simp [Wave.frontPosition, hne]
      rw [hf] at hx
      simp only [hne, if_false]
      rw [if_pos]
      rcases hx with hx | hx
      · left
        rw [sub_neg, lt_div_iff₀ hc]
        linarith
      · right
        have h2 : w.halfPeriod + (w.barLength - x) / w.c < t - w.startTime := by
          have h3 : w.halfPeriod + (w.barLength - x) / w.c =
              (w.c * w.halfPeriod + (w.barLength - x)) / w.c := by
            field_simp; ring
          rw [h3, div_lt_iff₀ hc]
          linarith
        linarith

theorem Wave.displacementAt_causal_witness :
    sampleWave.frontPosition (1 / 10) = 384 ∧
      sampleWave.displacementAt sampleMath 1000 (1 / 10) = 0 ∧
      sampleWave.displacementAt sampleMath 10 (1 / 10) = 0 := by
  have hc : sampleWave.c = 3840 := by
    norm_num [sampleWave, Wave.new, presetMedium, orOne]
  have hf : sampleWave.frontPosition (1 / 10) = 384 := by
    norm_num [sampleWave, Wave.new, presetMedium, orOne, Wave.frontPosition]
  have hh : sampleWave.halfPeriod = Math_PI / 40 := by
    norm_num [sampleWave, Wave.new, presetMedium]
  refine ⟨hf, ?_, ?_⟩
  · exact Wave.displacementAt_causal sampleMath sampleWave 1000 (1 / 10)
      (by rw [hc]; norm_num) (Or.inl ⟨rfl, Or.inl (by rw [hf]; norm_num)⟩)
  · exact Wave.displacementAt_causal sampleMath sampleWave 10 (1 / 10)
      (by rw [hc]; norm_num)
      (Or.inl ⟨rfl, Or.inr (by rw [hf, hc, hh]; norm_num [Math_PI])⟩)

/-- C12: at an active time `t`, with `baseX = x` for direction `1` and
`barLength - x` for direction `-1` and `localTau = (t - startTime) - baseX / c`:
`displacementAt(x, t)` is `0` when `localTau < 0` or `localTau > halfPeriod`,
and otherwise `A0 * exp(-alpha * baseX) * sin(omega * localTau)` for direction
`1` and the negation of that value for direction `-1`. -/
theorem Wave.displacementAt_formula (M : MathFns) (w : Wave) (x t : ℚ)
    (hact : w.active t = true) :
    (w.dir = 1 →
      ((t - w.startTime - x / w.c < 0 ∨ t - w.startTime - x / w.c > w.halfPeriod) →
        w.displacementAt M x t = 0) ∧
      (¬ (t - w.startTime - x / w.c < 0 ∨ t - w.startTime - x / w.c > w.halfPeriod) →
        w.displacementAt M x t =
          w.A0 * M.exp (-w.alpha * x) * M.sin (w.omega * (t - w.startTime - x / w.c)))) ∧
    (w.dir = -1 →
      ((t - w.startTime - (w.barLength - x) / w.c < 0 ∨
          t - w.startTime - (w.barLength - x) / w.c > w.halfPeriod) →
        w.displacementAt M x t = 0) ∧
      (¬ (t - w.startTime - (w.barLength - x) / w.c < 0 ∨
          t - w.startTime - (w.barLength - x) / w.c > w.halfPeriod) →
        w.displacementAt M x t =
          -(w.A0 * M.exp (-w.alpha * (w.barLength - x)) *
            M.sin (w.omega * (t - w.startTime - (w.barLength - x) / w.c))))) := by
  have htau : ¬ (t - w.startTime < 0 ∨ ¬ w.active t = true) := by
    rintro (h | h)
    · have := ((Wave.active_iff w t).mp hact).1
      linarith
    · exact h hact
  constructor
  · intro hd
    constructor
    · intro hout
      unfold Wave.displacementAt
      simp only [htau, if_false, hd, if_true, hout]
    · intro hin
      unfold Wave.displacementAt
      simp only [htau, if_false, hd, if_true, hin]
  · intro hd
    have hne : ¬ w.dir = 1 := by rw [hd]; norm_num
    constructor
    · intro hout
      unfold Wave.displacementAt
      simp only [htau, if_false, hne, hout, if_true]
    · intro hin
      unfold Wave.displacementAt
      simp only [htau, if_false, hne, hin]

theorem Wave.displacementAt_formula_witness :
    sampleWave.displacementAt sampleMath 96 (1 / 20) =
      sampleWave.A0 * sampleMath.exp (-sampleWave.alpha * 96) *
        sampleMath.sin (sampleWave.omega * (1 / 20 - sampleWave.startTime - 96 / sampleWave.c)) := by
  have hc : sampleWave.c = 3840 := by
    norm_num [sampleWave, Wave.new, presetMedium, orOne]
  have hs : sampleWave.startTime = 0 := rfl
  have hh : sampleWave.halfPeriod = Math_PI / 40 := by
    norm_num [sampleWave, Wave.new, presetMedium]
  have hact : sampleWave.active (1 / 20) = true := by
    rw [Wave.active_iff]
    norm_num [sampleWave, Wave.new, presetMedium, orOne, Math_PI]
  exact ((Wave.displacementAt_formula sampleMath sampleWave 96 (1 / 20) hact).1 rfl).2
    (by rw [hc, hs, hh]; norm_num [Math_PI])

/-! ## Anchor segments -/

/-- C18: after `AnchorSegment.update(waves, t)` the half length is at least `1`
and is the larger of `1` and half the absolute distance between the two
wave-perturbed ends. -/
theorem AnchorSegment.update_length (M : MathFns) (s : AnchorSegment) (waves : List Wave)
    (t : ℚ) :
    1 ≤ (s.update M waves t).length ∧
    (s.update M waves t).length =
      max 1 (|s.xRightWave M waves t - s.xLeftWave M waves t| / 2) := by
  have h : (s.update M waves t).length =
      max 1 ((1 / 2) * |s.xRightWave M waves t - s.xLeftWave M waves t|) := rfl
  have h2 : (1 / 2 : ℚ) * |s.xRightWave M waves t - s.xLeftWave M waves t| =
      |s.xRightWave M waves t - s.xLeftWave M waves t| / 2 := by ring
  rw [h, h2]
  exact ⟨le_max_left _ _, rfl⟩

theorem sumDisplacement_nil (M : MathFns) (x t : ℚ) : sumDisplacement M [] x t = 0 := rfl

/-- In exact arithmetic `AnchorSegment.update(waves, t)` sets
`center = (1 - beta) * centerWave + beta * centerLocal`, which is
`restCenter + (1 - beta) * (uLeft + uRight) / 2 + beta * uMid`; the rest
midpoint at which `uMid` is sampled is `restCenter`; and the center is
`restCenter` when the three sums are `0`, as they are for an empty list of
waves. -/
theorem AnchorSegment.update_center_exact (M : MathFns) (s : AnchorSegment) (waves : List Wave)
    (t : ℚ) :
    (s.update M waves t).center =
      (1 - s.beta) * s.centerWave M waves t + s.beta * s.centerLocal M waves t ∧
    (s.update M waves t).center =
      s.restCenter + (1 - s.beta) * (s.uLeft M waves t + s.uRight M waves t) / 2 +
        s.beta * s.uMid M waves t ∧
    s.xRestMid M t = s.restCenter ∧
    (s.uLeft M waves t = 0 → s.uRight M waves t = 0 → s.uMid M waves t = 0 →
      (s.update M waves t).center = s.restCenter) ∧
    (s.update M [] t).center = s.restCenter := by
  have h1 : (s.update M waves t).center =
      (1 - s.beta) * s.centerWave M waves t + s.beta * s.centerLocal M waves t := rfl
  have hmid : s.xRestMid M t = s.restCenter := by
    simp only [AnchorSegment.xRestMid, AnchorSegment.xLeftRest, AnchorSegment.xRightRest]
    ring
  have h2 : (s.update M waves t).center =
      s.restCenter + (1 - s.beta) * (s.uLeft M waves t + s.uRight M waves t) / 2 +
        s.beta * s.uMid M waves t := by
    rw [h1]
    simp only [AnchorSegment.centerWave, AnchorSegment.centerLocal, AnchorSegment.xLeftWave,
      AnchorSegment.xRightWave, hmid, AnchorSegment.xLeftRest, AnchorSegment.xRightRest]
    ring
  refine ⟨h1, h2, hmid, ?_, ?_⟩
  · intro hl hr hm
    rw [h2, hl, hr, hm]
    ring
  · have h3 : (s.update M [] t).center =
        s.restCenter + (1 - s.beta) * (s.uLeft M [] t + s.uRight M [] t) / 2 +
          s.beta * s.uMid M [] t := by
      have h1n : (s.update M [] t).center =
          (1 - s.beta) * s.centerWave M [] t + s.beta * s.centerLocal M [] t := rfl
      rw [h1n]
      simp only [AnchorSegment.centerWave, AnchorSegment.centerLocal, AnchorSegment.xLeftWave,
        AnchorSegment.xRightWave, hmid, AnchorSegment.xLeftRest, AnchorSegment.xRightRest]
      ring
    rw [h3]
    simp only [AnchorSegment.uLeft, AnchorSegment.uRight, AnchorSegment.uMid,
      sumDisplacement_nil]
    ring

/-! ## The controller: launching waves and choosing presets -/

/-- C14: in `WIN` the method `launchWave(direction)` changes nothing; in every
other state it appends one wave at the end of the list of waves and changes
nothing else.  The wave is built from the current `waveParams`: it has the
given direction, the current time as start time, the bar length of the
controller, a clear `blockPushed` flag and, when `waveParams` is one of the
presets, all six parameters of that preset. -/
theorem Controller.launchWave_appends (c : Controller) (direction : ℚ) :
    (c.gameState = GameState.WIN → c.launchWave direction = c) ∧
    (c.gameState ≠ GameState.WIN →
      c.launchWave direction =
        { c with waves := c.waves ++ [Wave.new direction c.barLength c.waveParams c.time] }) ∧
    (Wave.new direction c.barLength c.waveParams c.time).dir = direction ∧
    (Wave.new direction c.barLength c.waveParams c.time).startTime = c.time ∧
    (Wave.new direction c.barLength c.waveParams c.time).barLength = c.barLength ∧
    (Wave.new direction c.barLength c.waveParams c.time).blockPushed = false ∧
    (Wave.new direction c.barLength c.waveParams c.time).A0 = c.waveParams.A0 ∧
    (Wave.new direction c.barLength c.waveParams c.time).alpha = c.waveParams.alpha ∧
    (Wave.new direction c.barLength c.waveParams c.time).omega = c.waveParams.omega ∧
    (Wave.new direction c.barLength c.waveParams c.time).k = c.waveParams.k ∧
    (∀ p ∈ IMPACT_PRESETS, c.waveParams = p.wave →
      (Wave.new direction c.barLength c.waveParams c.time).speedScale = p.wave.speedScale ∧
      (Wave.new direction c.barLength c.waveParams c.time).pushScale = p.wave.pushScale) := by
  refine ⟨?_, ?_, rfl, rfl, rfl, rfl, rfl, rfl, rfl, rfl, ?_⟩
  · intro h
    unfold Controller.launchWave
    rw [if_pos h]
  · intro h
    unfold Controller.launchWave
    rw [if_neg h]
  · intro p hp hw
    have hcases : p = presetSoft ∨ p = presetMedium ∨ p = presetHard := by
      simpa [IMPACT_PRESETS] using hp
    rw [hw]
    rcases hcases with h | h | h <;> rw [h] <;>
      norm_num [Wave.new, orOne, presetSoft, presetMedium, presetHard]

/-- The method `setImpactPreset(index)` when the constrained index is the
natural number `j` and the table of presets has the entry `p` there. -/
theorem Controller.setImpactPreset_of_entry (c : Controller) (index : ℤ) (j : ℕ)
    (p : ImpactPreset)
    (hi : constrain ((index : ℚ) - 1) 0 ((IMPACT_PRESETS.length : ℚ) - 1) = (j : ℚ))
    (hp : IMPACT_PRESETS.get? j = some p) :
    c.setImpactPreset index = some { c with waveParams := p.wave } := by
  unfold Controller.setImpactPreset
  simp only [hi, Int.floor_natCast, Int.toNat_ofNat, if_true, hp]

/-- C15: for every integer `index` the method `setImpactPreset(index)` raises
no exception and sets `waveParams` to the parameters of the preset at position
`constrain(index - 1, 0, 2)` of `IMPACT_PRESETS`: soft for `index ≤ 1`, medium
for `2`, hard for `index ≥ 3`.  Nothing else changes, a second call with the
same index changes nothing, and a following `launchWave` (outside `WIN`, where
it is ignored) builds its wave from exactly these parameters. -/
theorem Controller.setImpactPreset_clamps (c : Controller) (index : ℤ) :
    ∃ p : ImpactPreset,
      IMPACT_PRESETS.get? (max (min (index - 1) 2) 0).toNat = some p ∧
      (index ≤ 1 → p = presetSoft) ∧ (index = 2 → p = presetMedium) ∧
      (3 ≤ index → p = presetHard) ∧
      c.setImpactPreset index = some { c with waveParams := p.wave } ∧
      Controller.setImpactPreset { c with waveParams := p.wave } index =
        some { c with waveParams := p.wave } ∧
      (∀ direction : ℚ,
        Controller.launchWave { c with waveParams := p.wave } direction =
          if c.gameState = GameState.WIN then { c with waveParams := p.wave }
          else
            { c with
              waveParams := p.wave
              waves := c.waves ++ [Wave.new direction c.barLength p.wave c.time] }) := by
  have hlaunch : ∀ (p : ImpactPreset) (direction : ℚ),
      Controller.launchWave { c with waveParams := p.wave } direction =
        if c.gameState = GameState.WIN then { c with waveParams := p.wave }
        else
          { c with
            waveParams := p.wave
            waves := c.waves ++ [Wave.new direction c.barLength p.wave c.time] } := by
    intro p direction
    unfold Controller.launchWave
    rfl
  have hlen : ((IMPACT_PRESETS.length : ℕ) : ℚ) - 1 = 2 := by
    norm_num [IMPACT_PRESETS]
  rcases le_or_lt index 1 with h1 | h1
  · -- soft
    have hq : (index : ℚ) ≤ 1 := by exact_mod_cast h1
    have hi : constrain ((index : ℚ) - 1) 0 ((IMPACT_PRESETS.length : ℚ) - 1) = ((0 : ℕ) : ℚ) := by
      rw [hlen]
      unfold constrain
      rw [min_eq_left (by linarith), max_eq_right (by linarith)]
      norm_num
    have hj : (max (min (index - 1) 2) 0).toNat = 0 := by
      rw [min_eq_left (by omega), max_eq_right (by omega)]; rfl
    refine ⟨presetSoft, by rw [hj]; rfl, fun _ => rfl, fun h => by omega, fun h => by omega,
      Controller.setImpactPreset_of_entry c index 0 presetSoft hi rfl,
      Controller.setImpactPreset_of_entry _ index 0 presetSoft hi rfl, hlaunch presetSoft⟩
  · rcases eq_or_lt_of_le (show 2 ≤ index by omega) with h2 | h2
    · -- medium
      have hq : (index : ℚ) = 2 := by exact_mod_cast h2.symm
      have hi : constrain ((index : ℚ) - 1) 0 ((IMPACT_PRESETS.length : ℚ) - 1) =
          ((1 : ℕ) : ℚ) := by
        rw [hlen, hq]
        norm_num [constrain]
      have hj : (max (min (index - 1) 2) 0).toNat = 1 := by
        rw [← h2]; rfl
      refine ⟨presetMedium, by rw [hj]; rfl, fun h => by omega, fun _ => rfl, fun h => by omega,
        Controller.setImpactPreset_of_entry c index 1 presetMedium hi rfl,
        Controller.setImpactPreset_of_entry _ index 1 presetMedium hi rfl, hlaunch presetMedium⟩
    · -- hard
      have h3 : 3 ≤ index := by omega
      have hq : (3 : ℚ) ≤ (index : ℚ) := by exact_mod_cast h3
      have hi : constrain ((index : ℚ) - 1) 0 ((IMPACT_PRESETS.length : ℚ) - 1) =
          ((2 : ℕ) : ℚ) := by
        rw [hlen]
        unfold constrain
        rw [min_eq_right (by linarith), max_eq_left (by norm_num)]
        norm_num
      have hj : (max (min (index - 1) 2) 0).toNat = 2 := by
        rw [min_eq_right (by omega), max_eq_left (by omega)]; rfl
      refine ⟨presetHard, by rw [hj]; rfl, fun h => by omega, fun h => by omega, fun _ => rfl,
        Controller.setImpactPreset_of_entry c index 2 presetHard hi rfl,
        Controller.setImpactPreset_of_entry _ index 2 presetHard hi rfl, hlaunch presetHard⟩

/-! ## The controller: what every occurring state satisfies -/

/-- The method `resetTouchState()` keeps bar length and threshold, and leaves
no flash when no flash of mode `hit` was running. -/
theorem Controller.resetTouchState_constants (c : Controller) :
    c.resetTouchState.barLength = c.barLength ∧
    c.resetTouchState.overlapThreshold = c.overlapThreshold ∧
    (c.FlashIsTouch → c.resetTouchState.flashState = none) := by
  unfold Controller.resetTouchState Controller.FlashIsTouch
  cases hfs : c.flashState with
  | none =>
    by_cases hg : c.gameState = GameState.TOUCH
    · simp [hg, hfs]
    · simp [hg, hfs]
  | some fs =>
    by_cases hg : c.gameState = GameState.TOUCH
    · by_cases hm : fs.mode = FlashMode.touch
      · simp [hg, hfs, hm, Controller.restoreTargetColor]
      · simp [hg, hfs, hm]
    · by_cases hm : fs.mode = FlashMode.touch
      · simp [hg, hfs, hm, Controller.restoreTargetColor]
      · simp [hg, hfs, hm]

/-- The method `startTouchFlash()` when no flash of mode `hit` is running: a
continuous touch flash that starts now replaces the flash state. -/
theorem Controller.startTouchFlash_eq (c : Controller) (hf : c.FlashIsTouch) :
    c.startTouchFlash =
      { c with
        flashState := some
          { mode := FlashMode.touch
            start := c.time
            interval := c.flashInterval
            flashes := none
            continuous := true
            originalColor := c.baseTargetColor
            hitColor :=
              match c.env.targetHit with
              | some col => col
              | none => { r := 0, g := 229, b := 255, a := 255 } } } := by
  unfold Controller.startTouchFlash
  cases hfs : c.flashState with
  | none => simp
  | some fs =>
    have hm : fs.mode = FlashMode.touch := hf fs hfs
    simp [hm]

/-- The state `touching` keeps bar length and threshold and has a touch flash
when no flash of mode `hit` was running. -/
theorem Controller.touching_constants (c : Controller) :
    c.touching.barLength = c.barLength ∧
    c.touching.overlapThreshold = c.overlapThreshold ∧
    (c.FlashIsTouch → c.touching.FlashIsTouch) := by
  obtain ⟨-, -, -, hL⟩ := c.touching_frame
  obtain ⟨-, -, -, -, hT, -⟩ := c.touching_spec
  refine ⟨hL, hT, ?_⟩
  intro hf
  unfold Controller.touching
  cases hst : c.overlapStartTime with
  | none =>
    simp only
    rw [Controller.startTouchFlash_eq _ (by exact hf)]
    intro fs hfs
    simp only [Option.some.injEq] at hfs
    rw [← hfs]
  | some s =>
    simp only
    split_ifs
    · exact hf
    · exact hf

/-- The method `triggerHit()` keeps bar length and threshold and leaves no
flash of mode `hit`. -/
theorem Controller.triggerHit_constants (c : Controller) :
    c.triggerHit.barLength = c.barLength ∧
    c.triggerHit.overlapThreshold = c.overlapThreshold ∧
    (c.FlashIsTouch → c.triggerHit.FlashIsTouch) := by
  by_cases hs : c.gameState = GameState.HIT
  · have he : c.triggerHit = c := by
      unfold Controller.triggerHit; rw [if_pos hs]
    rw [he]
    exact ⟨rfl, rfl, fun h => h⟩
  · obtain ⟨-, -, -, -, hfs, -, hT⟩ := Controller.triggerHit_spec c hs
    refine ⟨?_, hT, ?_⟩
    · rw [Controller.triggerHit_eq c hs]
      split_ifs <;>
        simp [Controller.transitionToWin, Controller.restoreTargetColor, Controller.hitPending]
    · intro _ fs h
      rw [hfs] at h
      exact absurd h (by simp)

/-- The method `handleOverlap()` keeps bar length and threshold and leaves no
flash of mode `hit` when none was running. -/
theorem Controller.handleOverlap_constants (c : Controller) :
    c.handleOverlap.barLength = c.barLength ∧
    c.handleOverlap.overlapThreshold = c.overlapThreshold ∧
    (c.FlashIsTouch → c.handleOverlap.FlashIsTouch) := by
  by_cases h1 : c.gameState = GameState.HIT ∨ c.gameState = GameState.WIN
  · have he : c.handleOverlap = { c with overlappingNow := false } := by
      unfold Controller.handleOverlap; rw [if_pos h1]
    rw [he]
    exact ⟨rfl, rfl, fun h => h⟩
  · have hs : c.gameState = GameState.PLAY ∨ c.gameState = GameState.TOUCH := by
      cases hg : c.gameState with
      | PLAY => exact Or.inl rfl
      | TOUCH => exact Or.inr rfl
      | HIT => exact absurd (Or.inl hg) h1
      | WIN => exact absurd (Or.inr hg) h1
    by_cases ho : c.isOverlapping = true
    · obtain ⟨tL, tT, tf⟩ := c.touching_constants
      obtain ⟨hL, hT, hf⟩ := c.touching.triggerHit_constants
      rw [Controller.handleOverlap_eq_of_overlap c hs ho]
      split_ifs
      · exact ⟨hL.trans tL, hT.trans tT, fun h => hf (tf h)⟩
      · exact ⟨tL, tT, tf⟩
    · have hf : c.isOverlapping = false := Bool.eq_false_iff.mpr ho
      have he : c.handleOverlap =
          Controller.resetTouchState { c with overlappingNow := false } := by
        unfold Controller.handleOverlap
        rw [if_neg h1]
        simp only [hf, if_true]
      obtain ⟨rL, rT, rf⟩ :=
        Controller.resetTouchState_constants { c with overlappingNow := false }
      rw [he]
      refine ⟨rL, rT, ?_⟩
      intro hft fs hfs
      rw [rf hft] at hfs
      exact absurd hfs (by simp)

/-- The method `updateFlash()` leaves no flash of mode `hit` when none was
running. -/
theorem Controller.updateFlash_constants (c : Controller) :
    c.FlashIsTouch → c.updateFlash.FlashIsTouch := by
  intro hf
  unfold Controller.updateFlash
  cases hfs : c.flashState with
  | none =>
    simp only
    exact hf
  | some fs =>
    simp only
    split_ifs
    all_goals first
      | (intro fs2 h2; simp [Controller.restoreTargetColor] at h2; done)
      | (intro fs2 h2
         simp only [hfs, Option.some.injEq] at h2
         rw [← h2]
         exact hf fs hfs)

/-- A tick keeps bar length and threshold and leaves no flash of mode `hit`
when none was running. -/
theorem Controller.update_constants (M : MathFns) (c : Controller) (deltaTime : ℚ) :
    (c.update M deltaTime).barLength = c.barLength ∧
    (c.update M deltaTime).overlapThreshold = c.overlapThreshold ∧
    (c.FlashIsTouch → (c.update M deltaTime).FlashIsTouch) := by
  have hbL : (c.beforeOverlap M deltaTime).barLength = c.barLength := by
    simp [Controller.beforeOverlap, Controller.updateBlock, Controller.updateSegments,
      Controller.updateWaves]
  obtain ⟨-, -, -, -, bT, bf, -⟩ := c.beforeOverlap_frame M deltaTime
  by_cases hs : c.gameState = GameState.PLAY ∨ c.gameState = GameState.HIT ∨
      c.gameState = GameState.TOUCH
  · obtain ⟨hL, hT, hf⟩ := (c.beforeOverlap M deltaTime).handleOverlap_constants
    obtain ⟨-, -, -, fL⟩ := (c.beforeOverlap M deltaTime).handleOverlap.updateFlash_frame
    obtain ⟨-, -, -, fT, -, -, -⟩ := (c.beforeOverlap M deltaTime).handleOverlap.updateFlash_spec
    rw [Controller.update_eq_of_playing M c deltaTime hs, fL, fT, hL, hT, hbL, bT]
    refine ⟨rfl, rfl, ?_⟩
    intro h
    apply Controller.updateFlash_constants
    apply hf
    intro fs hfs
    rw [bf] at hfs
    exact h fs hfs
  · unfold Controller.update
    rw [if_neg hs]
    split_ifs with hw
    · simp only [Controller.ensureTargetValid_winStartTime]
      cases c.winStartTime with
      | none =>
        simp only [Controller.ensureTargetValid_barLength,
          Controller.ensureTargetValid_overlapThreshold]
        refine ⟨trivial, trivial, ?_⟩
        intro h fs hfs
        rw [Controller.ensureTargetValid_flashState] at hfs
        exact h fs hfs
      | some w =>
        simp only
        split_ifs
        · refine ⟨by simp [Controller.resetGame, Controller.restoreTargetColor],
            by simp [Controller.resetGame, Controller.restoreTargetColor], ?_⟩
          intro _ fs hfs
          simp [Controller.resetGame, Controller.restoreTargetColor] at hfs
        · simp only [Controller.ensureTargetValid_barLength,
            Controller.ensureTargetValid_overlapThreshold]
          refine ⟨trivial, trivial, ?_⟩
          intro h fs hfs
          rw [Controller.ensureTargetValid_flashState] at hfs
          exact h fs hfs
    · exact ⟨rfl, rfl, fun h => h⟩

/-- In every reachable controller state the bar length is at least `1`, the
overlap threshold is `2` and no flash of mode `hit` is running. -/
theorem Controller.reachable_constants (M : MathFns) (c : Controller)
    (hr : Controller.Reachable M c) :
    1 ≤ c.barLength ∧ c.overlapThreshold = 2 ∧ c.FlashIsTouch := by
  induction hr with
  | new barLength barHeight env =>
    refine ⟨?_, ?_, ?_⟩
    · simp [Controller.new, Controller.buildSegments]
    · simp [Controller.new, Controller.buildSegments]
    · intro fs hfs
      simp [Controller.new, Controller.buildSegments] at hfs
  | @update c deltaTime _ ih =>
    obtain ⟨uL, uT, uf⟩ := Controller.update_constants M c deltaTime
    rw [uL, uT]
    exact ⟨ih.1, ih.2.1, uf ih.2.2⟩
  | @launchWave c direction _ ih =>
    unfold Controller.launchWave
    split_ifs
    · exact ih
    · exact ih
  | @setImpactPreset c c1 index _ heq ih =>
    unfold Controller.setImpactPreset at heq
    simp only at heq
    split_ifs at heq
    split at heq
    · injection heq with heq
      rw [← heq]
      exact ih
    · exact absurd heq (by simp)

/-- In every occurring controller state the bar length is at least `1`, the
overlap threshold is `2` and no flash of mode `hit` is running. -/
theorem Controller.occurs_constants (M : MathFns) (c : Controller)
    (ho : Controller.Occurs M c) :
    1 ≤ c.barLength ∧ c.overlapThreshold = 2 ∧ c.FlashIsTouch := by
  cases ho with
  | reached hr => exact Controller.reachable_constants M c hr
  | @timeAdvanced c0 deltaTime hr =>
    obtain ⟨hL, hT, hf⟩ := Controller.reachable_constants M c0 hr
    exact ⟨hL, hT, hf⟩
  | @beforeOverlap c0 deltaTime hr =>
    obtain ⟨hL, hT, hf⟩ := Controller.reachable_constants M c0 hr
    have hbL : (c0.beforeOverlap M deltaTime).barLength = c0.barLength := by
      simp [Controller.beforeOverlap, Controller.updateBlock, Controller.updateSegments,
        Controller.updateWaves]
    obtain ⟨-, -, -, -, bT, bf, -⟩ := c0.beforeOverlap_frame M deltaTime
    rw [hbL, bT]
    refine ⟨hL, hT, ?_⟩
    intro fs hfs
    rw [bf] at hfs
    exact hf fs hfs

/-! ## The controller: keeping the target on the bar -/

/-- The method `respawnTargetSafe()` ends with the target center clamped
between `0.05 * barLength` and `0.95 * barLength`. -/
theorem Controller.respawnTargetSafe_center (c : Controller) :
    ∃ x : ℚ, c.respawnTargetSafe.target.center =
      max (c.barLength * (5 / 100)) (min (c.barLength * (95 / 100)) x) :=
  ⟨_, rfl⟩

/-! ## The target respawn on a constant random stream -/

/-- Whatever holds of every value of the random stream holds of every value of
the stream that the rejection loop leaves. -/
theorem TargetSegment.respawnLoop_rng (P : ℚ → Prop) (t : TargetSegment)
    (minGap avoidCenter avoidLength : ℚ) (candidate : ℚ) (attempts : ℕ) (rng : Rng)
    (hr : ∀ i, P (rng i)) :
    ∀ i, P ((t.respawnLoop minGap avoidCenter avoidLength candidate attempts rng).rng i) := by
  induction candidate, attempts, rng using
    TargetSegment.respawnLoop.induct t minGap avoidCenter avoidLength with
  | case1 candidate attempts rng hcond margin draw ih =>
    rw [TargetSegment.respawnLoop, if_pos hcond]
    exact ih (fun i => hr (i + 1))
  | case2 candidate attempts rng hcond =>
    rw [TargetSegment.respawnLoop, if_neg hcond]
    exact hr

/-- Whatever holds of every value of the random stream holds of every value of
the stream that `respawn` leaves. -/
theorem TargetSegment.respawn_rng (P : ℚ → Prop) (t : TargetSegment) (minGap : ℚ)
    (avoidCenter : Option ℚ) (avoidLength : ℚ) (rng : Rng) (hr : ∀ i, P (rng i)) :
    ∀ i, P ((t.respawn minGap avoidCenter avoidLength rng).2 i) := by
  cases avoidCenter with
  | none => exact fun i => hr (i + 1)
  | some ac =>
    exact TargetSegment.respawnLoop_rng P t minGap ac avoidLength _ 0 _
      (fun i => hr (i + 1))

/-- On a random stream that returns `v` at every call the loop of
`respawnTargetSafe()` leaves the target at `v`, with its length. -/
theorem Controller.respawnTargetSafeLoop_const (v : ℚ) (c : Controller) (minGap : ℚ)
    (attempts : ℕ) (h : ∀ i, c.env.rng i = v) :
    (c.respawnTargetSafeLoop minGap attempts).1.target.center = v ∧
    (c.respawnTargetSafeLoop minGap attempts).1.target.length = c.target.length := by
  induction c, minGap, attempts using Controller.respawnTargetSafeLoop.induct with
  | case1 c minGap attempts r c1 attempts1 hcond ih =>
    rw [Controller.respawnTargetSafeLoop, if_pos hcond]
    exact ih (TargetSegment.respawn_rng (fun x => x = v) c.target minGap
      (some c.block.center) c.block.length c.env.rng h)
  | case2 c minGap attempts r c1 attempts1 hcond =>
    rw [Controller.respawnTargetSafeLoop, if_neg hcond]
    exact ⟨TargetSegment.respawn_center (fun x => x = v) c.target minGap
      (some c.block.center) c.block.length c.env.rng h, rfl⟩

/-- On a random stream that returns at every call the same value `v`, between
`0.05 * barLength` and `0.95 * barLength` of a bar whose length is not
negative, `respawnTargetSafe()` leaves the target at `v`, with its length. -/
theorem Controller.respawnTargetSafe_const (v : ℚ) (c : Controller)
    (h : ∀ i, c.env.rng i = v) (hL : 0 ≤ c.barLength)
    (hv1 : c.barLength * (5 / 100) ≤ v) (hv2 : v ≤ c.barLength * (95 / 100)) :
    c.respawnTargetSafe.target.center = v ∧
    c.respawnTargetSafe.target.length = c.target.length := by
  obtain ⟨hc, hlen⟩ := Controller.respawnTargetSafeLoop_const v c c.targetMinGap 0 h
  obtain ⟨tgt, rng, hshape⟩ := c.respawnTargetSafeLoop_shape c.targetMinGap 0
  have hbar : (c.respawnTargetSafeLoop c.targetMinGap 0).1.barLength = c.barLength := by
    rw [hshape]
  have hvalid : ¬ ((c.respawnTargetSafeLoop c.targetMinGap 0).1.target.center < 0 ∨
      (c.respawnTargetSafeLoop c.targetMinGap 0).1.target.center >
        (c.respawnTargetSafeLoop c.targetMinGap 0).1.barLength) := by
    rw [hc, hbar]
    rintro (h1 | h1)
    · linarith
    · linarith
  constructor
  · show max (c.barLength * (5 / 100)) (min (c.barLength * (95 / 100))
      (if (c.respawnTargetSafeLoop c.targetMinGap 0).1.target.center < 0 ∨
          (c.respawnTargetSafeLoop c.targetMinGap 0).1.target.center >
            (c.respawnTargetSafeLoop c.targetMinGap 0).1.barLength then
        min ((c.respawnTargetSafeLoop c.targetMinGap 0).1.barLength - 100)
          ((c.respawnTargetSafeLoop c.targetMinGap 0).1.barLength * (7 / 10))
      else (c.respawnTargetSafeLoop c.targetMinGap 0).1.target.center)) = v
    rw [if_neg hvalid, hc, min_eq_right hv2, max_eq_right hv1]
  · exact hlen

/-- The controller built for a bar of length `3000` on a random stream that
returns at every call the same value `v` between `150` and `2850`: it is in
`PLAY` with no overlap pending, the block is at `1500` with half length `30`,
the target is at `v` with half length `90`. -/
theorem Controller.new_const (env : Env) (v : ℚ) (h : ∀ i, env.rng i = v)
    (hv1 : 150 ≤ v) (hv2 : v ≤ 2850) :
    (Controller.new 3000 50 env).gameState = GameState.PLAY ∧
    (Controller.new 3000 50 env).overlapStartTime = none ∧
    (Controller.new 3000 50 env).block.center = 1500 ∧
    (Controller.new 3000 50 env).block.length = 30 ∧
    (Controller.new 3000 50 env).target.center = v ∧
    (Controller.new 3000 50 env).target.length = 90 := by
  have hr : max (1 : ℚ) (Math_round 3000) = 3000 := by
    unfold Math_round
    norm_num [Int.floor_eq_iff]
  unfold Controller.new
  simp only [hr]
  refine ⟨by simp [Controller.buildSegments], by simp [Controller.buildSegments], ?_, ?_, ?_, ?_⟩
  · simp [Controller.buildSegments, BlockSegment.new]
    norm_num
  · simp [Controller.buildSegments, BlockSegment.new, BASE_GEOMETRY.blockHalfLength,
      BASE_GEOMETRY.barLength]
  · refine (Controller.respawnTargetSafe_const v _ ?_ ?_ ?_ ?_).1
    · exact h
    · show (0 : ℚ) ≤ 3000
      norm_num
    · show (3000 : ℚ) * (5 / 100) ≤ v
      linarith
    · show v ≤ (3000 : ℚ) * (95 / 100)
      linarith
  · rw [(Controller.respawnTargetSafe_const v _ ?_ ?_ ?_ ?_).2]
    · simp [Controller.buildSegments, TargetSegment.new, BASE_GEOMETRY.targetHalfLength,
        BASE_GEOMETRY.barLength]
    · exact h
    · show (0 : ℚ) ≤ 3000
      norm_num
    · show (3000 : ℚ) * (5 / 100) ≤ v
      linarith
    · show v ≤ (3000 : ℚ) * (95 / 100)
      linarith

/-! ## The controller: entering and leaving TOUCH -/

/-- C16: `handleOverlap()` on an occurring controller state in `PLAY` or
`TOUCH` in which block and target overlap.  When no overlap was pending, the
overlap start is set to the current time, a continuous touch flash is started,
the state is `TOUCH` and no hit is counted; and whenever the elapsed overlap
time, counted from the pending overlap start, is below the threshold, the state
after the call is `TOUCH`, the hit counter is unchanged and the overlap stays
pending. -/
theorem Controller.handleOverlap_enters_touch (M : MathFns) (c : Controller)
    (hoc : Controller.Occurs M c)
    (hs : c.gameState = GameState.PLAY ∨ c.gameState = GameState.TOUCH)
    (ho : c.isOverlapping = true) :
    (c.overlapStartTime = none →
      c.handleOverlap.overlapStartTime = some c.time ∧
      c.handleOverlap.flashState = some
        { mode := FlashMode.touch
          start := c.time
          interval := c.flashInterval
          flashes := none
          continuous := true
          originalColor := c.baseTargetColor
          hitColor :=
            match c.env.targetHit with
            | some col => col
            | none => { r := 0, g := 229, b := 255, a := 255 } } ∧
      c.handleOverlap.gameState = GameState.TOUCH ∧
      c.handleOverlap.hitCount = c.hitCount) ∧
    (∀ s : ℚ, c.overlapStartTime = some s → c.time - s < c.overlapThreshold →
      c.handleOverlap.gameState = GameState.TOUCH ∧
      c.handleOverlap.hitCount = c.hitCount ∧
      c.handleOverlap.overlapStartTime = some s) := by
  obtain ⟨-, hT, hf⟩ := Controller.occurs_constants M c hoc
  obtain ⟨-, -, -, hlt, -⟩ := c.handleOverlap_overlapping hs ho
  constructor
  · intro hnone
    have hlt0 : c.time - c.overlapStartTime.getD c.time < c.overlapThreshold := by
      rw [hnone, Option.getD_none, sub_self, hT]; norm_num
    obtain ⟨hh, hst, hg⟩ := hlt hlt0
    rw [hnone, Option.getD_none] at hst
    refine ⟨hst, ?_, hg, hh⟩
    obtain ⟨-, -, -, tt, tT, tst⟩ := c.touching_spec
    have he : c.handleOverlap = c.touching := by
      rw [Controller.handleOverlap_eq_of_overlap c hs ho, if_neg]
      rw [tt, tT, tst, Option.getD_some]
      exact not_le.mpr hlt0
    have htouch : c.touching =
        Controller.startTouchFlash
          { c with
            overlappingNow := true
            overlapStartTime := some c.time
            gameState := GameState.TOUCH } := by
      unfold Controller.touching
      rw [hnone]
    rw [he, htouch, Controller.startTouchFlash_eq _ (by exact hf)]
  · intro s hsome hlts
    have hlt1 : c.time - c.overlapStartTime.getD c.time < c.overlapThreshold := by
      rw [hsome, Option.getD_some]; exact hlts
    obtain ⟨hh, hst, hg⟩ := hlt hlt1
    rw [hsome, Option.getD_some] at hst
    exact ⟨hg, hh, hst⟩

theorem Controller.handleOverlap_enters_touch_witness :
    stuckController.isOverlapping = true ∧
      stuckController.handleOverlap.gameState = GameState.TOUCH ∧
      stuckController.handleOverlap.overlapStartTime = some stuckController.time ∧
      stuckController.handleOverlap.hitCount = stuckController.hitCount := by
  obtain ⟨hg, hst, hbc, hbl, htc, htl⟩ :=
    Controller.new_const stuckEnv 1500 (fun _ => rfl) (by norm_num) (by norm_num)
  have ho : stuckController.isOverlapping = true := by
    unfold Controller.isOverlapping stuckController
    rw [hbc, hbl, htc, htl]
    norm_num
  have h := (Controller.handleOverlap_enters_touch sampleMath stuckController
    (Controller.Occurs.reached (Controller.Reachable.new 3000 50 stuckEnv))
    (Or.inl hg) ho).1 hst
  exact ⟨ho, h.2.2.1, h.1, h.2.2.2⟩

/-- C17: `handleOverlap()` on an occurring controller state in which block and
target do not overlap.  From `TOUCH` the state after the call is `PLAY`, the
overlap start is cleared, the touch flash is cancelled (`flashState` is `null`)
and the hit counter is unchanged; from `PLAY` the state stays `PLAY`, with the
same effects. -/
theorem Controller.handleOverlap_leaves_touch (M : MathFns) (c : Controller)
    (hoc : Controller.Occurs M c) (hno : c.isOverlapping = false) :
    (c.gameState = GameState.TOUCH →
      c.handleOverlap.gameState = GameState.PLAY ∧
      c.handleOverlap.overlapStartTime = none ∧
      c.handleOverlap.flashState = none ∧
      c.handleOverlap.hitCount = c.hitCount) ∧
    (c.gameState = GameState.PLAY →
      c.handleOverlap.gameState = GameState.PLAY ∧
      c.handleOverlap.overlapStartTime = none ∧
      c.handleOverlap.flashState = none ∧
      c.handleOverlap.hitCount = c.hitCount) := by
  obtain ⟨-, -, hf⟩ := Controller.occurs_constants M c hoc
  have key : (c.gameState = GameState.PLAY ∨ c.gameState = GameState.TOUCH) →
      c.handleOverlap.gameState = GameState.PLAY ∧
      c.handleOverlap.overlapStartTime = none ∧
      c.handleOverlap.flashState = none ∧
      c.handleOverlap.hitCount = c.hitCount := by
    intro hs
    have h1 : ¬ (c.gameState = GameState.HIT ∨ c.gameState = GameState.WIN) := by
      rcases hs with h | h <;> rw [h] <;> decide
    have he : c.handleOverlap =
        Controller.resetTouchState { c with overlappingNow := false } := by
      unfold Controller.handleOverlap
      rw [if_neg h1]
      simp only [hno, if_true]
    obtain ⟨rh, -, rst, rg⟩ :=
      Controller.resetTouchState_spec { c with overlappingNow := false }
    obtain ⟨-, -, rf⟩ :=
      Controller.resetTouchState_constants { c with overlappingNow := false }
    rw [he]
    refine ⟨?_, rst, rf (by exact hf), rh⟩
    rw [rg]
    rcases hs with h | h
    · simp [h]
    · simp [h]
  exact ⟨fun h => key (Or.inr h), fun h => key (Or.inl h)⟩

theorem Controller.handleOverlap_leaves_touch_witness :
    sampleController.isOverlapping = false ∧
      sampleController.handleOverlap.gameState = GameState.PLAY ∧
      sampleController.handleOverlap.flashState = none := by
  obtain ⟨hg, hst, hbc, hbl, htc, htl⟩ :=
    Controller.new_const sampleEnv 2000 (fun _ => rfl) (by norm_num) (by norm_num)
  have hno : sampleController.isOverlapping = false := by
    unfold Controller.isOverlapping sampleController
    rw [hbc, hbl, htc, htl]
    norm_num [abs_le]
  have h := (Controller.handleOverlap_leaves_touch sampleMath sampleController
    (Controller.Occurs.reached (Controller.Reachable.new 3000 50 sampleEnv)) hno).2 hg
  exact ⟨hno, h.1, h.2.2.1⟩

/-! ## The controller: the overlap test -/

/-- C24: for half lengths that are not negative, `isOverlapping()` is true
exactly when the closed intervals of half length `length` around the block
center and around the target center have a point in common; and the test gives
the same answer when block and target exchange their centers and lengths. -/
theorem Controller.isOverlapping_iff_intervals_meet (c : Controller)
    (hb : 0 ≤ c.block.length) (ht : 0 ≤ c.target.length) :
    (c.isOverlapping = true ↔
      ∃ x : ℚ,
        (c.block.center - c.block.length ≤ x ∧ x ≤ c.block.center + c.block.length) ∧
        (c.target.center - c.target.length ≤ x ∧ x ≤ c.target.center + c.target.length)) ∧
    (∀ c1 : Controller,
      c1.block.center = c.target.center → c1.block.length = c.target.length →
      c1.target.center = c.block.center → c1.target.length = c.block.length →
      c1.isOverlapping = c.isOverlapping) := by
  constructor
  · unfold Controller.isOverlapping
    rw [decide_eq_true_iff, abs_le]
    constructor
    · rintro ⟨h1, h2⟩
      refine ⟨max (c.block.center - c.block.length) (c.target.center - c.target.length),
        ⟨le_max_left _ _, max_le (by linarith) (by linarith)⟩,
        ⟨le_max_right _ _, max_le (by linarith) (by linarith)⟩⟩
    · rintro ⟨x, ⟨h1, h2⟩, h3, h4⟩
      exact ⟨by linarith, by linarith⟩
  · intro c1 h1 h2 h3 h4
    unfold Controller.isOverlapping
    rw [h1, h2, h3, h4, abs_sub_comm, add_comm]

theorem Controller.isOverlapping_iff_intervals_meet_witness :
    sampleOverlap.isOverlapping = true ↔
      ∃ x : ℚ,
        (sampleOverlap.block.center - sampleOverlap.block.length ≤ x ∧
          x ≤ sampleOverlap.block.center + sampleOverlap.block.length) ∧
        (sampleOverlap.target.center - sampleOverlap.target.length ≤ x ∧
          x ≤ sampleOverlap.target.center + sampleOverlap.target.length) :=
  (Controller.isOverlapping_iff_intervals_meet sampleOverlap
    (by show (0 : ℚ) ≤ 30; norm_num) (by show (0 : ℚ) ≤ 90; norm_num)).1

/-! ## The controller: HIT is never left behind -/

/-- The method `handleOverlap()` called outside `HIT` ends outside `HIT`. -/
theorem Controller.handleOverlap_not_hit (c : Controller)
    (h : c.gameState ≠ GameState.HIT) : c.handleOverlap.gameState ≠ GameState.HIT := by
  cases hg : c.gameState with
  | HIT => exact absurd hg h
  | WIN =>
    have he : c.handleOverlap = { c with overlappingNow := false } := by
      unfold Controller.handleOverlap; rw [if_pos (Or.inr hg)]
    rw [he]
    show c.gameState ≠ GameState.HIT
    exact h
  | PLAY =>
    obtain ⟨-, hcase⟩ := c.handleOverlap_count (Or.inl hg)
    rcases hcase with ⟨-, h1 | h1⟩ | ⟨-, -, h1⟩
    · rw [h1]; decide
    · rw [h1]; decide
    · rw [h1]; split_ifs <;> decide
  | TOUCH =>
    obtain ⟨-, hcase⟩ := c.handleOverlap_count (Or.inr hg)
    rcases hcase with ⟨-, h1 | h1⟩ | ⟨-, -, h1⟩
    · rw [h1]; decide
    · rw [h1]; decide
    · rw [h1]; split_ifs <;> decide

/-- The method `triggerHit()` called outside `HIT` ends in `WIN` or `PLAY`. -/
theorem Controller.triggerHit_not_hit (c : Controller)
    (h : c.gameState ≠ GameState.HIT) : c.triggerHit.gameState ≠ GameState.HIT := by
  obtain ⟨-, -, hg, -⟩ := Controller.triggerHit_spec c h
  rw [hg]
  split_ifs <;> decide

/-- C23: in every reachable controller state the state is not `HIT`, so the
`HIT` branch of `update()` is not taken; after the tick the state is `PLAY`,
`TOUCH` or `WIN`; inside the tick `handleOverlap()` is called outside `HIT` and
ends outside `HIT`, and it calls `triggerHit()` on a state in `TOUCH`, which
ends outside `HIT`; the same holds when `handleOverlap()` or `triggerHit()` is
called on the reachable state itself. -/
theorem Controller.hit_is_transient (M : MathFns) (c : Controller) (deltaTime : ℚ)
    (hr : Controller.Reachable M c) :
    c.gameState ≠ GameState.HIT ∧
    ((c.update M deltaTime).gameState = GameState.PLAY ∨
      (c.update M deltaTime).gameState = GameState.TOUCH ∨
      (c.update M deltaTime).gameState = GameState.WIN) ∧
    (c.beforeOverlap M deltaTime).gameState ≠ GameState.HIT ∧
    (c.beforeOverlap M deltaTime).handleOverlap.gameState ≠ GameState.HIT ∧
    (c.beforeOverlap M deltaTime).touching.gameState = GameState.TOUCH ∧
    (c.beforeOverlap M deltaTime).touching.triggerHit.gameState ≠ GameState.HIT ∧
    c.handleOverlap.gameState ≠ GameState.HIT ∧
    c.triggerHit.gameState ≠ GameState.HIT := by
  obtain ⟨-, hnh, -⟩ := Controller.reachable_invariant M c hr
  obtain ⟨-, hnu, -⟩ := Controller.reachable_invariant M (c.update M deltaTime)
    (Controller.Reachable.update deltaTime hr)
  obtain ⟨bg, -⟩ := c.beforeOverlap_frame M deltaTime
  have hb : (c.beforeOverlap M deltaTime).gameState ≠ GameState.HIT := by rw [bg]; exact hnh
  obtain ⟨tg, -⟩ := (c.beforeOverlap M deltaTime).touching_spec
  refine ⟨hnh, ?_, hb, Controller.handleOverlap_not_hit _ hb, tg,
    Controller.triggerHit_not_hit _ (by rw [tg]; decide),
    Controller.handleOverlap_not_hit c hnh, Controller.triggerHit_not_hit c hnh⟩
  cases hg : (c.update M deltaTime).gameState with
  | PLAY => exact Or.inl rfl
  | TOUCH => exact Or.inr (Or.inl rfl)
  | WIN => exact Or.inr (Or.inr rfl)
  | HIT => exact absurd hg hnu

theorem Controller.hit_is_transient_witness :
    sampleController.gameState ≠ GameState.HIT ∧
      (sampleController.update sampleMath 16).gameState ≠ GameState.HIT ∧
      sampleController.triggerHit.gameState ≠ GameState.HIT := by
  have h := Controller.hit_is_transient sampleMath sampleController 16
    (Controller.Reachable.new 3000 50 sampleEnv)
  refine ⟨h.1, ?_, h.2.2.2.2.2.2.2⟩
  rcases h.2.1 with h1 | h1 | h1 <;> rw [h1] <;> decide

/-! ## The target: how many draws a respawn makes -/

/-- The rejection loop of `respawn`, entered with at most thirty redraws made:
it makes `k` further draws, stops with at most thirty redraws, leaves the
stream without its first `k` values, holds the last value drawn (or the
candidate it was entered with), has found every earlier candidate in the
exclusion zone, and holds a candidate clear of the zone unless the thirty
redraws are used up. -/
theorem TargetSegment.respawnLoop_trace (t : TargetSegment)
    (minGap avoidCenter avoidLength : ℚ) (candidate : ℚ) (attempts : ℕ) (rng : Rng)
    (ha : attempts ≤ 30) :
    ∃ k : ℕ,
      (t.respawnLoop minGap avoidCenter avoidLength candidate attempts rng).attempts
        = attempts + k ∧
      (t.respawnLoop minGap avoidCenter avoidLength candidate attempts rng).attempts ≤ 30 ∧
      (t.respawnLoop minGap avoidCenter avoidLength candidate attempts rng).rng
        = (fun i => rng (i + k)) ∧
      (k = 0 →
        (t.respawnLoop minGap avoidCenter avoidLength candidate attempts rng).candidate
          = candidate) ∧
      (∀ j, j + 1 = k →
        (t.respawnLoop minGap avoidCenter avoidLength candidate attempts rng).candidate
          = rng j) ∧
      (0 < k → t.Blocked minGap avoidCenter avoidLength candidate) ∧
      (∀ j, j + 1 < k → t.Blocked minGap avoidCenter avoidLength (rng j)) ∧
      ((t.respawnLoop minGap avoidCenter avoidLength candidate attempts rng).attempts < 30 →
        ¬ t.Blocked minGap avoidCenter avoidLength
          (t.respawnLoop minGap avoidCenter avoidLength candidate attempts rng).candidate) := by
  induction candidate, attempts, rng using
    TargetSegment.respawnLoop.induct t minGap avoidCenter avoidLength with
  | case1 candidate attempts rng hcond margin draw ih =>
    obtain ⟨k, h1, h2, h3, h4, h5, h6, h7, h8⟩ := ih (by omega)
    rw [TargetSegment.respawnLoop, if_pos hcond]
    refine ⟨k + 1, ?_, h2, ?_, ?_, ?_, ?_, ?_, h8⟩
    · rw [h1]; omega
    · rw [h3]
      funext i
      show rng (i + k + 1) = rng (i + (k + 1))
      rfl
    · intro h; omega
    · intro j hj
      cases k with
      | zero =>
        have hj0 : j = 0 := by omega
        rw [h4 rfl, hj0]
        rfl
      | succ k1 =>
        have hj1 : j = k1 + 1 := by omega
        rw [h5 k1 rfl, hj1]
        rfl
    · intro _
      exact hcond.1
    · intro j hj
      cases j with
      | zero => exact h6 (by omega)
      | succ j1 => exact h7 j1 (by omega)
  | case2 candidate attempts rng hcond =>
    rw [TargetSegment.respawnLoop, if_neg hcond]
    refine ⟨0, rfl, ha, rfl, fun _ => rfl, fun j hj => by omega, fun h => by omega,
      fun j hj => by omega, ?_⟩
    intro hlt hb
    exact hcond ⟨hb, hlt⟩

/-- A call of `respawn` with an `avoidCenter`, on the stream `rng`: with `n` the
number of redraws, `n ≤ 30`, the draws made are the first `n + 1` values of the
stream, the candidate is the last of them, all the earlier ones fall in the
exclusion zone, and the candidate is clear of the zone when `n < 30`. -/
theorem TargetSegment.respawnRun_trace (t : TargetSegment)
    (minGap avoidCenter avoidLength : ℚ) (rng : Rng) :
    (t.respawnRun minGap (some avoidCenter) avoidLength rng).attempts ≤ 30 ∧
    (t.respawnRun minGap (some avoidCenter) avoidLength rng).rng =
      (fun i => rng (i + ((t.respawnRun minGap (some avoidCenter) avoidLength rng).attempts
        + 1))) ∧
    (t.respawnRun minGap (some avoidCenter) avoidLength rng).candidate =
      rng (t.respawnRun minGap (some avoidCenter) avoidLength rng).attempts ∧
    (∀ j, j < (t.respawnRun minGap (some avoidCenter) avoidLength rng).attempts →
      t.Blocked minGap avoidCenter avoidLength (rng j)) ∧
    ((t.respawnRun minGap (some avoidCenter) avoidLength rng).attempts < 30 →
      ¬ t.Blocked minGap avoidCenter avoidLength
        (rng (t.respawnRun minGap (some avoidCenter) avoidLength rng).attempts)) := by
  have hrun : t.respawnRun minGap (some avoidCenter) avoidLength rng =
      t.respawnLoop minGap avoidCenter avoidLength (rng 0) 0 rng.rest := rfl
  obtain ⟨k, h1, h2, h3, h4, h5, h6, h7, h8⟩ :=
    TargetSegment.respawnLoop_trace t minGap avoidCenter avoidLength (rng 0) 0 rng.rest
      (by omega)
  rw [hrun]
  have hk : (t.respawnLoop minGap avoidCenter avoidLength (rng 0) 0 rng.rest).attempts = k := by
    rw [h1]; omega
  have hcand : (t.respawnLoop minGap avoidCenter avoidLength (rng 0) 0 rng.rest).candidate
      = rng k := by
    cases k with
    | zero => exact h4 rfl
    | succ k1 => rw [h5 k1 rfl]; rfl
  refine ⟨h2, ?_, ?_, ?_, ?_⟩
  · rw [h3, hk]
    funext i
    show rng (i + k + 1) = rng (i + (k + 1))
    rfl
  · rw [hcand, hk]
  · intro j hj
    rw [hk] at hj
    cases j with
    | zero => exact h6 hj
    | succ j1 => exact h7 j1 (by omega)
  · intro hlt
    have := h8 hlt
    rw [hcand] at this
    rw [hk]
    exact this

/-- C21, as stated, fails on the count of draws: when the first thirty draws
all fall in the exclusion zone, `respawn` makes a thirty-first draw and sets the
center to it (`2000` here), not to the thirtieth draw (`1500`). -/
theorem TargetSegment.respawn_draw_count_counterexample :
    (∀ j, j < 30 → sampleTarget.Blocked 80 1500 90 (lateDraws j)) ∧
    (sampleTarget.respawnRun 80 (some 1500) 90 lateDraws).attempts + 1 = 31 ∧
    (sampleTarget.respawn 80 (some 1500) 90 lateDraws).2 = (fun i => lateDraws (i + 31)) ∧
    (sampleTarget.respawn 80 (some 1500) 90 lateDraws).1.center = lateDraws 30 ∧
    lateDraws 30 = 2000 ∧ lateDraws 29 = 1500 := by
  have hblocked : ∀ j, j < 30 → sampleTarget.Blocked 80 1500 90 (lateDraws j) := by
    intro j hj
    have hne : j ≠ 30 := by omega
    simp only [TargetSegment.Blocked, lateDraws, if_neg hne]
    norm_num [sampleTarget, TargetSegment.new]
  obtain ⟨h1, h2, h3, h4, h5⟩ :=
    TargetSegment.respawnRun_trace sampleTarget 80 1500 90 lateDraws
  have hn : (sampleTarget.respawnRun 80 (some 1500) 90 lateDraws).attempts = 30 := by
    by_contra hne
    have hlt : (sampleTarget.respawnRun 80 (some 1500) 90 lateDraws).attempts < 30 := by
      omega
    exact h5 hlt (hblocked _ hlt)
  refine ⟨hblocked, by rw [hn], ?_, ?_, by simp [lateDraws], by simp [lateDraws]⟩
  · show (sampleTarget.respawnRun 80 (some 1500) 90 lateDraws).rng = _
    rw [h2, hn]
  · show (sampleTarget.respawnRun 80 (some 1500) 90 lateDraws).candidate = _
    rw [h3, hn]

/-- C21, amended: a call of `respawn` with an `avoidCenter` makes one draw and
then at most thirty redraws, at most thirty-one draws in all.  With `n` the
number of redraws: the draws made are the first `n + 1` values of the stream and
the center is the last of them; every earlier draw falls in the exclusion zone;
so the center is the first draw clear of the zone when one of the thirty-one is
clear, and the thirty-first draw when none is. -/
theorem TargetSegment.respawn_draws (t : TargetSegment)
    (minGap avoidCenter avoidLength : ℚ) (rng : Rng) :
    (t.respawnRun minGap (some avoidCenter) avoidLength rng).attempts ≤ 30 ∧
    (t.respawn minGap (some avoidCenter) avoidLength rng).2 =
      (fun i => rng (i + ((t.respawnRun minGap (some avoidCenter) avoidLength rng).attempts
        + 1))) ∧
    (t.respawn minGap (some avoidCenter) avoidLength rng).1.center =
      rng (t.respawnRun minGap (some avoidCenter) avoidLength rng).attempts ∧
    (∀ j, j < (t.respawnRun minGap (some avoidCenter) avoidLength rng).attempts →
      t.Blocked minGap avoidCenter avoidLength (rng j)) ∧
    (∀ m, m ≤ 30 → ¬ t.Blocked minGap avoidCenter avoidLength (rng m) →
      (∀ j, j < m → t.Blocked minGap avoidCenter avoidLength (rng j)) →
      (t.respawnRun minGap (some avoidCenter) avoidLength rng).attempts = m ∧
      (t.respawn minGap (some avoidCenter) avoidLength rng).1.center = rng m) ∧
    ((∀ j, j ≤ 30 → t.Blocked minGap avoidCenter avoidLength (rng j)) →
      (t.respawnRun minGap (some avoidCenter) avoidLength rng).attempts = 30 ∧
      (t.respawn minGap (some avoidCenter) avoidLength rng).1.center = rng 30) := by
  obtain ⟨h1, h2, h3, h4, h5⟩ :=
    TargetSegment.respawnRun_trace t minGap avoidCenter avoidLength rng
  have hcenter : (t.respawn minGap (some avoidCenter) avoidLength rng).1.center =
      (t.respawnRun minGap (some avoidCenter) avoidLength rng).candidate := rfl
  have hrng : (t.respawn minGap (some avoidCenter) avoidLength rng).2 =
      (t.respawnRun minGap (some avoidCenter) avoidLength rng).rng := rfl
  refine ⟨h1, by rw [hrng]; exact h2, by rw [hcenter]; exact h3, h4, ?_, ?_⟩
  · intro m hm hclear hbefore
    have hn : (t.respawnRun minGap (some avoidCenter) avoidLength rng).attempts = m := by
      rcases lt_trichotomy (t.respawnRun minGap (some avoidCenter) avoidLength rng).attempts m
        with hlt | heq | hgt
      · exact absurd (hbefore _ hlt) (h5 (by omega))
      · exact heq
      · exact absurd (h4 m hgt) hclear
    refine ⟨hn, ?_⟩
    rw [hcenter, h3, hn]
  · intro hall
    have hn : (t.respawnRun minGap (some avoidCenter) avoidLength rng).attempts = 30 := by
      by_contra hne
      have hlt : (t.respawnRun minGap (some avoidCenter) avoidLength rng).attempts < 30 := by
        omega
      exact h5 hlt (hall _ (by omega))
    refine ⟨hn, ?_⟩
    rw [hcenter, h3, hn]

/-! ## The controller: what leaves block and geometry alone -/

/-- The loop of `respawnTargetSafe()` changes only the center of the target. -/
theorem Controller.respawnTargetSafeLoop_target (c : Controller) (minGap : ℚ)
    (attempts : ℕ) :
    (c.respawnTargetSafeLoop minGap attempts).1.target.length = c.target.length ∧
    (c.respawnTargetSafeLoop minGap attempts).1.target.barLength = c.target.barLength ∧
    (c.respawnTargetSafeLoop minGap attempts).1.target.blend = c.target.blend := by
  induction c, minGap, attempts using Controller.respawnTargetSafeLoop.induct with
  | case1 c minGap attempts r c1 attempts1 hcond ih =>
    rw [Controller.respawnTargetSafeLoop, if_pos hcond]
    exact ih
  | case2 c minGap attempts r c1 attempts1 hcond =>
    rw [Controller.respawnTargetSafeLoop, if_neg hcond]
    exact ⟨rfl, rfl, rfl⟩

/-- The method `respawnTargetSafe()` changes only the center of the target. -/
theorem Controller.respawnTargetSafe_target (c : Controller) :
    c.respawnTargetSafe.target.length = c.target.length ∧
    c.respawnTargetSafe.target.barLength = c.target.barLength ∧
    c.respawnTargetSafe.target.blend = c.target.blend :=
  c.respawnTargetSafeLoop_target c.targetMinGap 0

/-- The method `respawnTargetSafe()` keeps the geometry. -/
theorem Controller.respawnTargetSafe_geometry (c : Controller) :
    c.respawnTargetSafe.geometry = c.geometry := by
  obtain ⟨h1, h2, -⟩ := c.respawnTargetSafe_target
  unfold Controller.geometry
  rw [h1, h2, c.respawnTargetSafe_barLength, c.respawnTargetSafe_targetMinGap]

/-- The method `ensureTargetValid()` keeps the geometry. -/
theorem Controller.ensureTargetValid_geometry (c : Controller) :
    c.ensureTargetValid.geometry = c.geometry := by
  unfold Controller.ensureTargetValid
  split_ifs
  · exact c.respawnTargetSafe_geometry
  · rfl

/-- The method `resetTouchState()` keeps block and geometry. -/
theorem Controller.resetTouchState_keeps (c : Controller) :
    c.resetTouchState.block = c.block ∧ c.resetTouchState.geometry = c.geometry := by
  unfold Controller.resetTouchState Controller.geometry
  cases hfs : c.flashState with
  | none =>
    by_cases hg : c.gameState = GameState.TOUCH
    · simp [hg, hfs]
    · simp [hg, hfs]
  | some fs =>
    by_cases hg : c.gameState = GameState.TOUCH
    · by_cases hm : fs.mode = FlashMode.touch
      · simp [hg, hfs, hm, Controller.restoreTargetColor]
      · simp [hg, hfs, hm]
    · by_cases hm : fs.mode = FlashMode.touch
      · simp [hg, hfs, hm, Controller.restoreTargetColor]
      · simp [hg, hfs, hm]

/-- The method `triggerHit()` keeps block and geometry. -/
theorem Controller.triggerHit_keeps (c : Controller) :
    c.triggerHit.block = c.block ∧ c.triggerHit.geometry = c.geometry := by
  by_cases hs : c.gameState = GameState.HIT
  · have he : c.triggerHit = c := by
      unfold Controller.triggerHit; rw [if_pos hs]
    rw [he]
    exact ⟨rfl, rfl⟩
  · rw [Controller.triggerHit_eq c hs]
    split_ifs
    · exact ⟨rfl, rfl⟩
    · constructor
      · show c.hitPending.respawnTargetSafe.block = c.block
        rw [Controller.respawnTargetSafe_block]
        rfl
      · show c.hitPending.respawnTargetSafe.geometry = c.geometry
        rw [Controller.respawnTargetSafe_geometry]
        rfl

/-- The state `touching` keeps the geometry. -/
theorem Controller.touching_geometry (c : Controller) :
    c.touching.geometry = c.geometry := by
  unfold Controller.touching Controller.geometry
  cases hst : c.overlapStartTime with
  | none =>
    obtain ⟨fs, hfs⟩ := Controller.startTouchFlash_shape
      { c with
        overlappingNow := true
        overlapStartTime := some c.time
        gameState := GameState.TOUCH }
    simp [hfs]
  | some s =>
    simp only
    split_ifs <;> simp

/-- The method `handleOverlap()` keeps block and geometry. -/
theorem Controller.handleOverlap_keeps (c : Controller) :
    c.handleOverlap.block = c.block ∧ c.handleOverlap.geometry = c.geometry := by
  by_cases h1 : c.gameState = GameState.HIT ∨ c.gameState = GameState.WIN
  · have he : c.handleOverlap = { c with overlappingNow := false } := by
      unfold Controller.handleOverlap; rw [if_pos h1]
    rw [he]
    exact ⟨rfl, rfl⟩
  · have hs : c.gameState = GameState.PLAY ∨ c.gameState = GameState.TOUCH := by
      cases hg : c.gameState with
      | PLAY => exact Or.inl rfl
      | TOUCH => exact Or.inr rfl
      | HIT => exact absurd (Or.inl hg) h1
      | WIN => exact absurd (Or.inr hg) h1
    by_cases ho : c.isOverlapping = true
    · obtain ⟨-, tb, -, -⟩ := c.touching_frame
      have tg := c.touching_geometry
      obtain ⟨hb, hg⟩ := c.touching.triggerHit_keeps
      rw [Controller.handleOverlap_eq_of_overlap c hs ho]
      split_ifs
      · exact ⟨hb.trans tb, hg.trans tg⟩
      · exact ⟨tb, tg⟩
    · have hf : c.isOverlapping = false := Bool.eq_false_iff.mpr ho
      have he : c.handleOverlap =
          Controller.resetTouchState { c with overlappingNow := false } := by
        unfold Controller.handleOverlap
        rw [if_neg h1]
        simp only [hf, if_true]
      rw [he]
      exact Controller.resetTouchState_keeps { c with overlappingNow := false }

/-- The method `updateFlash()` keeps the geometry. -/
theorem Controller.updateFlash_geometry (c : Controller) :
    c.updateFlash.geometry = c.geometry := by
  unfold Controller.updateFlash Controller.geometry
  cases hfs : c.flashState with
  | none => simp
  | some fs =>
    simp only
    split_ifs <;> simp [Controller.restoreTargetColor]

/-- The steps of a tick before `handleOverlap()` keep the geometry. -/
theorem Controller.beforeOverlap_geometry (M : MathFns) (c : Controller) (deltaTime : ℚ) :
    (c.beforeOverlap M deltaTime).geometry = c.geometry := by
  have h := Controller.ensureTargetValid_geometry
    { c with time := c.time + deltaTime / 1000 }
  unfold Controller.geometry at h ⊢
  simpa [Controller.beforeOverlap, Controller.updateBlock, Controller.updateSegments,
    Controller.updateWaves] using h

/-- The method `resetGame()` keeps the geometry and puts the block at rest at
the middle of the bar. -/
theorem Controller.resetGame_keeps (c : Controller) :
    c.resetGame.geometry = c.geometry ∧
    c.resetGame.block =
      { c.block with
        center := c.barLength * (1 / 2)
        targetCenter := c.barLength * (1 / 2)
        velocity := 0 } := by
  have hr := Controller.respawnTargetSafe_geometry
    { c with
      hitCount := 0
      time := 0
      winStartTime := none
      waves := []
      block :=
        { c.block with
          center := c.barLength * (1 / 2)
          targetCenter := c.barLength * (1 / 2)
          velocity := 0 } }
  constructor
  · exact hr
  · simp [Controller.resetGame, Controller.restoreTargetColor]

/-- A tick in `WIN` is `ensureTargetValid()` on the state with the time
advanced, followed or not by `resetGame()`. -/
theorem Controller.update_win_eq (M : MathFns) (c : Controller) (deltaTime : ℚ)
    (hw : c.gameState = GameState.WIN) :
    c.update M deltaTime =
        Controller.resetGame
          (Controller.ensureTargetValid { c with time := c.time + deltaTime / 1000 }) ∨
      c.update M deltaTime =
        Controller.ensureTargetValid { c with time := c.time + deltaTime / 1000 } := by
  have h1 : ¬ (c.gameState = GameState.PLAY ∨ c.gameState = GameState.HIT ∨
      c.gameState = GameState.TOUCH) := by
    rw [hw]; decide
  unfold Controller.update
  rw [if_neg h1, if_pos hw]
  simp only
  split
  · split_ifs
    · exact Or.inl rfl
    · exact Or.inr rfl
  · exact Or.inr rfl

/-- A tick keeps the geometry. -/
theorem Controller.update_geometry (M : MathFns) (c : Controller) (deltaTime : ℚ) :
    (c.update M deltaTime).geometry = c.geometry := by
  have he := Controller.ensureTargetValid_geometry
    { c with time := c.time + deltaTime / 1000 }
  cases hg : c.gameState with
  | WIN =>
    rcases Controller.update_win_eq M c deltaTime hg with h | h
    · rw [h, (Controller.resetGame_keeps _).1]
      exact he
    · rw [h]
      exact he
  | PLAY =>
    rw [Controller.update_eq_of_playing M c deltaTime (Or.inl hg),
      Controller.updateFlash_geometry, (Controller.handleOverlap_keeps _).2,
      Controller.beforeOverlap_geometry]
  | TOUCH =>
    rw [Controller.update_eq_of_playing M c deltaTime (Or.inr (Or.inr hg)),
      Controller.updateFlash_geometry, (Controller.handleOverlap_keeps _).2,
      Controller.beforeOverlap_geometry]
  | HIT =>
    rw [Controller.update_eq_of_playing M c deltaTime (Or.inr (Or.inl hg)),
      Controller.updateFlash_geometry, (Controller.handleOverlap_keeps _).2,
      Controller.beforeOverlap_geometry]

/-! ## The controller: the block stays on the bar -/

/-- A push keeps a block on its bar, whose length it leaves alone. -/
theorem BlockSegment.push_onBar (b : BlockSegment) (distance waveSpeed : ℚ)
    (h : b.OnBar) :
    (b.push distance waveSpeed).OnBar ∧ (b.push distance waveSpeed).barLength = b.barLength := by
  obtain ⟨hs, -, ⟨hc1, hc2⟩, -, -⟩ := h
  have hL : 0 ≤ b.barLength := le_trans hc1 hc2
  refine ⟨⟨hs, mul_nonneg (abs_nonneg _) hs, ⟨hc1, hc2⟩, ?_, ?_⟩, rfl⟩
  · exact le_max_right _ _
  · exact max_le (min_le_right _ _) hL

/-- A step of `update(dt)` with `dt` not negative keeps a block on its bar,
whose length it leaves alone. -/
theorem BlockSegment.update_onBar (b : BlockSegment) (dt : ℚ) (hdt : 0 ≤ dt)
    (h : b.OnBar) :
    (b.update dt).OnBar ∧ (b.update dt).barLength = b.barLength := by
  obtain ⟨hs, hv, ⟨hc1, hc2⟩, ht1, ht2⟩ := h
  have hstep : 0 ≤ b.velocity * dt := mul_nonneg hv hdt
  rcases b.update_cases dt with ⟨_, he⟩ | ⟨_, _, he⟩ | ⟨_, hp, he⟩ | ⟨_, _, he⟩ | ⟨_, hp, he⟩
  · rw [he]
    exact ⟨⟨hs, le_refl _, ⟨ht1, ht2⟩, ht1, ht2⟩, rfl⟩
  · rw [he]
    exact ⟨⟨hs, le_refl _, ⟨ht1, ht2⟩, ht1, ht2⟩, rfl⟩
  · rw [he]
    refine ⟨⟨hs, hv, ⟨?_, ?_⟩, ht1, ht2⟩, rfl⟩
    · show 0 ≤ b.center + b.velocity * dt
      linarith
    · show b.center + b.velocity * dt ≤ b.barLength
      linarith
  · rw [he]
    exact ⟨⟨hs, le_refl _, ⟨ht1, ht2⟩, ht1, ht2⟩, rfl⟩
  · rw [he]
    refine ⟨⟨hs, hv, ⟨?_, ?_⟩, ht1, ht2⟩, rfl⟩
    · show 0 ≤ b.center - b.velocity * dt
      linarith
    · show b.center - b.velocity * dt ≤ b.barLength
      linarith

/-- The loop over the waves in `updateWaves()` keeps the block on its bar. -/
theorem Controller.forEachWave_onBar (now : ℚ) (block : BlockSegment) (waves : List Wave)
    (h : block.OnBar) :
    (Controller.forEachWave now block waves).1.OnBar ∧
      (Controller.forEachWave now block waves).1.barLength = block.barLength := by
  induction waves generalizing block with
  | nil => exact ⟨h, rfl⟩
  | cons w rest ih =>
    simp only [Controller.forEachWave]
    rcases Controller.pushStep_eq now block w with ⟨-, he⟩ | ⟨-, he⟩
    · rw [he]
      exact ih block h
    · rw [he]
      obtain ⟨hp, hL⟩ := BlockSegment.push_onBar block (Controller.pushDistance w) w.c h
      obtain ⟨h1, h2⟩ := ih _ hp
      exact ⟨h1, h2.trans hL⟩

/-- The steps of a tick before `handleOverlap()`, with a time step that is not
negative, keep the block on its bar. -/
theorem Controller.beforeOverlap_onBar (M : MathFns) (c : Controller) (deltaTime : ℚ)
    (hdt : 0 ≤ deltaTime) (h : c.block.OnBar) :
    (c.beforeOverlap M deltaTime).block.OnBar ∧
      (c.beforeOverlap M deltaTime).block.barLength = c.block.barLength := by
  have hb : ∃ ws : List Wave, (c.beforeOverlap M deltaTime).block =
      (Controller.forEachWave (c.time + deltaTime / 1000) c.block ws).1.update
        (deltaTime / 1000) := by
    refine ⟨c.waves.filter fun w => w.active (c.time + deltaTime / 1000), ?_⟩
    simp only [Controller.beforeOverlap, Controller.updateBlock, Controller.updateSegments,
      Controller.updateWaves, Controller.ensureTargetValid_block,
      Controller.ensureTargetValid_time, Controller.ensureTargetValid_waves]
  obtain ⟨ws, hws⟩ := hb
  obtain ⟨h1, h2⟩ := Controller.forEachWave_onBar (c.time + deltaTime / 1000) c.block ws h
  obtain ⟨h3, h4⟩ := BlockSegment.update_onBar _ (deltaTime / 1000)
    (div_nonneg hdt (by norm_num)) h1
  rw [hws]
  exact ⟨h3, h4.trans h2⟩

/-- A tick with a time step that is not negative keeps the block on the bar of
the controller. -/
theorem Controller.update_block_onBar (M : MathFns) (c : Controller) (deltaTime : ℚ)
    (hdt : 0 ≤ deltaTime) (hL : 0 ≤ c.barLength)
    (h : c.block.OnBar ∧ c.block.barLength = c.barLength) :
    (c.update M deltaTime).block.OnBar ∧
      (c.update M deltaTime).block.barLength = (c.update M deltaTime).barLength := by
  obtain ⟨hb, hbL⟩ := h
  obtain ⟨uL, -, -⟩ := Controller.update_constants M c deltaTime
  rw [uL]
  have hplay : c.gameState = GameState.PLAY ∨ c.gameState = GameState.HIT ∨
      c.gameState = GameState.TOUCH →
      (c.update M deltaTime).block.OnBar ∧
        (c.update M deltaTime).block.barLength = c.barLength := by
    intro hs
    obtain ⟨h1, h2⟩ := Controller.beforeOverlap_onBar M c deltaTime hdt hb
    rw [Controller.update_eq_of_playing M c deltaTime hs,
      (Controller.updateFlash_frame _).2.1, (Controller.handleOverlap_keeps _).1]
    exact ⟨h1, h2.trans hbL⟩
  cases hg : c.gameState with
  | PLAY => exact hplay (Or.inl hg)
  | TOUCH => exact hplay (Or.inr (Or.inr hg))
  | HIT => exact hplay (Or.inr (Or.inl hg))
  | WIN =>
    have hev : (Controller.ensureTargetValid
        { c with time := c.time + deltaTime / 1000 }).block = c.block := by
      rw [Controller.ensureTargetValid_block]
    have hevL : (Controller.ensureTargetValid
        { c with time := c.time + deltaTime / 1000 }).barLength = c.barLength := by
      rw [Controller.ensureTargetValid_barLength]
    rcases Controller.update_win_eq M c deltaTime hg with he | he
    · rw [he, (Controller.resetGame_keeps _).2, hev, hevL]
      obtain ⟨hs, -, -, -, -⟩ := hb
      refine ⟨⟨hs, le_refl _, ⟨?_, ?_⟩, ?_, ?_⟩, hbL⟩
      · show 0 ≤ c.barLength * (1 / 2)
        linarith
      · show c.barLength * (1 / 2) ≤ c.block.barLength
        rw [hbL]; linarith
      · show 0 ≤ c.barLength * (1 / 2)
        linarith
      · show c.barLength * (1 / 2) ≤ c.block.barLength
        rw [hbL]; linarith
    · rw [he, hev]
      exact ⟨hb, hbL⟩

/-- In every controller state reached with time steps that are not negative,
the bar length is at least `1` and the block lies on the bar of the
controller. -/
theorem Controller.reachableForward_onBar (M : MathFns) (c : Controller)
    (hr : Controller.ReachableForward M c) :
    1 ≤ c.barLength ∧ c.block.OnBar ∧ c.block.barLength = c.barLength := by
  induction hr with
  | new barLength barHeight env =>
    have hL : (1 : ℚ) ≤ max 1 (Math_round barLength) := le_max_left _ _
    refine ⟨?_, ?_, ?_⟩
    · simp [Controller.new, Controller.buildSegments]
    · simp only [Controller.new, Controller.respawnTargetSafe_block, Controller.buildSegments,
        BlockSegment.OnBar, BlockSegment.new]
      refine ⟨by norm_num, le_refl _, ⟨?_, ?_⟩, ?_, ?_⟩ <;> linarith
    · simp [Controller.new, Controller.buildSegments, BlockSegment.new]
  | @update c deltaTime hdt _ ih =>
    obtain ⟨hL, hb, hbL⟩ := ih
    obtain ⟨uL, -, -⟩ := Controller.update_constants M c deltaTime
    obtain ⟨h1, h2⟩ := Controller.update_block_onBar M c deltaTime hdt (by linarith) ⟨hb, hbL⟩
    exact ⟨by rw [uL]; exact hL, h1, h2⟩
  | @launchWave c direction _ ih =>
    unfold Controller.launchWave
    split_ifs
    · exact ih
    · exact ih
  | @setImpactPreset c c1 index _ heq ih =>
    unfold Controller.setImpactPreset at heq
    simp only at heq
    split_ifs at heq
    split at heq
    · injection heq with heq
      rw [← heq]
      exact ih
    · exact absurd heq (by simp)

/-- C22: in every controller state reached from construction by `launchWave`,
`setImpactPreset` and `update` ticks whose time step is not negative, the
center and the target center of the block lie between `0` and the bar length. -/
theorem Controller.block_stays_on_bar (M : MathFns) (c : Controller)
    (hr : Controller.ReachableForward M c) :
    (0 ≤ c.block.center ∧ c.block.center ≤ c.barLength) ∧
    (0 ≤ c.block.targetCenter ∧ c.block.targetCenter ≤ c.barLength) := by
  obtain ⟨-, ⟨-, -, hc, ht⟩, hbL⟩ := Controller.reachableForward_onBar M c hr
  rw [hbL] at hc ht
  exact ⟨hc, ht⟩

theorem Controller.block_stays_on_bar_witness :
    (0 ≤ ((sampleController.launchWave 1).update sampleMath 16).block.center ∧
      ((sampleController.launchWave 1).update sampleMath 16).block.center ≤
        ((sampleController.launchWave 1).update sampleMath 16).barLength) ∧
    (0 ≤ ((sampleController.launchWave 1).update sampleMath 16).block.targetCenter ∧
      ((sampleController.launchWave 1).update sampleMath 16).block.targetCenter ≤
        ((sampleController.launchWave 1).update sampleMath 16).barLength) :=
  Controller.block_stays_on_bar sampleMath _
    (Controller.ReachableForward.update 16 (by norm_num)
      (Controller.ReachableForward.launchWave 1
        (Controller.ReachableForward.new 3000 50 sampleEnv)))

/-! ## The controller: the draw that `respawnTargetSafe()` keeps -/

/-- A property of every value of the random stream holds for the target center
at the exit of the loop of `respawnTargetSafe()`, and for every value of the
stream that remains. -/
theorem Controller.respawnTargetSafeLoop_draws (P : ℚ → Prop) (c : Controller) (minGap : ℚ)
    (attempts : ℕ) (h : ∀ i, P (c.env.rng i)) :
    P (c.respawnTargetSafeLoop minGap attempts).1.target.center ∧
    ∀ i, P ((c.respawnTargetSafeLoop minGap attempts).1.env.rng i) := by
  induction c, minGap, attempts using Controller.respawnTargetSafeLoop.induct with
  | case1 c minGap attempts r c1 attempts1 hcond ih =>
    rw [Controller.respawnTargetSafeLoop, if_pos hcond]
    exact ih (TargetSegment.respawn_rng P c.target minGap
      (some c.block.center) c.block.length c.env.rng h)
  | case2 c minGap attempts r c1 attempts1 hcond =>
    rw [Controller.respawnTargetSafeLoop, if_neg hcond]
    exact ⟨TargetSegment.respawn_center P c.target minGap
        (some c.block.center) c.block.length c.env.rng h,
      TargetSegment.respawn_rng P c.target minGap
        (some c.block.center) c.block.length c.env.rng h⟩

/-- The loop of `respawnTargetSafe()` leaves the block alone, and when it is
left with fewer than `40` attempts made, the target is farther from the block
than the two half lengths and the gap together. -/
theorem Controller.respawnTargetSafeLoop_clear (c : Controller) (minGap : ℚ) (attempts : ℕ) :
    (c.respawnTargetSafeLoop minGap attempts).1.block = c.block ∧
    ((c.respawnTargetSafeLoop minGap attempts).2 < 40 →
      ¬ |(c.respawnTargetSafeLoop minGap attempts).1.target.center - c.block.center| ≤
        (c.respawnTargetSafeLoop minGap attempts).1.target.length + c.block.length + minGap) := by
  induction c, minGap, attempts using Controller.respawnTargetSafeLoop.induct with
  | case1 c minGap attempts r c1 attempts1 hcond ih =>
    rw [Controller.respawnTargetSafeLoop, if_pos hcond]
    exact ih
  | case2 c minGap attempts r c1 attempts1 hcond =>
    rw [Controller.respawnTargetSafeLoop, if_neg hcond]
    exact ⟨rfl, fun hlt hb => hcond ⟨hlt, hb⟩⟩

/-- In every reachable controller state the geometry is the one the
constructor computes from the bar length: the gap is
`max(10, 80 * barLength / 3000)`, the half length of the target is
`90 * barLength / 3000`, and the target knows the bar length. -/
theorem Controller.reachable_geometry (M : MathFns) (c : Controller)
    (hr : Controller.Reachable M c) :
    ∃ L : ℚ, 1 ≤ L ∧
      c.geometry = (L, max 10 (80 * (L / 3000)), 90 * (L / 3000), L) := by
  induction hr with
  | new barLength barHeight env =>
    refine ⟨max 1 (Math_round barLength), le_max_left _ _, ?_⟩
    unfold Controller.new
    simp only [Controller.respawnTargetSafe_geometry]
    rfl
  | @update c deltaTime _ ih =>
    rw [Controller.update_geometry]
    exact ih
  | @launchWave c direction _ ih =>
    unfold Controller.launchWave
    split_ifs
    · exact ih
    · exact ih
  | @setImpactPreset c c1 index _ heq ih =>
    unfold Controller.setImpactPreset at heq
    simp only at heq
    split_ifs at heq
    split at heq
    · injection heq with heq
      rw [← heq]
      exact ih
    · exact absurd heq (by simp)

/-- For the geometry the constructor computes from a bar length of at least
`160`, the margin of `respawn` is at least `80` and at least
`0.05 * barLength`, and the gap is at least `10`. -/
theorem Controller.margin_bounds (L : ℚ) (hL : 160 ≤ L) :
    80 ≤ max (90 * (L / 3000) + max 10 (80 * (L / 3000))) 80 ∧
    L * (5 / 100) ≤ max (90 * (L / 3000) + max 10 (80 * (L / 3000))) 80 ∧
    L - max (90 * (L / 3000) + max 10 (80 * (L / 3000))) 80 ≤ L * (95 / 100) ∧
    (10 : ℚ) ≤ max 10 (80 * (L / 3000)) ∧
    max (90 * (L / 3000) + max 10 (80 * (L / 3000))) 80 ≤
      L - max (90 * (L / 3000) + max 10 (80 * (L / 3000))) 80 := by
  have hhalf : max (90 * (L / 3000) + max 10 (80 * (L / 3000))) 80 ≤ L / 2 := by
    refine max_le ?_ (by linarith)
    have : max 10 (80 * (L / 3000)) ≤ L / 2 - 90 * (L / 3000) :=
      max_le (by linarith) (by linarith)
    linarith
  have h5 : L * (5 / 100) ≤ max (90 * (L / 3000) + max 10 (80 * (L / 3000))) 80 := by
    rcases le_total (10 : ℚ) (80 * (L / 3000)) with h | h
    · have h1 : 90 * (L / 3000) + 80 * (L / 3000) ≤
          90 * (L / 3000) + max 10 (80 * (L / 3000)) := by
        have := le_max_right (10 : ℚ) (80 * (L / 3000))
        linarith
      refine le_trans ?_ (le_trans h1 (le_max_left _ _))
      linarith
    · refine le_trans ?_ (le_max_right _ _)
      linarith
  refine ⟨le_max_right _ _, h5, ?_, le_max_left _ _, ?_⟩
  · linarith
  · linarith

/-- C25: for a controller with the geometry of a reachable controller state
and a bar length of at least `160`, and every random stream whose values lie
between `margin` and `barLength - margin`: the fallback for an invalid
position and the final clamp of `respawnTargetSafe()` leave the center of the
loop as it is, that center is one of the draws and lies between `margin` and
`barLength - margin`; and when the loop is left with fewer than `40` attempts
made, the target is farther from the block than the two half lengths and
`targetMinGap` together, and `isOverlapping()` is false.  No condition on the
block center is needed. -/
theorem Controller.respawnTargetSafe_keeps_draw (M : MathFns) (c0 c : Controller)
    (hr : Controller.Reachable M c0) (hg : c.geometry = c0.geometry)
    (hL : 160 ≤ c.barLength)
    (hdraw : ∀ i, Between (c.target.margin c.targetMinGap)
      (c.target.barLength - c.target.margin c.targetMinGap) (c.env.rng i)) :
    c.respawnTargetSafe.target.center =
      (c.respawnTargetSafeLoop c.targetMinGap 0).1.target.center ∧
    (∃ i, c.respawnTargetSafe.target.center = c.env.rng i) ∧
    (c.target.margin c.targetMinGap ≤ c.respawnTargetSafe.target.center ∧
      c.respawnTargetSafe.target.center ≤
        c.barLength - c.target.margin c.targetMinGap) ∧
    ((c.respawnTargetSafeLoop c.targetMinGap 0).2 < 40 →
      |c.respawnTargetSafe.target.center - c.respawnTargetSafe.block.center| >
        c.respawnTargetSafe.target.length + c.respawnTargetSafe.block.length +
          c.respawnTargetSafe.targetMinGap ∧
      c.respawnTargetSafe.isOverlapping = false) := by
  obtain ⟨L, -, hgeo⟩ := Controller.reachable_geometry M c0 hr
  rw [← hg] at hgeo
  simp only [Controller.geometry, Prod.mk.injEq] at hgeo
  obtain ⟨hbar, hgap, hlen, htbar⟩ := hgeo
  rw [hbar] at hL
  obtain ⟨hm80, hm5, hm95, hgap10, hmm⟩ := Controller.margin_bounds L hL
  have hmargin : c.target.margin c.targetMinGap =
      max (90 * (L / 3000) + max 10 (80 * (L / 3000))) 80 := by
    unfold TargetSegment.margin
    rw [hlen, hgap]
  rw [hmargin, htbar] at hdraw
  rw [hmargin, hbar]
  have hP : ∀ i, (fun x => (∃ j, x = c.env.rng j) ∧
      max (90 * (L / 3000) + max 10 (80 * (L / 3000))) 80 ≤ x ∧
      x ≤ L - max (90 * (L / 3000) + max 10 (80 * (L / 3000))) 80) (c.env.rng i) := by
    intro i
    have hb := hdraw i
    unfold Between at hb
    rw [min_eq_left hmm, max_eq_right hmm] at hb
    exact ⟨⟨i, rfl⟩, hb⟩
  obtain ⟨⟨hi, h1, h2⟩, -⟩ := Controller.respawnTargetSafeLoop_draws
    (fun x => (∃ j, x = c.env.rng j) ∧
      max (90 * (L / 3000) + max 10 (80 * (L / 3000))) 80 ≤ x ∧
      x ≤ L - max (90 * (L / 3000) + max 10 (80 * (L / 3000))) 80) c c.targetMinGap 0 hP
  obtain ⟨tgt, rng, hshape⟩ := c.respawnTargetSafeLoop_shape c.targetMinGap 0
  have hlbar : (c.respawnTargetSafeLoop c.targetMinGap 0).1.barLength = L := by
    rw [hshape]
    exact hbar
  have hvalid : ¬ ((c.respawnTargetSafeLoop c.targetMinGap 0).1.target.center < 0 ∨
      (c.respawnTargetSafeLoop c.targetMinGap 0).1.target.center >
        (c.respawnTargetSafeLoop c.targetMinGap 0).1.barLength) := by
    rw [hlbar]
    rintro (h3 | h3)
    · linarith
    · linarith
  have hcenter : c.respawnTargetSafe.target.center =
      (c.respawnTargetSafeLoop c.targetMinGap 0).1.target.center := by
    show max (c.barLength * (5 / 100)) (min (c.barLength * (95 / 100))
      (if (c.respawnTargetSafeLoop c.targetMinGap 0).1.target.center < 0 ∨
          (c.respawnTargetSafeLoop c.targetMinGap 0).1.target.center >
            (c.respawnTargetSafeLoop c.targetMinGap 0).1.barLength then
        min ((c.respawnTargetSafeLoop c.targetMinGap 0).1.barLength - 100)
          ((c.respawnTargetSafeLoop c.targetMinGap 0).1.barLength * (7 / 10))
      else (c.respawnTargetSafeLoop c.targetMinGap 0).1.target.center)) = _
    rw [if_neg hvalid, hbar, min_eq_right (by linarith), max_eq_right (by linarith)]
  have hfar : (c.respawnTargetSafeLoop c.targetMinGap 0).2 < 40 →
      |c.respawnTargetSafe.target.center - c.respawnTargetSafe.block.center| >
        c.respawnTargetSafe.target.length + c.respawnTargetSafe.block.length +
          c.respawnTargetSafe.targetMinGap := by
    intro hlt
    have hclear := (Controller.respawnTargetSafeLoop_clear c c.targetMinGap 0).2 hlt
    rw [(c.respawnTargetSafeLoop_target c.targetMinGap 0).1] at hclear
    rw [hcenter, Controller.respawnTargetSafe_block, Controller.respawnTargetSafe_targetMinGap,
      (Controller.respawnTargetSafe_target c).1]
    exact not_le.mp hclear
  refine ⟨hcenter, ?_, ?_, ?_⟩
  · rw [hcenter]
    exact hi
  · rw [hcenter]
    exact ⟨h1, h2⟩
  · intro hlt
    have hf := hfar hlt
    refine ⟨hf, ?_⟩
    unfold Controller.isOverlapping
    rw [decide_eq_false_iff_not, not_le, abs_sub_comm]
    rw [Controller.respawnTargetSafe_targetMinGap, hgap] at hf
    linarith

/-- The sample controller: its geometry, and its random stream, which returns
`2000` at every call. -/
theorem Controller.sampleController_geometry :
    sampleController.geometry = (3000, 80, 90, 3000) ∧
    ∀ i, sampleController.env.rng i = 2000 := by
  have hr : max (1 : ℚ) (Math_round 3000) = 3000 := by
    unfold Math_round
    norm_num [Int.floor_eq_iff]
  constructor
  · unfold sampleController Controller.new
    simp only [Controller.respawnTargetSafe_geometry, hr]
    norm_num [Controller.geometry, Controller.buildSegments, TargetSegment.new,
      BASE_GEOMETRY.targetHalfLength, BASE_GEOMETRY.targetMinGap, BASE_GEOMETRY.barLength]
  · unfold sampleController Controller.new
    exact (Controller.respawnTargetSafeLoop_draws (fun x => x = 2000) _ _ 0 (fun _ => rfl)).2

/-- On the sample controller the loop of `respawnTargetSafe()` is left after
one attempt: the draw `2000` is clear of the block at `1500`. -/
theorem Controller.sampleController_one_attempt :
    (sampleController.respawnTargetSafeLoop sampleController.targetMinGap 0).2 = 1 := by
  obtain ⟨hgeo, hrng⟩ := Controller.sampleController_geometry
  simp only [Controller.geometry, Prod.mk.injEq] at hgeo
  obtain ⟨hbar, hgap, hlen, htbar⟩ := hgeo
  obtain ⟨-, -, hbc, hbl, -, -⟩ := Controller.new_const sampleEnv 2000 (fun _ => rfl)
    (by norm_num) (by norm_num)
  have hc := TargetSegment.respawn_center (fun x => x = 2000) sampleController.target
    sampleController.targetMinGap (some sampleController.block.center)
    sampleController.block.length sampleController.env.rng hrng
  have hl : (sampleController.target.respawn sampleController.targetMinGap
      (some sampleController.block.center) sampleController.block.length
      sampleController.env.rng).1.length = 90 := hlen
  have hbc1 : sampleController.block.center = 1500 := hbc
  have hbl1 : sampleController.block.length = 30 := hbl
  rw [Controller.respawnTargetSafeLoop, if_neg]
  simp only [not_and, not_le]
  intro _
  rw [hc, hl, hbc1, hbl1, hgap]
  norm_num

theorem Controller.respawnTargetSafe_keeps_draw_witness :
    (sampleController.respawnTargetSafeLoop sampleController.targetMinGap 0).2 < 40 ∧
    sampleController.respawnTargetSafe.target.center =
      (sampleController.respawnTargetSafeLoop sampleController.targetMinGap 0).1.target.center ∧
    (∃ i, sampleController.respawnTargetSafe.target.center = sampleController.env.rng i) ∧
    (sampleController.target.margin sampleController.targetMinGap ≤
        sampleController.respawnTargetSafe.target.center ∧
      sampleController.respawnTargetSafe.target.center ≤
        sampleController.barLength -
          sampleController.target.margin sampleController.targetMinGap) ∧
    ((sampleController.respawnTargetSafeLoop sampleController.targetMinGap 0).2 < 40 →
      |sampleController.respawnTargetSafe.target.center -
          sampleController.respawnTargetSafe.block.center| >
        sampleController.respawnTargetSafe.target.length +
          sampleController.respawnTargetSafe.block.length +
          sampleController.respawnTargetSafe.targetMinGap ∧
      sampleController.respawnTargetSafe.isOverlapping = false) := by
  obtain ⟨hgeo, hrng⟩ := Controller.sampleController_geometry
  simp only [Controller.geometry, Prod.mk.injEq] at hgeo
  obtain ⟨hbar, hgap, hlen, htbar⟩ := hgeo
  refine ⟨?_, Controller.respawnTargetSafe_keeps_draw sampleMath sampleController
    sampleController (Controller.Reachable.new 3000 50 sampleEnv) rfl ?_ ?_⟩
  · rw [Controller.sampleController_one_attempt]
    norm_num
  · rw [hbar]
    norm_num
  · intro i
    rw [hrng i, htbar]
    unfold TargetSegment.margin
    rw [hlen, hgap]
    norm_num [Between]

/-! ## The block: push -/

/-- The method `BlockSegment.update(dt)` leaves the bar length of the block as
it is. -/
theorem BlockSegment.update_barLength (b : BlockSegment) (dt : ℚ) :
    (b.update dt).barLength = b.barLength := by
  rcases b.update_cases dt with ⟨_, he⟩ | ⟨_, _, he⟩ | ⟨_, _, he⟩ | ⟨_, _, he⟩ | ⟨_, _, he⟩ <;>
    rw [he] <;> rfl

/-- The loop over the waves in `updateWaves()` leaves the bar length of the
block as it is. -/
theorem Controller.forEachWave_barLength (now : ℚ) (block : BlockSegment)
    (waves : List Wave) :
    (Controller.forEachWave now block waves).1.barLength = block.barLength := by
  induction waves generalizing block with
  | nil => rfl
  | cons w rest ih =>
    simp only [Controller.forEachWave]
    rcases Controller.pushStep_eq now block w with ⟨-, he⟩ | ⟨-, he⟩
    · rw [he]
      exact ih block
    · rw [he]
      exact ih _

/-- A tick leaves the bar length of the block as it is, whatever the time
step. -/
theorem Controller.update_block_barLength (M : MathFns) (c : Controller) (deltaTime : ℚ) :
    (c.update M deltaTime).block.barLength = c.block.barLength := by
  have hplay : c.gameState = GameState.PLAY ∨ c.gameState = GameState.HIT ∨
      c.gameState = GameState.TOUCH →
      (c.update M deltaTime).block.barLength = c.block.barLength := by
    intro hs
    have hb : (c.beforeOverlap M deltaTime).block =
        (Controller.forEachWave (c.time + deltaTime / 1000) c.block
          (c.waves.filter fun w => w.active (c.time + deltaTime / 1000))).1.update
          (deltaTime / 1000) := by
      simp only [Controller.beforeOverlap, Controller.updateBlock, Controller.updateSegments,
        Controller.updateWaves, Controller.ensureTargetValid_block,
        Controller.ensureTargetValid_time, Controller.ensureTargetValid_waves]
    rw [Controller.update_eq_of_playing M c deltaTime hs,
      (Controller.updateFlash_frame _).2.1, (Controller.handleOverlap_keeps _).1, hb,
      BlockSegment.update_barLength, Controller.forEachWave_barLength]
  cases hg : c.gameState with
  | PLAY => exact hplay (Or.inl hg)
  | TOUCH => exact hplay (Or.inr (Or.inr hg))
  | HIT => exact hplay (Or.inr (Or.inl hg))
  | WIN =>
    rcases Controller.update_win_eq M c deltaTime hg with he | he
    · rw [he, (Controller.resetGame_keeps _).2, Controller.ensureTargetValid_block]
    · rw [he, Controller.ensureTargetValid_block]

/-- In every reachable controller state the bar length is at least `1` and the
block knows it: the constructor passes `max(1, round(barLength))` to the only
`new BlockSegment` of the program. -/
theorem Controller.reachable_block_barLength (M : MathFns) (c : Controller)
    (hr : Controller.Reachable M c) :
    1 ≤ c.barLength ∧ c.block.barLength = c.barLength := by
  induction hr with
  | new barLength barHeight env =>
    constructor
    · simp [Controller.new, Controller.buildSegments]
    · simp [Controller.new, Controller.buildSegments, BlockSegment.new]
  | @update c deltaTime _ ih =>
    obtain ⟨uL, -, -⟩ := Controller.update_constants M c deltaTime
    rw [uL, Controller.update_block_barLength]
    exact ih
  | @launchWave c direction _ ih =>
    unfold Controller.launchWave
    split_ifs
    · exact ih
    · exact ih
  | @setImpactPreset c c1 index _ heq ih =>
    unfold Controller.setImpactPreset at heq
    simp only at heq
    split_ifs at heq
    split at heq
    · injection heq with heq
      rw [← heq]
      exact ih
    · exact absurd heq (by simp)

/-- C13: for every block, distance and wave speed, `push(distance, waveSpeed)`
leaves the center (and length, blend, speed scale, bar length) unchanged, sets
`targetCenter = constrain(center + distance, 0, barLength)`, which is never
negative and lies between `0` and `barLength` on every bar whose length is not
negative, and sets `velocity = |waveSpeed| * speedScale`; a push that follows
another push leaves exactly the state of the second push alone.  The block of
every reachable controller state has a bar length of at least `1`, the bar
length of the controller, so that there the target center lies between `0` and
`barLength`. -/
theorem BlockSegment.push_overwrites (b : BlockSegment) (distance waveSpeed : ℚ) :
    (b.push distance waveSpeed).center = b.center ∧
    (b.push distance waveSpeed).length = b.length ∧
    (b.push distance waveSpeed).blend = b.blend ∧
    (b.push distance waveSpeed).speedScale = b.speedScale ∧
    (b.push distance waveSpeed).barLength = b.barLength ∧
    (b.push distance waveSpeed).targetCenter = constrain (b.center + distance) 0 b.barLength ∧
    (b.push distance waveSpeed).targetCenter = max (min (b.center + distance) b.barLength) 0 ∧
    0 ≤ (b.push distance waveSpeed).targetCenter ∧
    (0 ≤ b.barLength → (b.push distance waveSpeed).targetCenter ≤ b.barLength) ∧
    (b.push distance waveSpeed).velocity = |waveSpeed| * b.speedScale ∧
    (∀ distance2 waveSpeed2 : ℚ,
      (b.push distance waveSpeed).push distance2 waveSpeed2 = b.push distance2 waveSpeed2) ∧
    (∀ (M : MathFns) (c : Controller), Controller.Reachable M c →
      1 ≤ c.block.barLength ∧
      0 ≤ (c.block.push distance waveSpeed).targetCenter ∧
      (c.block.push distance waveSpeed).targetCenter ≤ c.barLength) := by
  refine ⟨rfl, rfl, rfl, rfl, rfl, rfl, rfl, le_max_right _ _, ?_, rfl, fun _ _ => rfl, ?_⟩
  · intro hbar
    exact max_le (min_le_right _ _) hbar
  · intro M c hr
    obtain ⟨hL, hbL⟩ := Controller.reachable_block_barLength M c hr
    refine ⟨by rw [hbL]; exact hL, le_max_right _ _, ?_⟩
    have h0 : (0 : ℚ) ≤ c.block.barLength := by rw [hbL]; linarith
    rw [← hbL]
    exact max_le (min_le_right _ _) h0

theorem BlockSegment.push_overwrites_witness :
    (sampleBlock.push 2000 3840).targetCenter = 3000 ∧
      (sampleBlock.push 2000 3840).targetCenter ≤ sampleBlock.barLength ∧
      (sampleBlock.push 2000 3840).velocity = 1344 ∧
      (sampleBlock.push 2000 3840).push (-100) 1000 = sampleBlock.push (-100) 1000 ∧
      (sampleController.block.push 2000 3840).targetCenter ≤ sampleController.barLength := by
  have h := BlockSegment.push_overwrites sampleBlock 2000 3840
  obtain ⟨-, -, -, -, -, -, h7, -, h9, h10, h11, h12⟩ := h
  refine ⟨?_, h9 (by norm_num [sampleBlock, BlockSegment.new]), ?_, h11 (-100) 1000,
    (h12 sampleMath sampleController (Controller.Reachable.new 3000 50 sampleEnv)).2.2⟩
  · rw [h7]
    norm_num [sampleBlock, BlockSegment.new]
  · rw [h10]
    norm_num [sampleBlock, BlockSegment.new]

/-! ## Double-precision arithmetic: rounding to the nearest double -/

theorem roundHalfEven_spec (x : ℚ) :
    |x - roundHalfEven x| < 1 / 2 ∨
      (|x - roundHalfEven x| = 1 / 2 ∧ roundHalfEven x % 2 = 0) := by
  have h0 : (⌊x⌋ : ℚ) ≤ x := Int.floor_le x
  have h1 : x < ⌊x⌋ + 1 := Int.lt_floor_add_one x
  unfold roundHalfEven
  split_ifs with ha hb hc
  · left
    rw [abs_lt]
    constructor <;> linarith
  · left
    push_cast
    rw [abs_lt]
    constructor <;> linarith
  · right
    have he : x - ⌊x⌋ = 1 / 2 := le_antisymm (not_lt.mp hb) (not_lt.mp ha)
    exact ⟨by rw [he]; norm_num, hc⟩
  · right
    have he : x - ⌊x⌋ = 1 / 2 := le_antisymm (not_lt.mp hb) (not_lt.mp ha)
    refine ⟨?_, by omega⟩
    push_cast
    have : x - (⌊x⌋ + 1) = -(1 / 2) := by linarith
    rw [this]; norm_num

theorem roundHalfEven_unique (x : ℚ) (m : ℤ)
    (h : |x - m| < 1 / 2 ∨ (|x - m| = 1 / 2 ∧ m % 2 = 0)) : roundHalfEven x = m := by
  have hs := roundHalfEven_spec x
  have hd : |((roundHalfEven x - m : ℤ) : ℚ)| ≤ |x - roundHalfEven x| + |x - m| := by
    have : ((roundHalfEven x - m : ℤ) : ℚ) = (x - m) - (x - roundHalfEven x) := by
      push_cast; ring
    rw [this]
    calc |(x - m) - (x - roundHalfEven x)| ≤ |x - m| + |x - roundHalfEven x| := abs_sub _ _
      _ = _ := add_comm _ _
  rcases hs with hs | ⟨hs, hse⟩ <;> rcases h with h | ⟨h, he⟩
  · have hlt : |((roundHalfEven x - m : ℤ) : ℚ)| < 1 := by linarith
    rw [← Int.cast_abs] at hlt
    have : |roundHalfEven x - m| < 1 := by exact_mod_cast hlt
    rw [abs_lt] at this
    omega
  · have hlt : |((roundHalfEven x - m : ℤ) : ℚ)| < 1 := by linarith
    rw [← Int.cast_abs] at hlt
    have : |roundHalfEven x - m| < 1 := by exact_mod_cast hlt
    rw [abs_lt] at this
    omega
  · have hlt : |((roundHalfEven x - m : ℤ) : ℚ)| < 1 := by linarith
    rw [← Int.cast_abs] at hlt
    have : |roundHalfEven x - m| < 1 := by exact_mod_cast hlt
    rw [abs_lt] at this
    omega
  · have hle : |((roundHalfEven x - m : ℤ) : ℚ)| ≤ 1 := by linarith
    rw [← Int.cast_abs] at hle
    have : |roundHalfEven x - m| ≤ 1 := by exact_mod_cast hle
    rw [abs_le] at this
    omega

theorem roundHalfEven_error (x : ℚ) : |x - roundHalfEven x| ≤ 1 / 2 := by
  rcases roundHalfEven_spec x with h | ⟨h, -⟩
  · exact h.le
  · exact h.le

theorem roundHalfEven_intCast (n : ℤ) : roundHalfEven (n : ℚ) = n :=
  roundHalfEven_unique _ n (Or.inl (by simp))

theorem roundHalfEven_neg (x : ℚ) : roundHalfEven (-x) = - roundHalfEven x := by
  apply roundHalfEven_unique
  have e : -x - ((-roundHalfEven x : ℤ) : ℚ) = -(x - roundHalfEven x) := by
    push_cast; ring
  rw [e, abs_neg]
  rcases roundHalfEven_spec x with h | ⟨h, he⟩
  · exact Or.inl h
  · exact Or.inr ⟨h, by omega⟩

theorem roundHalfEven_mono {x y : ℚ} (h : x ≤ y) : roundHalfEven x ≤ roundHalfEven y := by
  by_contra hlt
  rw [not_le] at hlt
  have hx := abs_le.mp (roundHalfEven_error x)
  have hy := abs_le.mp (roundHalfEven_error y)
  have h1 : (roundHalfEven y : ℚ) + 1 ≤ roundHalfEven x := by exact_mod_cast hlt
  have hxy : x = y := by linarith
  rw [hxy] at hlt
  exact lt_irrefl _ hlt


theorem two_zpow_pos (e : ℤ) : (0 : ℚ) < 2 ^ e := zpow_pos (by norm_num) e

theorem ulpExponent_bounds {x : ℚ} (hx : x ≠ 0) :
    (2 : ℚ) ^ (ulpExponent x + 52) ≤ |x| ∧ |x| < (2 : ℚ) ^ (ulpExponent x + 53) := by
  have hpos : 0 < |x| := abs_pos.mpr hx
  have h1 := Int.zpow_log_le_self (by norm_num : 1 < 2) hpos
  have h2 := Int.lt_zpow_succ_log_self (by norm_num : 1 < 2) |x|
  rw [Nat.cast_ofNat] at h1 h2
  unfold ulpExponent
  constructor
  · rw [sub_add_cancel]; exact h1
  · have : Int.log 2 |x| - 52 + 53 = Int.log 2 |x| + 1 := by ring
    rw [this]; exact h2

theorem ulpExponent_eq {x : ℚ} (e : ℤ) (hlo : (2 : ℚ) ^ (e + 52) ≤ |x|)
    (hhi : |x| < (2 : ℚ) ^ (e + 53)) : ulpExponent x = e := by
  have hpos : 0 < |x| := lt_of_lt_of_le (two_zpow_pos _) hlo
  have h1 := (Int.zpow_le_iff_le_log (by norm_num : 1 < 2) hpos).mp
    (by rw [Nat.cast_ofNat]; exact hlo)
  have h2 := (Int.lt_zpow_iff_log_lt (by norm_num : 1 < 2) hpos).mp
    (by rw [Nat.cast_ofNat]; exact hhi)
  unfold ulpExponent
  omega

theorem ulpExponent_neg (x : ℚ) : ulpExponent (-x) = ulpExponent x := by
  unfold ulpExponent; rw [abs_neg]

theorem binary64_zero : binary64 0 = 0 := by
  unfold binary64
  rw [zero_div]
  have := roundHalfEven_intCast 0
  rw [Int.cast_zero] at this
  rw [this]; simp

theorem binary64_neg (x : ℚ) : binary64 (-x) = - binary64 x := by
  unfold binary64
  rw [ulpExponent_neg, neg_div, roundHalfEven_neg]
  push_cast; ring

/-- The double with the exponent of its last place given. -/
theorem binary64_eq {x : ℚ} (e : ℤ) (hlo : (2 : ℚ) ^ (e + 52) ≤ |x|)
    (hhi : |x| < (2 : ℚ) ^ (e + 53)) :
    binary64 x = (roundHalfEven (x / 2 ^ e) : ℚ) * 2 ^ e := by
  unfold binary64
  rw [ulpExponent_eq e hlo hhi]

theorem binary64_nonneg {x : ℚ} (h : 0 ≤ x) : 0 ≤ binary64 x := by
  unfold binary64
  apply mul_nonneg _ (two_zpow_pos _).le
  have h1 : roundHalfEven 0 ≤ roundHalfEven (x / 2 ^ ulpExponent x) :=
    roundHalfEven_mono (div_nonneg h (two_zpow_pos _).le)
  have h0 := roundHalfEven_intCast 0
  rw [Int.cast_zero] at h0
  rw [h0] at h1
  exact_mod_cast h1

theorem two_zpow_add_52 (e : ℤ) : (2 : ℚ) ^ (e + 52) = 4503599627370496 * 2 ^ e := by
  rw [zpow_add₀ (by norm_num), mul_comm]; norm_num

theorem two_zpow_add_53 (e : ℤ) : (2 : ℚ) ^ (e + 53) = 9007199254740992 * 2 ^ e := by
  rw [zpow_add₀ (by norm_num), mul_comm]; norm_num

/-- The whole number of last places of the double nearest to a positive `x`
lies between `2^52` and `2^53`. -/
theorem roundHalfEven_scaled_bounds {x : ℚ} (h : 0 < x) :
    4503599627370496 ≤ roundHalfEven (x / 2 ^ ulpExponent x) ∧
      roundHalfEven (x / 2 ^ ulpExponent x) ≤ 9007199254740992 := by
  obtain ⟨hlo, hhi⟩ := ulpExponent_bounds h.ne'
  rw [abs_of_pos h, two_zpow_add_52] at hlo
  rw [abs_of_pos h, two_zpow_add_53] at hhi
  have hp := two_zpow_pos (ulpExponent x)
  have hy1 : ((4503599627370496 : ℤ) : ℚ) ≤ x / 2 ^ ulpExponent x := by
    rw [le_div_iff₀ hp]; push_cast; exact hlo
  have hy2 : x / 2 ^ ulpExponent x ≤ ((9007199254740992 : ℤ) : ℚ) := by
    rw [div_le_iff₀ hp]; push_cast; exact hhi.le
  have m1 := roundHalfEven_mono hy1
  have m2 := roundHalfEven_mono hy2
  rw [roundHalfEven_intCast] at m1 m2
  exact ⟨m1, m2⟩

theorem binary64_pos_bounds {x : ℚ} (h : 0 < x) :
    (2 : ℚ) ^ (ulpExponent x + 52) ≤ binary64 x ∧
      binary64 x ≤ (2 : ℚ) ^ (ulpExponent x + 53) := by
  obtain ⟨m1, m2⟩ := roundHalfEven_scaled_bounds h
  have hp := two_zpow_pos (ulpExponent x)
  have m1q : (4503599627370496 : ℚ) ≤ roundHalfEven (x / 2 ^ ulpExponent x) := by
    exact_mod_cast m1
  have m2q : (roundHalfEven (x / 2 ^ ulpExponent x) : ℚ) ≤ 9007199254740992 := by
    exact_mod_cast m2
  unfold binary64
  rw [two_zpow_add_52, two_zpow_add_53]
  exact ⟨mul_le_mul_of_nonneg_right m1q hp.le, mul_le_mul_of_nonneg_right m2q hp.le⟩

theorem binary64_mono_pos {x y : ℚ} (hx : 0 < x) (h : x ≤ y) : binary64 x ≤ binary64 y := by
  have hy : 0 < y := lt_of_lt_of_le hx h
  have hlog : ulpExponent x ≤ ulpExponent y := by
    unfold ulpExponent
    have := @Int.log_mono_right ℚ _ _ 2 |x| |y| (abs_pos.mpr hx.ne')
      (by rw [abs_of_pos hx, abs_of_pos hy]; exact h)
    omega
  rcases eq_or_lt_of_le hlog with he | hlt
  · unfold binary64
    rw [← he]
    apply mul_le_mul_of_nonneg_right _ (two_zpow_pos _).le
    have := roundHalfEven_mono (div_le_div_of_nonneg_right h (two_zpow_pos (ulpExponent x)).le)
    exact_mod_cast this
  · have h1 := (binary64_pos_bounds hx).2
    have h2 := (binary64_pos_bounds hy).1
    have h3 : (2 : ℚ) ^ (ulpExponent x + 53) ≤ 2 ^ (ulpExponent y + 52) :=
      zpow_le_zpow_right₀ (by norm_num) (by omega)
    linarith

theorem binary64_monotone : Monotone binary64 := by
  intro x y h
  rcases lt_trichotomy 0 x with hx | hx | hx
  · exact binary64_mono_pos hx h
  · rw [← hx, binary64_zero]
    exact binary64_nonneg (by rw [hx]; exact h)
  · rcases le_or_lt 0 y with hy | hy
    · have h1 : binary64 x ≤ 0 := by
        have := binary64_nonneg (neg_nonneg.mpr hx.le)
        rw [binary64_neg] at this
        linarith
      exact le_trans h1 (binary64_nonneg hy)
    · have := binary64_mono_pos (neg_pos.mpr hy) (neg_le_neg h)
      rw [binary64_neg, binary64_neg] at this
      linarith


/-- A whole number of last places between `2^52` and `2^53` is a double. -/
theorem binary64_scaled_normal (m e : ℤ) (h1 : 4503599627370496 ≤ m)
    (h2 : m ≤ 9007199254740992) : binary64 ((m : ℚ) * 2 ^ e) = (m : ℚ) * 2 ^ e := by
  have hp := two_zpow_pos e
  have hm1 : (4503599627370496 : ℚ) ≤ m := by exact_mod_cast h1
  have hm2 : (m : ℚ) ≤ 9007199254740992 := by exact_mod_cast h2
  have hpos : 0 < (m : ℚ) * 2 ^ e := mul_pos (by linarith) hp
  rcases eq_or_lt_of_le h2 with heq | hlt
  · -- the value is `2^52 * 2^(e+1)`
    have hp1 := two_zpow_pos (e + 1)
    have hv : (m : ℚ) * 2 ^ e = 4503599627370496 * 2 ^ (e + 1) := by
      rw [heq, zpow_add₀ (by norm_num)]; push_cast; ring
    rw [hv]
    have hpos1 : (0 : ℚ) < 4503599627370496 * 2 ^ (e + 1) := mul_pos (by norm_num) hp1
    rw [binary64_eq (e + 1) (by rw [abs_of_pos hpos1, two_zpow_add_52])
      (by rw [abs_of_pos hpos1, two_zpow_add_53]; linarith),
      mul_div_assoc, div_self hp1.ne', mul_one]
    have := roundHalfEven_intCast 4503599627370496
    push_cast at this
    rw [this]; push_cast; ring
  · have hm3 : (m : ℚ) < 9007199254740992 := by exact_mod_cast hlt
    rw [binary64_eq e
      (by rw [abs_of_pos hpos, two_zpow_add_52]; exact mul_le_mul_of_nonneg_right hm1 hp.le)
      (by rw [abs_of_pos hpos, two_zpow_add_53]; exact mul_lt_mul_of_pos_right hm3 hp),
      mul_div_assoc, div_self hp.ne', mul_one, roundHalfEven_intCast]

theorem binary64_scaled_pos (n : ℕ) : ∀ (m e : ℤ), 0 < m → m ≤ 9007199254740992 →
    4503599627370496 ≤ m * 2 ^ n → binary64 ((m : ℚ) * 2 ^ e) = (m : ℚ) * 2 ^ e := by
  induction n with
  | zero =>
    intro m e _ h2 h3
    exact binary64_scaled_normal m e (by simpa using h3) h2
  | succ n ih =>
    intro m e h1 h2 h3
    rcases le_or_lt 4503599627370496 m with h | h
    · exact binary64_scaled_normal m e h h2
    · have hv : (m : ℚ) * 2 ^ e = ((2 * m : ℤ) : ℚ) * 2 ^ (e - 1) := by
        rw [zpow_sub₀ (by norm_num)]; push_cast; field_simp; ring
      rw [hv]
      apply ih (2 * m) (e - 1) (by omega) (by omega)
      rw [pow_succ] at h3
      linarith

/-- Every `m * 2^e` with `|m| ≤ 2^53` is a double: rounding leaves it as it
is. -/
theorem binary64_scaled (m e : ℤ) (h : |m| ≤ 9007199254740992) :
    binary64 ((m : ℚ) * 2 ^ e) = (m : ℚ) * 2 ^ e := by
  have hpow : ∀ k : ℤ, 0 < k → 4503599627370496 ≤ k * 2 ^ 52 := by
    intro k hk
    have : (1 : ℤ) ≤ k := hk
    nlinarith
  rw [abs_le] at h
  rcases lt_trichotomy 0 m with hm | hm | hm
  · exact binary64_scaled_pos 52 m e hm h.2 (hpow m hm)
  · rw [← hm]; simp [binary64_zero]
  · have := binary64_scaled_pos 52 (-m) e (by omega) (by omega) (hpow (-m) (by omega))
    push_cast at this
    rw [neg_mul, binary64_neg] at this
    linarith

theorem binary64_idem (x : ℚ) : binary64 (binary64 x) = binary64 x := by
  have key : ∀ y : ℚ, 0 < y → binary64 (binary64 y) = binary64 y := by
    intro y hy
    obtain ⟨m1, m2⟩ := roundHalfEven_scaled_bounds hy
    have : binary64 y = (roundHalfEven (y / 2 ^ ulpExponent y) : ℚ) * 2 ^ ulpExponent y := rfl
    rw [this]
    exact binary64_scaled _ _ (by rw [abs_le]; constructor <;> omega)
  rcases lt_trichotomy 0 x with hx | hx | hx
  · exact key x hx
  · rw [← hx, binary64_zero, binary64_zero]
  · have := key (-x) (neg_pos.mpr hx)
    rw [binary64_neg, binary64_neg] at this
    linarith

/-- The relative error of rounding to a double is at most `2^-53`. -/
theorem binary64_error (x : ℚ) : |binary64 x - x| ≤ |x| / 9007199254740992 := by
  rcases eq_or_ne x 0 with hx | hx
  · rw [hx, binary64_zero]; simp
  · obtain ⟨hlo, -⟩ := ulpExponent_bounds hx
    rw [two_zpow_add_52] at hlo
    have hp := two_zpow_pos (ulpExponent x)
    have he := roundHalfEven_error (x / 2 ^ ulpExponent x)
    have hd : binary64 x - x =
        -((x / 2 ^ ulpExponent x - roundHalfEven (x / 2 ^ ulpExponent x)) *
          2 ^ ulpExponent x) := by
      unfold binary64; field_simp; ring
    rw [hd, abs_neg, abs_mul, abs_of_pos hp, le_div_iff₀ (by norm_num)]
    have := mul_le_mul_of_nonneg_right he hp.le
    linarith

/-- The double nearest to `x`, from the exponent `e` of its last place and the
whole number `m` of last places. -/
theorem binary64_eval {x : ℚ} (e m : ℤ) (hlo : (2 : ℚ) ^ (e + 52) ≤ |x|)
    (hhi : |x| < (2 : ℚ) ^ (e + 53))
    (hm : |x / 2 ^ e - m| < 1 / 2 ∨ (|x / 2 ^ e - m| = 1 / 2 ∧ m % 2 = 0)) :
    binary64 x = (m : ℚ) * 2 ^ e := by
  rw [binary64_eq e hlo hhi, roundHalfEven_unique _ m hm]


/-! ## The block on doubles -/

/-- Rounding to the nearest double is a rounding. -/
theorem binary64_rounding : Rounding binary64 :=
  ⟨binary64_monotone, binary64_zero, binary64_neg, binary64_idem⟩

/-- Exact arithmetic is a rounding. -/
theorem id_rounding : Rounding id :=
  ⟨monotone_id, rfl, fun _ => rfl, fun _ => rfl⟩

/-- When a test of `update(dt)` fires the block is put on its target. -/
theorem Rounded.BlockSegment.update_of_snaps (fl : ℚ → ℚ) (b : BlockSegment) (dt : ℚ)
    (h : Rounded.BlockSegment.Snaps fl b dt) :
    Rounded.BlockSegment.update fl b dt = b.snapped := by
  unfold Rounded.BlockSegment.update
  by_cases h1 : |fl (b.targetCenter - b.center)| < 1
  · rw [if_pos h1]; rfl
  · rw [if_neg h1]
    rcases h with h | h
    · exact absurd h h1
    · unfold Rounded.BlockSegment.stepped at h
      simp only
      rw [if_pos h]; rfl

/-- When no test of `update(dt)` fires the center is the assigned value. -/
theorem Rounded.BlockSegment.update_of_not_snaps (fl : ℚ → ℚ) (b : BlockSegment) (dt : ℚ)
    (h : ¬ Rounded.BlockSegment.Snaps fl b dt) :
    Rounded.BlockSegment.update fl b dt =
      { b with center := Rounded.BlockSegment.stepped fl b dt } := by
  unfold Rounded.BlockSegment.Snaps Rounded.BlockSegment.stepped at h
  rw [not_or] at h
  unfold Rounded.BlockSegment.update
  rw [if_neg h.1]
  simp only
  rw [if_neg h.2]; rfl

/-- The rounding of a number that is not negative is not negative, and the
rounding of a number that is not positive is not positive. -/
theorem Rounding.sign {fl : ℚ → ℚ} (hfl : Rounding fl) (x : ℚ) :
    (0 ≤ x → 0 ≤ fl x) ∧ (x ≤ 0 → fl x ≤ 0) := by
  constructor
  · intro h
    have := hfl.mono h
    rwa [hfl.zero] at this
  · intro h
    have := hfl.mono h
    rwa [hfl.zero] at this

/-- The value assigned to the center when the target lies ahead: the center
plus the rounded step, not below the old center. -/
theorem Rounded.BlockSegment.stepped_ahead {fl : ℚ → ℚ} (hfl : Rounding fl)
    (b : BlockSegment) (dt : ℚ) (hv : 0 ≤ b.velocity) (hdt : 0 ≤ dt)
    (hc : fl b.center = b.center) (hpos : 0 < fl (b.targetCenter - b.center)) :
    Rounded.BlockSegment.stepped fl b dt = fl (b.center + fl (fl b.velocity * dt)) ∧
    b.center ≤ Rounded.BlockSegment.stepped fl b dt := by
  have he : Rounded.BlockSegment.stepped fl b dt =
      fl (b.center + fl (fl b.velocity * dt)) := by
    unfold Rounded.BlockSegment.stepped
    rw [Math_sign_of_pos hpos, one_mul]
  have hstep : 0 ≤ fl (fl b.velocity * dt) :=
    (hfl.sign _).1 (mul_nonneg ((hfl.sign _).1 hv) hdt)
  refine ⟨he, ?_⟩
  rw [he]
  have := hfl.mono (show b.center ≤ b.center + fl (fl b.velocity * dt) by linarith)
  rwa [hc] at this

/-- The value assigned to the center when the target lies behind: the center
minus the rounded step, not above the old center. -/
theorem Rounded.BlockSegment.stepped_behind {fl : ℚ → ℚ} (hfl : Rounding fl)
    (b : BlockSegment) (dt : ℚ) (hv : 0 ≤ b.velocity) (hdt : 0 ≤ dt)
    (hc : fl b.center = b.center) (hneg : fl (b.targetCenter - b.center) < 0) :
    Rounded.BlockSegment.stepped fl b dt = fl (b.center - fl (fl b.velocity * dt)) ∧
    Rounded.BlockSegment.stepped fl b dt ≤ b.center := by
  have he : Rounded.BlockSegment.stepped fl b dt =
      fl (b.center - fl (fl b.velocity * dt)) := by
    unfold Rounded.BlockSegment.stepped
    rw [Math_sign_of_neg hneg, neg_one_mul, hfl.neg, neg_mul, hfl.neg, sub_eq_add_neg]
  have hstep : 0 ≤ fl (fl b.velocity * dt) :=
    (hfl.sign _).1 (mul_nonneg ((hfl.sign _).1 hv) hdt)
  refine ⟨he, ?_⟩
  rw [he]
  have := hfl.mono (show b.center - fl (fl b.velocity * dt) ≤ b.center by linarith)
  rwa [hc] at this

/-- C6, amended: with the arithmetic rounded by `fl`, a velocity and a time
step that are not negative and a center and a target that are doubles,
`update(dt)` leaves the new center between the old center and the target, does
not increase the distance to the target, keeps the side on which the target
lies unless the target is reached, and leaves `targetCenter` as it is; when
the rounded distance is below one unit or the value assigned to the center
lies strictly beyond the target, the block is put on the target with velocity
`0`; otherwise the center is the assigned value and the velocity is kept; and
when the step passes the target the new center is the target. -/
theorem Rounded.BlockSegment.update_converges (fl : ℚ → ℚ) (hfl : Rounding fl)
    (b : BlockSegment) (dt : ℚ) (hv : 0 ≤ b.velocity) (hdt : 0 ≤ dt)
    (hc : fl b.center = b.center) (ht : fl b.targetCenter = b.targetCenter) :
    (min b.center b.targetCenter ≤ (Rounded.BlockSegment.update fl b dt).center ∧
      (Rounded.BlockSegment.update fl b dt).center ≤ max b.center b.targetCenter) ∧
    |b.targetCenter - (Rounded.BlockSegment.update fl b dt).center| ≤
      |b.targetCenter - b.center| ∧
    (Math_sign (b.targetCenter - (Rounded.BlockSegment.update fl b dt).center) =
        Math_sign (b.targetCenter - b.center) ∨
      (Rounded.BlockSegment.update fl b dt).center = b.targetCenter) ∧
    (Rounded.BlockSegment.update fl b dt).targetCenter = b.targetCenter ∧
    (Rounded.BlockSegment.Snaps fl b dt →
      (Rounded.BlockSegment.update fl b dt).center = b.targetCenter ∧
      (Rounded.BlockSegment.update fl b dt).velocity = 0) ∧
    (¬ Rounded.BlockSegment.Snaps fl b dt →
      (Rounded.BlockSegment.update fl b dt).center = Rounded.BlockSegment.stepped fl b dt ∧
      (Rounded.BlockSegment.update fl b dt).velocity = b.velocity) ∧
    (|b.targetCenter - b.center| < fl (fl b.velocity * dt) →
      (Rounded.BlockSegment.update fl b dt).center = b.targetCenter) := by
  by_cases hs : Rounded.BlockSegment.Snaps fl b dt
  · rw [Rounded.BlockSegment.update_of_snaps fl b dt hs]
    have hsnap : b.snapped.center = b.targetCenter ∧ b.snapped.velocity = 0 ∧
        b.snapped.targetCenter = b.targetCenter := ⟨rfl, rfl, rfl⟩
    rw [hsnap.1, hsnap.2.1, hsnap.2.2]
    refine ⟨⟨min_le_right _ _, le_max_right _ _⟩, ?_, Or.inr rfl, rfl, fun _ => ⟨rfl, rfl⟩,
      fun h => absurd hs h, fun _ => rfl⟩
    simp
  · rw [Rounded.BlockSegment.update_of_not_snaps fl b dt hs]
    simp only
    have hs0 := hs
    unfold Rounded.BlockSegment.Snaps at hs
    rw [not_or, not_or] at hs
    obtain ⟨h1, h2, h3⟩ := hs
    have h1' : 1 ≤ |fl (b.targetCenter - b.center)| := not_lt.mp h1
    rcases le_abs'.mp h1' with hneg | hpos
    · -- the target is behind the block
      have hlt : fl (b.targetCenter - b.center) < 0 := by linarith
      have hd : b.targetCenter - b.center < 0 := by
        by_contra hcon
        have := (hfl.sign _).1 (not_lt.mp hcon)
        linarith
      obtain ⟨he, hle⟩ := Rounded.BlockSegment.stepped_behind hfl b dt hv hdt hc hlt
      have hge : b.targetCenter ≤ Rounded.BlockSegment.stepped fl b dt := by
        by_contra hcon
        exact h3 ⟨by rw [Math_sign_of_neg hlt]; norm_num, not_le.mp hcon⟩
      refine ⟨⟨?_, ?_⟩, ?_, ?_, trivial, fun h => absurd h hs0, fun _ => ⟨trivial, trivial⟩, ?_⟩
      · exact le_trans (min_le_right _ _) hge
      · exact le_trans hle (le_max_left _ _)
      · rw [abs_of_nonpos (by linarith), abs_of_neg hd]; linarith
      · rcases eq_or_lt_of_le hge with heq | hlt2
        · right; exact heq.symm
        · left
          rw [Math_sign_of_neg (by linarith), Math_sign_of_neg hd]
      · intro hpass
        rw [abs_of_neg hd] at hpass
        have := hfl.mono (show b.center - fl (fl b.velocity * dt) ≤ b.targetCenter by linarith)
        rw [ht, ← he] at this
        exact le_antisymm this hge
    · -- the target is ahead of the block
      have hgt : 0 < fl (b.targetCenter - b.center) := by linarith
      have hd : 0 < b.targetCenter - b.center := by
        by_contra hcon
        have := (hfl.sign _).2 (not_lt.mp hcon)
        linarith
      obtain ⟨he, hge⟩ := Rounded.BlockSegment.stepped_ahead hfl b dt hv hdt hc hgt
      have hle : Rounded.BlockSegment.stepped fl b dt ≤ b.targetCenter := by
        by_contra hcon
        exact h2 ⟨by rw [Math_sign_of_pos hgt]; norm_num, not_le.mp hcon⟩
      refine ⟨⟨?_, ?_⟩, ?_, ?_, trivial, fun h => absurd h hs0, fun _ => ⟨trivial, trivial⟩, ?_⟩
      · exact le_trans (min_le_left _ _) hge
      · exact le_trans hle (le_max_right _ _)
      · rw [abs_of_nonneg (by linarith), abs_of_pos hd]; linarith
      · rcases eq_or_lt_of_le hle with heq | hlt2
        · right; exact heq
        · left
          rw [Math_sign_of_pos (by linarith), Math_sign_of_pos hd]
      · intro hpass
        rw [abs_of_pos hd] at hpass
        have := hfl.mono (show b.targetCenter ≤ b.center + fl (fl b.velocity * dt) by linarith)
        rw [ht, ← he] at this
        exact le_antisymm hle this

/-- On doubles the step of `landingBlock` by `landingStep` lands on the target. -/
theorem landingBlock_stepped :
    binary64 (landingBlock.targetCenter - landingBlock.center) = 1500 ∧
    Rounded.BlockSegment.stepped binary64 landingBlock landingStep = 3000 := by
  have hd : binary64 (landingBlock.targetCenter - landingBlock.center) = 1500 := by
    have := binary64_scaled 1500 0 (by norm_num)
    norm_num at this
    norm_num [landingBlock, this]
  have hv : binary64 (2625 / 2) = 2625 / 2 := by
    have := binary64_scaled 2625 (-1) (by norm_num)
    norm_num at this
    exact this
  have hp : binary64 (2625 / 2 * landingStep) = 6597069766656001 / 4398046511104 := by
    rw [binary64_eval (-42) 6597069766656001 (by norm_num [landingStep, abs_of_pos])
      (by norm_num [landingStep, abs_of_pos]) (Or.inl (by norm_num [landingStep, abs_lt]))]
    norm_num
  have hsum : binary64 (1500 + 6597069766656001 / 4398046511104) = 3000 := by
    rw [binary64_eval (-41) 6597069766656000 (by norm_num [abs_of_pos])
      (by norm_num [abs_of_pos]) (Or.inr ⟨by norm_num [abs_of_pos], by norm_num⟩)]
    norm_num
  refine ⟨hd, ?_⟩
  unfold Rounded.BlockSegment.stepped
  rw [hd, Math_sign_of_pos (by norm_num), one_mul]
  have e1 : landingBlock.velocity = 2625 / 2 := rfl
  have e2 : landingBlock.center = 1500 := rfl
  rw [e1, e2, hv, hp, hsum]

/-- C6, as stated, fails on doubles: with the block at `1500`, the target at
`3000`, velocity `1312.5` and the time step `1.142857142857143` the step
passes the target, the sum `1500 + 1500.0000000000002` rounds to `3000`, the
strict test does not fire and the velocity stays `1312.5`. -/
theorem Rounded.BlockSegment.update_velocity_counterexample :
    binary64 landingStep = landingStep ∧
    |landingBlock.targetCenter - landingBlock.center| < landingBlock.velocity * landingStep ∧
    (Rounded.BlockSegment.update binary64 landingBlock landingStep).center =
      landingBlock.targetCenter ∧
    (Rounded.BlockSegment.update binary64 landingBlock landingStep).velocity = 2625 / 2 ∧
    (Rounded.BlockSegment.update binary64 landingBlock landingStep).velocity ≠ 0 := by
  obtain ⟨hd, hst⟩ := landingBlock_stepped
  have hns : ¬ Rounded.BlockSegment.Snaps binary64 landingBlock landingStep := by
    unfold Rounded.BlockSegment.Snaps
    rw [hd, hst]
    norm_num [landingBlock]
  rw [Rounded.BlockSegment.update_of_not_snaps binary64 landingBlock landingStep hns]
  refine ⟨?_, ?_, hst, rfl, ?_⟩
  · have := binary64_scaled 5146971002709139 (-52) (by norm_num)
    norm_num at this
    norm_num [landingStep, this]
  · norm_num [landingBlock, landingStep, abs_of_pos]
  · show landingBlock.velocity ≠ 0
    norm_num [landingBlock]

theorem Rounded.BlockSegment.update_converges_witness :
    (min landingBlock.center landingBlock.targetCenter ≤
        (Rounded.BlockSegment.update binary64 landingBlock landingStep).center ∧
      (Rounded.BlockSegment.update binary64 landingBlock landingStep).center ≤
        max landingBlock.center landingBlock.targetCenter) ∧
    (|landingBlock.targetCenter - landingBlock.center| <
        binary64 (binary64 landingBlock.velocity * landingStep) →
      (Rounded.BlockSegment.update binary64 landingBlock landingStep).center =
        landingBlock.targetCenter) := by
  have h1500 : binary64 1500 = 1500 := by
    have := binary64_scaled 1500 0 (by norm_num)
    norm_num at this
    exact this
  have h3000 : binary64 3000 = 3000 := by
    have := binary64_scaled 3000 0 (by norm_num)
    norm_num at this
    exact this
  have h := Rounded.BlockSegment.update_converges binary64 binary64_rounding landingBlock
    landingStep (by norm_num [landingBlock]) (by norm_num [landingStep]) h1500 h3000
  exact ⟨h.1, h.2.2.2.2.2.2⟩

/-- With `fl = id` the rounded `update` is the `update` of exact arithmetic. -/
theorem Rounded.BlockSegment.update_id (b : BlockSegment) (dt : ℚ) :
    Rounded.BlockSegment.update id b dt = b.update dt := rfl

/-- With `fl = id` the rounded `push` is the `push` of exact arithmetic. -/
theorem Rounded.BlockSegment.push_id (b : BlockSegment) (distance waveSpeed : ℚ) :
    Rounded.BlockSegment.push id b distance waveSpeed = b.push distance waveSpeed := rfl

/-- C5, amended: a constructed block has velocity `0`; a push sets the velocity
to `|waveSpeed| * speedScale` whatever the new target is; after `update(dt)` a
block with `center = targetCenter` has velocity `0`, unless no test of the
update put it on the target and the value assigned to the center is the
target itself, in which case the velocity is kept; when a test puts the block
on the target the velocity is `0`; and in every state with
`center = targetCenter` the next `update` sets the velocity to `0` and leaves
center and target as they are. -/
theorem Rounded.BlockSegment.velocity_at_target (fl : ℚ → ℚ) (hfl : Rounding fl)
    (b : BlockSegment) (dt distance waveSpeed : ℚ) :
    (∀ center length blend speedScale barLength : ℚ,
      (BlockSegment.new center length blend speedScale barLength).velocity = 0) ∧
    (Rounded.BlockSegment.push fl b distance waveSpeed).velocity =
      fl (|waveSpeed| * b.speedScale) ∧
    ((Rounded.BlockSegment.update fl b dt).center =
        (Rounded.BlockSegment.update fl b dt).targetCenter →
      (Rounded.BlockSegment.update fl b dt).velocity = 0 ∨
      (¬ Rounded.BlockSegment.Snaps fl b dt ∧
        Rounded.BlockSegment.stepped fl b dt = b.targetCenter ∧
        (Rounded.BlockSegment.update fl b dt).velocity = b.velocity)) ∧
    (Rounded.BlockSegment.Snaps fl b dt →
      (Rounded.BlockSegment.update fl b dt).center =
        (Rounded.BlockSegment.update fl b dt).targetCenter ∧
      (Rounded.BlockSegment.update fl b dt).velocity = 0) ∧
    (b.center = b.targetCenter →
      (Rounded.BlockSegment.update fl b dt).velocity = 0 ∧
      (Rounded.BlockSegment.update fl b dt).center = b.center ∧
      (Rounded.BlockSegment.update fl b dt).targetCenter = b.targetCenter) := by
  refine ⟨fun _ _ _ _ _ => rfl, rfl, ?_, ?_, ?_⟩
  · intro heq
    by_cases hs : Rounded.BlockSegment.Snaps fl b dt
    · left
      rw [Rounded.BlockSegment.update_of_snaps fl b dt hs]; rfl
    · right
      rw [Rounded.BlockSegment.update_of_not_snaps fl b dt hs] at heq ⊢
      exact ⟨hs, heq, rfl⟩
  · intro hs
    rw [Rounded.BlockSegment.update_of_snaps fl b dt hs]
    exact ⟨rfl, rfl⟩
  · intro heq
    have hs : Rounded.BlockSegment.Snaps fl b dt := by
      left
      rw [heq, sub_self, hfl.zero]
      norm_num
    rw [Rounded.BlockSegment.update_of_snaps fl b dt hs]
    exact ⟨rfl, heq.symm, rfl⟩

theorem Rounded.BlockSegment.velocity_at_target_witness :
    (Rounded.BlockSegment.update binary64 landingBlock landingStep).center =
      (Rounded.BlockSegment.update binary64 landingBlock landingStep).targetCenter ∧
    ¬ Rounded.BlockSegment.Snaps binary64 landingBlock landingStep ∧
    (Rounded.BlockSegment.update binary64 landingBlock landingStep).velocity =
      landingBlock.velocity ∧
    landingBlock.velocity ≠ 0 := by
  obtain ⟨hd, hst⟩ := landingBlock_stepped
  have hns : ¬ Rounded.BlockSegment.Snaps binary64 landingBlock landingStep := by
    unfold Rounded.BlockSegment.Snaps
    rw [hd, hst]
    norm_num [landingBlock]
  have hc : (Rounded.BlockSegment.update binary64 landingBlock landingStep).center =
      (Rounded.BlockSegment.update binary64 landingBlock landingStep).targetCenter := by
    rw [Rounded.BlockSegment.update_of_not_snaps binary64 landingBlock landingStep hns]
    exact hst
  have h := (Rounded.BlockSegment.velocity_at_target binary64 binary64_rounding landingBlock
    landingStep 0 0).2.2.1 hc
  rcases h with h0 | ⟨-, -, hv⟩
  · exact absurd h0 (by
      rw [Rounded.BlockSegment.update_of_not_snaps binary64 landingBlock landingStep hns]
      show landingBlock.velocity ≠ 0
      norm_num [landingBlock])
  · exact ⟨hc, hns, hv, by norm_num [landingBlock]⟩

/-! ## The controller: repairing the target -/

/-- The rejection loop of `respawn` never reads the center of the target. -/
theorem TargetSegment.respawnLoop_forgets_center (t : TargetSegment) (x : ℚ)
    (minGap avoidCenter avoidLength : ℚ) (candidate : ℚ) (attempts : ℕ) (rng : Rng) :
    TargetSegment.respawnLoop { t with center := x } minGap avoidCenter avoidLength
        candidate attempts rng =
      t.respawnLoop minGap avoidCenter avoidLength candidate attempts rng := by
  induction candidate, attempts, rng using
    TargetSegment.respawnLoop.induct t minGap avoidCenter avoidLength with
  | case1 candidate attempts rng hcond margin draw ih =>
    conv_lhs => rw [TargetSegment.respawnLoop]
    conv_rhs => rw [TargetSegment.respawnLoop]
    simp only
    rw [if_pos hcond, if_pos hcond]
    exact ih
  | case2 candidate attempts rng hcond =>
    conv_lhs => rw [TargetSegment.respawnLoop]
    conv_rhs => rw [TargetSegment.respawnLoop]
    simp only
    rw [if_neg hcond, if_neg hcond]

/-- The method `respawn` never reads the center of the target: it overwrites
it. -/
theorem TargetSegment.respawn_forgets_center (t : TargetSegment) (x : ℚ) (minGap : ℚ)
    (avoidCenter : Option ℚ) (avoidLength : ℚ) (rng : Rng) :
    TargetSegment.respawn { t with center := x } minGap avoidCenter avoidLength rng =
      t.respawn minGap avoidCenter avoidLength rng := by
  cases avoidCenter with
  | none => rfl
  | some ac =>
    unfold TargetSegment.respawn TargetSegment.respawnRun
    simp only
    rw [TargetSegment.respawnLoop_forgets_center]
    rfl

/-- The loop of `respawnTargetSafe()` never reads the center the target had. -/
theorem Controller.respawnTargetSafeLoop_forgets_center (c : Controller) (x minGap : ℚ)
    (attempts : ℕ) :
    Controller.respawnTargetSafeLoop { c with target := { c.target with center := x } }
        minGap attempts =
      c.respawnTargetSafeLoop minGap attempts := by
  conv_lhs => rw [Controller.respawnTargetSafeLoop]
  conv_rhs => rw [Controller.respawnTargetSafeLoop]
  simp only [TargetSegment.respawn_forgets_center]

/-- The method `respawnTargetSafe()` never reads the center the target had. -/
theorem Controller.respawnTargetSafe_forgets_center (c : Controller) (x : ℚ) :
    Controller.respawnTargetSafe { c with target := { c.target with center := x } } =
      c.respawnTargetSafe := by
  unfold Controller.respawnTargetSafe
  simp only
  rw [Controller.respawnTargetSafeLoop_forgets_center c x]

/-- On a bar whose length is not negative `respawnTargetSafe()` leaves the
target between `0.05 * barLength` and `0.95 * barLength`. -/
theorem Controller.respawnTargetSafe_in_bounds (c : Controller) (hL : 0 ≤ c.barLength) :
    c.barLength * (5 / 100) ≤ c.respawnTargetSafe.target.center ∧
    c.respawnTargetSafe.target.center ≤ c.barLength * (95 / 100) := by
  obtain ⟨x, hx⟩ := c.respawnTargetSafe_center
  rw [hx]
  exact ⟨le_max_left _ _, max_le (by linarith) (min_le_left _ _)⟩

/-- C19: for a controller with the bar length of a reachable controller state,
whatever the field `target` holds (no object, a target whose center is not a
finite number, or a target with any number as center) and whatever the random
draws: after `ensureTargetValid()` the target center is a number between `0`
and `barLength`; a target whose center already lies there is left as it is,
with the whole controller state; in every other case the target is put
between `0.05 * barLength` and `0.95 * barLength`. -/
theorem Controller.ensureTargetValid_in_bounds (M : MathFns) (c0 c : Controller)
    (slot : TargetSlot) (hr : Controller.Reachable M c0) (hL : c.barLength = c0.barLength) :
    (0 ≤ (c.ensureTargetValidAt slot).target.center ∧
      (c.ensureTargetValidAt slot).target.center ≤ (c.ensureTargetValidAt slot).barLength) ∧
    (c.ensureTargetValidAt slot).barLength = c.barLength ∧
    (∀ t : TargetSegment, slot = TargetSlot.finite t →
      0 ≤ t.center ∧ t.center ≤ c.barLength →
      c.ensureTargetValidAt slot = { c with target := t }) ∧
    ((∀ t : TargetSegment, slot = TargetSlot.finite t →
        ¬ (0 ≤ t.center ∧ t.center ≤ c.barLength)) →
      c.barLength * (5 / 100) ≤ (c.ensureTargetValidAt slot).target.center ∧
      (c.ensureTargetValidAt slot).target.center ≤ c.barLength * (95 / 100)) ∧
    c.ensureTargetValidAt (TargetSlot.finite c.target) = c.ensureTargetValid := by
  obtain ⟨h1, -, -⟩ := Controller.reachable_constants M c0 hr
  rw [← hL] at h1
  have h0 : 0 ≤ c.barLength := by linarith
  have hrepair : ∀ d : Controller, d.barLength = c.barLength →
      d.respawnTargetSafe.barLength = c.barLength ∧
      (c.barLength * (5 / 100) ≤ d.respawnTargetSafe.target.center ∧
        d.respawnTargetSafe.target.center ≤ c.barLength * (95 / 100)) ∧
      (0 ≤ d.respawnTargetSafe.target.center ∧
        d.respawnTargetSafe.target.center ≤ d.respawnTargetSafe.barLength) := by
    intro d hd
    have hb := Controller.respawnTargetSafe_in_bounds d (by rw [hd]; exact h0)
    rw [hd] at hb
    rw [Controller.respawnTargetSafe_barLength, hd]
    exact ⟨rfl, hb, by linarith [hb.1], by linarith [hb.2]⟩
  cases slot with
  | missing =>
    obtain ⟨e1, e2, e3⟩ := hrepair
      { c with
        target := TargetSegment.new (c.barLength * (1 / 2)) c.targetHalfLength c.targetBlend
          c.barLength } rfl
    refine ⟨e3, e1, ?_, fun _ => e2, rfl⟩
    intro t ht
    cases ht
  | notFinite length blend barLength =>
    obtain ⟨e1, e2, e3⟩ := hrepair
      { c with
        target := { center := 0, length := length, blend := blend, barLength := barLength } }
      rfl
    refine ⟨e3, e1, ?_, fun _ => e2, rfl⟩
    intro t ht
    cases ht
  | finite t =>
    have hdef : c.ensureTargetValidAt (TargetSlot.finite t) =
        Controller.ensureTargetValid { c with target := t } := rfl
    by_cases hv : 0 ≤ t.center ∧ t.center ≤ c.barLength
    · have hkeep : Controller.ensureTargetValid { c with target := t } =
          { c with target := t } := by
        unfold Controller.ensureTargetValid
        rw [if_neg]
        rintro (h | h)
        · exact absurd hv.1 (not_le.mpr h)
        · exact absurd hv.2 (not_le.mpr h)
      rw [hdef, hkeep]
      refine ⟨hv, rfl, ?_, fun h => absurd hv (h t rfl), rfl⟩
      intro t1 ht1 _
      cases ht1
      rfl
    · have hmove : Controller.ensureTargetValid { c with target := t } =
          Controller.respawnTargetSafe { c with target := t } := by
        unfold Controller.ensureTargetValid
        rw [if_pos]
        by_contra hcon
        rw [not_or, not_lt, not_lt] at hcon
        exact hv hcon
      obtain ⟨e1, e2, e3⟩ := hrepair { c with target := t } rfl
      rw [hdef, hmove]
      refine ⟨e3, e1, ?_, fun _ => e2, rfl⟩
      intro t1 ht1 hv1
      cases ht1
      exact absurd hv1 hv

theorem Controller.ensureTargetValid_in_bounds_witness :
    ¬ (0 ≤ (-5 : ℚ) ∧ (-5 : ℚ) ≤ sampleController.barLength) ∧
    (sampleController.barLength * (5 / 100) ≤
        (sampleController.ensureTargetValidAt
          (TargetSlot.finite { sampleController.target with center := -5 })).target.center ∧
      (sampleController.ensureTargetValidAt
          (TargetSlot.finite { sampleController.target with center := -5 })).target.center ≤
        sampleController.barLength * (95 / 100)) ∧
    (0 ≤ (sampleController.ensureTargetValidAt TargetSlot.missing).target.center ∧
      (sampleController.ensureTargetValidAt TargetSlot.missing).target.center ≤
        (sampleController.ensureTargetValidAt TargetSlot.missing).barLength) := by
  refine ⟨by norm_num, ?_, ?_⟩
  · refine (Controller.ensureTargetValid_in_bounds sampleMath sampleController sampleController
      (TargetSlot.finite { sampleController.target with center := -5 })
      (Controller.Reachable.new 3000 50 sampleEnv) rfl).2.2.2.1 ?_
    intro t ht
    cases ht
    norm_num
  · exact (Controller.ensureTargetValid_in_bounds sampleMath sampleController sampleController
      TargetSlot.missing (Controller.Reachable.new 3000 50 sampleEnv) rfl).1

/-! ## Anchor segments on doubles -/

/-- A rounding with relative error at most `u` enlarges an absolute value by a
factor of at most `1 + u`. -/
theorem abs_rounded_le {fl : ℚ → ℚ} {u : ℚ} (herr : ∀ x, |fl x - x| ≤ u * |x|) (x : ℚ) :
    |fl x| ≤ (1 + u) * |x| := by
  have h1 : |fl x| ≤ |fl x - x| + |x| := by
    have := abs_add (fl x - x) x
    rwa [sub_add_cancel] at this
  have h2 := herr x
  linarith

/-- The rounded midpoint of the two rounded rest ends, `r - h` and `r + h`,
lies within `7/2 * u * (|r| + |h|)` of `r`. -/
theorem rounded_midpoint_error {fl : ℚ → ℚ} {u : ℚ} (hu0 : 0 ≤ u) (hu : u ≤ 1 / 8)
    (herr : ∀ x, |fl x - x| ≤ u * |x|) (r h : ℚ) :
    |fl (1 / 2 * fl (fl (r - h) + fl (r + h))) - r| ≤ 7 / 2 * u * (|r| + |h|) := by
  have hB : 0 ≤ |r| + |h| := add_nonneg (abs_nonneg _) (abs_nonneg _)
  have hd1 : |fl (r - h) - (r - h)| ≤ u * (|r| + |h|) :=
    le_trans (herr _) (mul_le_mul_of_nonneg_left (abs_sub r h) hu0)
  have hd2 : |fl (r + h) - (r + h)| ≤ u * (|r| + |h|) :=
    le_trans (herr _) (mul_le_mul_of_nonneg_left (abs_add r h) hu0)
  have hT : |fl (r - h) + fl (r + h) - 2 * r| ≤ 2 * (u * (|r| + |h|)) := by
    have e : fl (r - h) + fl (r + h) - 2 * r =
        (fl (r - h) - (r - h)) + (fl (r + h) - (r + h)) := by ring
    rw [e]
    exact le_trans (abs_add _ _) (by linarith)
  have hT2 : |fl (r - h) + fl (r + h)| ≤ 9 / 4 * (|r| + |h|) := by
    have h1 : |fl (r - h) + fl (r + h)| ≤
        |fl (r - h) + fl (r + h) - 2 * r| + |2 * r| := by
      have := abs_add (fl (r - h) + fl (r + h) - 2 * r) (2 * r)
      rwa [sub_add_cancel] at this
    have h2 : |2 * r| = 2 * |r| := by rw [abs_mul]; norm_num
    have h3 : u * (|r| + |h|) ≤ 1 / 8 * (|r| + |h|) := mul_le_mul_of_nonneg_right hu hB
    have h4 : 0 ≤ |h| := abs_nonneg _
    linarith
  have hS : |fl (fl (r - h) + fl (r + h)) - (fl (r - h) + fl (r + h))| ≤
      9 / 4 * (u * (|r| + |h|)) := by
    have := le_trans (herr (fl (r - h) + fl (r + h))) (mul_le_mul_of_nonneg_left hT2 hu0)
    linarith
  have hS2 : |fl (fl (r - h) + fl (r + h))| ≤ 81 / 32 * (|r| + |h|) := by
    have h1 := abs_rounded_le herr (fl (r - h) + fl (r + h))
    have h2 : (1 + u) * |fl (r - h) + fl (r + h)| ≤ (1 + 1 / 8) * (9 / 4 * (|r| + |h|)) :=
      mul_le_mul (by linarith) hT2 (abs_nonneg _) (by norm_num)
    linarith
  have hm : |fl (1 / 2 * fl (fl (r - h) + fl (r + h))) - 1 / 2 * fl (fl (r - h) + fl (r + h))| ≤
      81 / 64 * (u * (|r| + |h|)) := by
    have h1 := herr (1 / 2 * fl (fl (r - h) + fl (r + h)))
    have h2 : |1 / 2 * fl (fl (r - h) + fl (r + h))| =
        1 / 2 * |fl (fl (r - h) + fl (r + h))| := by rw [abs_mul]; norm_num
    rw [h2] at h1
    have h3 : u * (1 / 2 * |fl (fl (r - h) + fl (r + h))|) ≤
        u * (1 / 2 * (81 / 32 * (|r| + |h|))) :=
      mul_le_mul_of_nonneg_left (by linarith) hu0
    linarith
  have e : fl (1 / 2 * fl (fl (r - h) + fl (r + h))) - r =
      (fl (1 / 2 * fl (fl (r - h) + fl (r + h))) - 1 / 2 * fl (fl (r - h) + fl (r + h))) +
      (1 / 2 * (fl (fl (r - h) + fl (r + h)) - (fl (r - h) + fl (r + h))) +
        1 / 2 * (fl (r - h) + fl (r + h) - 2 * r)) := by ring
  rw [e]
  have t1 := abs_add
    (fl (1 / 2 * fl (fl (r - h) + fl (r + h))) - 1 / 2 * fl (fl (r - h) + fl (r + h)))
    (1 / 2 * (fl (fl (r - h) + fl (r + h)) - (fl (r - h) + fl (r + h))) +
        1 / 2 * (fl (r - h) + fl (r + h) - 2 * r))
  have t2 := abs_add
    (1 / 2 * (fl (fl (r - h) + fl (r + h)) - (fl (r - h) + fl (r + h))))
    (1 / 2 * (fl (r - h) + fl (r + h) - 2 * r))
  have t3 : |1 / 2 * (fl (fl (r - h) + fl (r + h)) - (fl (r - h) + fl (r + h)))| =
      1 / 2 * |fl (fl (r - h) + fl (r + h)) - (fl (r - h) + fl (r + h))| := by
    rw [abs_mul]; norm_num
  have t4 : |1 / 2 * (fl (r - h) + fl (r + h) - 2 * r)| =
      1 / 2 * |fl (r - h) + fl (r + h) - 2 * r| := by
    rw [abs_mul]; norm_num
  have hnn : 0 ≤ u * (|r| + |h|) := mul_nonneg hu0 hB
  linarith

/-- The rounded blend `(1 - β) * m + β * m` of a number `m` with itself lies
within `7/2 * u * (|1 - β| + |β|) * |m|` of `m`. -/
theorem rounded_blend_error {fl : ℚ → ℚ} {u : ℚ} (hu0 : 0 ≤ u) (hu : u ≤ 1 / 8)
    (herr : ∀ x, |fl x - x| ≤ u * |x|) (β m : ℚ) :
    |fl (fl (fl (1 - β) * m) + fl (β * m)) - m| ≤ 7 / 2 * u * ((|1 - β| + |β|) * |m|) := by
  have hm0 : 0 ≤ |m| := abs_nonneg m
  have hb0 : 0 ≤ |β| := abs_nonneg β
  have hc0 : 0 ≤ |1 - β| := abs_nonneg _
  have hG : 1 ≤ |1 - β| + |β| := by
    have := abs_add (1 - β) β
    rw [sub_add_cancel, abs_one] at this
    exact this
  have hcm : 0 ≤ |1 - β| * |m| := mul_nonneg hc0 hm0
  have hbm : 0 ≤ |β| * |m| := mul_nonneg hb0 hm0
  -- the weight `1 - β`
  have ha : |fl (1 - β) - (1 - β)| ≤ u * |1 - β| := herr _
  have ha2 : |fl (1 - β)| ≤ 9 / 8 * |1 - β| := by
    have := abs_rounded_le herr (1 - β)
    have h2 : (1 + u) * |1 - β| ≤ (1 + 1 / 8) * |1 - β| :=
      mul_le_mul_of_nonneg_right (by linarith) hc0
    linarith
  -- the first product
  have hp1 : |fl (fl (1 - β) * m) - fl (1 - β) * m| ≤ 9 / 8 * (u * (|1 - β| * |m|)) := by
    have h1 := herr (fl (1 - β) * m)
    rw [abs_mul] at h1
    have h2 : |fl (1 - β)| * |m| ≤ 9 / 8 * |1 - β| * |m| := mul_le_mul_of_nonneg_right ha2 hm0
    have h3 := mul_le_mul_of_nonneg_left h2 hu0
    linarith
  have hp2 : |fl (1 - β) * m - (1 - β) * m| ≤ u * (|1 - β| * |m|) := by
    have e : fl (1 - β) * m - (1 - β) * m = (fl (1 - β) - (1 - β)) * m := by ring
    rw [e, abs_mul]
    have := mul_le_mul_of_nonneg_right ha hm0
    linarith
  -- the second product
  have hq : |fl (β * m) - β * m| ≤ u * (|β| * |m|) := by
    have h1 := herr (β * m)
    rwa [abs_mul] at h1
  -- the sum of the two products
  have hs : |fl (fl (1 - β) * m) + fl (β * m) - m| ≤
      17 / 8 * (u * ((|1 - β| + |β|) * |m|)) := by
    have e : fl (fl (1 - β) * m) + fl (β * m) - m =
        (fl (fl (1 - β) * m) - fl (1 - β) * m) +
        ((fl (1 - β) * m - (1 - β) * m) + (fl (β * m) - β * m)) := by ring
    rw [e]
    have t1 := abs_add (fl (fl (1 - β) * m) - fl (1 - β) * m)
      ((fl (1 - β) * m - (1 - β) * m) + (fl (β * m) - β * m))
    have t2 := abs_add (fl (1 - β) * m - (1 - β) * m) (fl (β * m) - β * m)
    have hucm : 0 ≤ u * (|1 - β| * |m|) := mul_nonneg hu0 hcm
    have hubm : 0 ≤ u * (|β| * |m|) := mul_nonneg hu0 hbm
    have e2 : u * ((|1 - β| + |β|) * |m|) = u * (|1 - β| * |m|) + u * (|β| * |m|) := by ring
    rw [e2]
    linarith
  have hGm : |m| ≤ (|1 - β| + |β|) * |m| := by
    have := mul_le_mul_of_nonneg_right hG hm0
    linarith
  have hGm0 : 0 ≤ (|1 - β| + |β|) * |m| := le_trans hm0 hGm
  have hs2 : |fl (fl (1 - β) * m) + fl (β * m)| ≤ 81 / 64 * ((|1 - β| + |β|) * |m|) := by
    have h1 : |fl (fl (1 - β) * m) + fl (β * m)| ≤
        |fl (fl (1 - β) * m) + fl (β * m) - m| + |m| := by
      have := abs_add (fl (fl (1 - β) * m) + fl (β * m) - m) m
      rwa [sub_add_cancel] at this
    have h2 : u * ((|1 - β| + |β|) * |m|) ≤ 1 / 8 * ((|1 - β| + |β|) * |m|) :=
      mul_le_mul_of_nonneg_right hu hGm0
    linarith
  have hc : |fl (fl (fl (1 - β) * m) + fl (β * m)) - (fl (fl (1 - β) * m) + fl (β * m))| ≤
      81 / 64 * (u * ((|1 - β| + |β|) * |m|)) := by
    have h1 := herr (fl (fl (1 - β) * m) + fl (β * m))
    have h2 := mul_le_mul_of_nonneg_left hs2 hu0
    linarith
  have e : fl (fl (fl (1 - β) * m) + fl (β * m)) - m =
      (fl (fl (fl (1 - β) * m) + fl (β * m)) - (fl (fl (1 - β) * m) + fl (β * m))) +
      (fl (fl (1 - β) * m) + fl (β * m) - m) := by ring
  rw [e]
  have t := abs_add
    (fl (fl (fl (1 - β) * m) + fl (β * m)) - (fl (fl (1 - β) * m) + fl (β * m)))
    (fl (fl (1 - β) * m) + fl (β * m) - m)
  have hnn : 0 ≤ u * ((|1 - β| + |β|) * |m|) := mul_nonneg hu0 hGm0
  linarith


/-- With `fl = id` the rounded `AnchorSegment.update` is the `update` of exact
arithmetic. -/
theorem Rounded.AnchorSegment.update_of_id (M : MathFns) (s : AnchorSegment) (waves : List Wave)
    (t : ℚ) : Rounded.AnchorSegment.update id M s waves t = s.update M waves t := rfl

/-- When the three sums of wave displacements are `0`, the rounded
`AnchorSegment.update` blends the rounded rest midpoint with itself. -/
theorem Rounded.AnchorSegment.update_center_at_rest {fl : ℚ → ℚ} (hfl : Rounding fl)
    (M : MathFns) (s : AnchorSegment) (waves : List Wave) (t : ℚ)
    (hl : Rounded.AnchorSegment.uLeft fl M s waves t = 0)
    (hr : Rounded.AnchorSegment.uRight fl M s waves t = 0)
    (hm : Rounded.AnchorSegment.uMid fl M s waves t = 0) :
    Rounded.AnchorSegment.centerWave fl M s waves t = Rounded.AnchorSegment.xRestMid fl M s t ∧
    Rounded.AnchorSegment.centerLocal fl M s waves t = Rounded.AnchorSegment.xRestMid fl M s t ∧
    (Rounded.AnchorSegment.update fl M s waves t).center =
      fl (fl (fl (1 - s.beta) * Rounded.AnchorSegment.xRestMid fl M s t) +
        fl (s.beta * Rounded.AnchorSegment.xRestMid fl M s t)) := by
  have h1 : Rounded.AnchorSegment.centerWave fl M s waves t =
      Rounded.AnchorSegment.xRestMid fl M s t := by
    unfold Rounded.AnchorSegment.centerWave Rounded.AnchorSegment.xRestMid
    rw [hl, hr, add_zero, add_zero]
    unfold Rounded.AnchorSegment.xLeftRest Rounded.AnchorSegment.xRightRest
    rw [hfl.idem, hfl.idem]
  have h2 : Rounded.AnchorSegment.centerLocal fl M s waves t =
      Rounded.AnchorSegment.xRestMid fl M s t := by
    unfold Rounded.AnchorSegment.centerLocal
    rw [hm, add_zero]
    unfold Rounded.AnchorSegment.xRestMid
    rw [hfl.idem]
  refine ⟨h1, h2, ?_⟩
  have h3 : (Rounded.AnchorSegment.update fl M s waves t).center =
      fl (fl (fl (1 - s.beta) * Rounded.AnchorSegment.centerWave fl M s waves t) +
        fl (s.beta * Rounded.AnchorSegment.centerLocal fl M s waves t)) := rfl
  rw [h3, h1, h2]

/-- C20, amended: `AnchorSegment.update(waves, t)` sets `center` to the rounded
value of `(1 - beta) * centerWave + beta * centerLocal`.  In exact arithmetic
that is `restCenter + (1 - beta) * (uLeft + uRight) / 2 + beta * uMid`, so
`restCenter` when the three sums are `0`, as for an empty list of waves.  With
a rounding of relative error at most `u ≤ 1/8`, when the three sums are `0`
(as for an empty list of waves) the center lies within
`9 * u * (|1 - beta| + |beta|) * (|restCenter| + |halfL|)` of `restCenter`. -/
theorem Rounded.AnchorSegment.update_center (fl : ℚ → ℚ) (hfl : Rounding fl) (u : ℚ)
    (hu0 : 0 ≤ u) (hu : u ≤ 1 / 8) (herr : ∀ x, |fl x - x| ≤ u * |x|)
    (M : MathFns) (s : AnchorSegment) (waves : List Wave) (t : ℚ) :
    (Rounded.AnchorSegment.update fl M s waves t).center =
      fl (fl (fl (1 - s.beta) * Rounded.AnchorSegment.centerWave fl M s waves t) +
        fl (s.beta * Rounded.AnchorSegment.centerLocal fl M s waves t)) ∧
    ((Rounded.AnchorSegment.update id M s waves t).center =
        (1 - s.beta) * s.centerWave M waves t + s.beta * s.centerLocal M waves t ∧
      (Rounded.AnchorSegment.update id M s waves t).center =
        s.restCenter + (1 - s.beta) * (s.uLeft M waves t + s.uRight M waves t) / 2 +
          s.beta * s.uMid M waves t ∧
      (s.uLeft M waves t = 0 → s.uRight M waves t = 0 → s.uMid M waves t = 0 →
        (Rounded.AnchorSegment.update id M s waves t).center = s.restCenter) ∧
      (Rounded.AnchorSegment.update id M s [] t).center = s.restCenter) ∧
    (Rounded.AnchorSegment.uLeft fl M s waves t = 0 →
      Rounded.AnchorSegment.uRight fl M s waves t = 0 →
      Rounded.AnchorSegment.uMid fl M s waves t = 0 →
      |(Rounded.AnchorSegment.update fl M s waves t).center - s.restCenter| ≤
        9 * u * ((|1 - s.beta| + |s.beta|) *
          (|s.restCenter| + |Rounded.AnchorSegment.halfL fl M s t|))) ∧
    |(Rounded.AnchorSegment.update fl M s [] t).center - s.restCenter| ≤
      9 * u * ((|1 - s.beta| + |s.beta|) *
        (|s.restCenter| + |Rounded.AnchorSegment.halfL fl M s t|)) := by
  have hexact := AnchorSegment.update_center_exact M s waves t
  have hbound : ∀ ws : List Wave, Rounded.AnchorSegment.uLeft fl M s ws t = 0 →
      Rounded.AnchorSegment.uRight fl M s ws t = 0 →
      Rounded.AnchorSegment.uMid fl M s ws t = 0 →
      |(Rounded.AnchorSegment.update fl M s ws t).center - s.restCenter| ≤
        9 * u * ((|1 - s.beta| + |s.beta|) *
          (|s.restCenter| + |Rounded.AnchorSegment.halfL fl M s t|)) := by
    intro ws hl hr hm
    obtain ⟨-, -, hc⟩ := Rounded.AnchorSegment.update_center_at_rest hfl M s ws t hl hr hm
    rw [hc]
    have hmid : Rounded.AnchorSegment.xRestMid fl M s t =
        fl (1 / 2 * fl (fl (s.restCenter - Rounded.AnchorSegment.halfL fl M s t) +
          fl (s.restCenter + Rounded.AnchorSegment.halfL fl M s t))) := rfl
    have e1 := rounded_midpoint_error hu0 hu herr s.restCenter
      (Rounded.AnchorSegment.halfL fl M s t)
    rw [← hmid] at e1
    have e2 := rounded_blend_error hu0 hu herr s.beta (Rounded.AnchorSegment.xRestMid fl M s t)
    have hB : 0 ≤ |s.restCenter| + |Rounded.AnchorSegment.halfL fl M s t| :=
      add_nonneg (abs_nonneg _) (abs_nonneg _)
    have hG : 1 ≤ |1 - s.beta| + |s.beta| := by
      have := abs_add (1 - s.beta) s.beta
      rw [sub_add_cancel, abs_one] at this
      exact this
    have hm1 : |Rounded.AnchorSegment.xRestMid fl M s t| ≤
        23 / 16 * (|s.restCenter| + |Rounded.AnchorSegment.halfL fl M s t|) := by
      have h1 : |Rounded.AnchorSegment.xRestMid fl M s t| ≤
          |Rounded.AnchorSegment.xRestMid fl M s t - s.restCenter| + |s.restCenter| := by
        have := abs_add (Rounded.AnchorSegment.xRestMid fl M s t - s.restCenter) s.restCenter
        rwa [sub_add_cancel] at this
      have h2 : u * (|s.restCenter| + |Rounded.AnchorSegment.halfL fl M s t|) ≤
          1 / 8 * (|s.restCenter| + |Rounded.AnchorSegment.halfL fl M s t|) :=
        mul_le_mul_of_nonneg_right hu hB
      have h3 : 0 ≤ |Rounded.AnchorSegment.halfL fl M s t| := abs_nonneg _
      linarith
    have hGm : (|1 - s.beta| + |s.beta|) * |Rounded.AnchorSegment.xRestMid fl M s t| ≤
        (|1 - s.beta| + |s.beta|) *
          (23 / 16 * (|s.restCenter| + |Rounded.AnchorSegment.halfL fl M s t|)) :=
      mul_le_mul_of_nonneg_left hm1 (by linarith)
    have hGB : |s.restCenter| + |Rounded.AnchorSegment.halfL fl M s t| ≤
        (|1 - s.beta| + |s.beta|) *
          (|s.restCenter| + |Rounded.AnchorSegment.halfL fl M s t|) := by
      have := mul_le_mul_of_nonneg_right hG hB
      linarith
    have k1 := mul_le_mul_of_nonneg_left hGm hu0
    have k2 := mul_le_mul_of_nonneg_left hGB hu0
    have tri := abs_sub_le
      (fl (fl (fl (1 - s.beta) * Rounded.AnchorSegment.xRestMid fl M s t) +
        fl (s.beta * Rounded.AnchorSegment.xRestMid fl M s t)))
      (Rounded.AnchorSegment.xRestMid fl M s t) s.restCenter
    have hnn : 0 ≤ u * ((|1 - s.beta| + |s.beta|) *
        (|s.restCenter| + |Rounded.AnchorSegment.halfL fl M s t|)) :=
      mul_nonneg hu0 (mul_nonneg (by linarith) hB)
    linarith
  refine ⟨rfl, ⟨hexact.1, hexact.2.1, hexact.2.2.2.1, hexact.2.2.2.2⟩, hbound waves,
    hbound [] rfl rfl rfl⟩

/-- On doubles, at time `0` with no waves, the breathing leaves the half length
of `driftAnchor` as it is, the rest midpoint is the rest center, and the
blend of the midpoint with itself is one last place above it. -/
theorem driftAnchor_center :
    Rounded.AnchorSegment.halfL binary64 sampleMath driftAnchor 0 =
      3602879701896397 / 35184372088832 ∧
    Rounded.AnchorSegment.xRestMid binary64 sampleMath driftAnchor 0 =
      8106479329266893 / 8796093022208 ∧
    (Rounded.AnchorSegment.update binary64 sampleMath driftAnchor [] 0).center =
      4053239664633447 / 4398046511104 := by
  have hsin : sampleMath.sin 0 = 0 := by norm_num [sampleMath]
  have h1 : binary64 1 = 1 := by
    have := binary64_scaled 1 0 (by norm_num)
    norm_num at this
    exact this
  have hhl : binary64 (3602879701896397 / 35184372088832) =
      3602879701896397 / 35184372088832 := by
    have := binary64_scaled 3602879701896397 (-45) (by norm_num)
    norm_num at this
    exact this
  have hxl : binary64 (8106479329266893 / 8796093022208 - 3602879701896397 / 35184372088832) =
      3602879701896397 / 4398046511104 := by
    rw [binary64_eval (-43) 7205759403792794 (by norm_num [abs_of_pos]) (by norm_num [abs_of_pos])
      (Or.inl (by norm_num [abs_lt]))]
    norm_num
  have hxr : binary64 (8106479329266893 / 8796093022208 + 3602879701896397 / 35184372088832) =
      1024 := by
    rw [binary64_eval (-42) 4503599627370496 (by norm_num [abs_of_pos]) (by norm_num [abs_of_pos])
      (Or.inl (by norm_num [abs_lt]))]
    norm_num
  have hS : binary64 (3602879701896397 / 4398046511104 + 1024) =
      8106479329266893 / 4398046511104 := by
    rw [binary64_eval (-42) 8106479329266893 (by norm_num [abs_of_pos]) (by norm_num [abs_of_pos])
      (Or.inl (by norm_num [abs_lt]))]
    norm_num
  have hmid : binary64 (1 / 2 * (8106479329266893 / 4398046511104)) =
      8106479329266893 / 8796093022208 := by
    rw [binary64_eval (-43) 8106479329266893 (by norm_num [abs_of_pos]) (by norm_num [abs_of_pos])
      (Or.inl (by norm_num [abs_lt]))]
    norm_num
  have ha : binary64 (1 - 5404319552844595 / 9007199254740992) =
      3602879701896397 / 9007199254740992 := by
    rw [binary64_eval (-54) 7205759403792794 (by norm_num [abs_of_pos]) (by norm_num [abs_of_pos])
      (Or.inl (by norm_num [abs_lt]))]
    norm_num
  have hp : binary64 (3602879701896397 / 9007199254740992 * (8106479329266893 / 8796093022208)) =
      6485183463413515 / 17592186044416 := by
    rw [binary64_eval (-44) 6485183463413515 (by norm_num [abs_of_pos]) (by norm_num [abs_of_pos])
      (Or.inl (by norm_num [abs_lt]))]
    norm_num
  have hq : binary64 (5404319552844595 / 9007199254740992 * (8106479329266893 / 8796093022208)) =
      607985949695017 / 1099511627776 := by
    rw [binary64_eval (-43) 4863887597560136 (by norm_num [abs_of_pos]) (by norm_num [abs_of_pos])
      (Or.inl (by norm_num [abs_lt]))]
    norm_num
  have hc : binary64 (6485183463413515 / 17592186044416 + 607985949695017 / 1099511627776) =
      4053239664633447 / 4398046511104 := by
    rw [binary64_eval (-43) 8106479329266894 (by norm_num [abs_of_pos]) (by norm_num [abs_of_pos])
      (Or.inr ⟨by norm_num [abs_of_pos], by norm_num⟩)]
    norm_num
  have ehalf : Rounded.AnchorSegment.halfL binary64 sampleMath driftAnchor 0 =
      3602879701896397 / 35184372088832 := by
    unfold Rounded.AnchorSegment.halfL
    simp only [driftAnchor, AnchorSegment.new, mul_zero, binary64_zero, hsin, add_zero, h1,
      mul_one, hhl]
  have erc : driftAnchor.restCenter = 8106479329266893 / 8796093022208 := rfl
  have ebeta : driftAnchor.beta = 5404319552844595 / 9007199254740992 := rfl
  have emid : Rounded.AnchorSegment.xRestMid binary64 sampleMath driftAnchor 0 =
      8106479329266893 / 8796093022208 := by
    unfold Rounded.AnchorSegment.xRestMid Rounded.AnchorSegment.xLeftRest
      Rounded.AnchorSegment.xRightRest
    rw [ehalf, erc, hxl, hxr, hS, hmid]
  refine ⟨ehalf, emid, ?_⟩
  rw [(Rounded.AnchorSegment.update_center_at_rest binary64_rounding sampleMath driftAnchor []
    0 rfl rfl rfl).2.2, emid, ebeta, ha, hp, hq, hc]

/-- C20, as stated, fails on doubles: for the third anchor of a bar of length
`1536`, with no waves at time `0`, `update` sets the center to
`921.6000000000001`, one last place above the rest center `921.6`. -/
theorem Rounded.AnchorSegment.update_center_counterexample :
    driftAnchor.restCenter = 8106479329266893 / 8796093022208 ∧
    (Rounded.AnchorSegment.update binary64 sampleMath driftAnchor [] 0).center =
      4053239664633447 / 4398046511104 ∧
    (Rounded.AnchorSegment.update binary64 sampleMath driftAnchor [] 0).center ≠
      driftAnchor.restCenter := by
  obtain ⟨-, -, hc⟩ := driftAnchor_center
  refine ⟨rfl, hc, ?_⟩
  rw [hc]
  norm_num [driftAnchor, AnchorSegment.new]

theorem Rounded.AnchorSegment.update_center_witness :
    |(Rounded.AnchorSegment.update binary64 sampleMath driftAnchor [] 0).center -
        driftAnchor.restCenter| ≤
      9 * (1 / 9007199254740992) * ((|1 - driftAnchor.beta| + |driftAnchor.beta|) *
        (|driftAnchor.restCenter| +
          |Rounded.AnchorSegment.halfL binary64 sampleMath driftAnchor 0|)) :=
  (Rounded.AnchorSegment.update_center binary64 binary64_rounding (1 / 9007199254740992)
    (by norm_num) (by norm_num)
    (fun x => by
      have := binary64_error x
      rw [div_eq_mul_inv, mul_comm] at this
      simpa using this)
    sampleMath driftAnchor [] 0).2.2.2

/-! ## The controller on doubles: what a tick leaves alone -/

/-- The loop of the rounded `respawnTargetSafe()` changes the target and the
random stream only. -/
theorem Rounded.Controller.respawnTargetSafeLoop_shape_rounded (fl : ℚ → ℚ) (c : Controller)
    (minGap : ℚ) (attempts : ℕ) :
    ∃ tgt rng, (Rounded.Controller.respawnTargetSafeLoop fl c minGap attempts).1 =
      { c with target := tgt, env := { c.env with rng := rng } } := by
  induction c, minGap, attempts using Rounded.Controller.respawnTargetSafeLoop.induct fl with
  | case1 c minGap attempts r c1 attempts1 hcond ih =>
    rw [Rounded.Controller.respawnTargetSafeLoop, if_pos hcond]
    obtain ⟨tgt, rng, h⟩ := ih
    exact ⟨tgt, rng, h⟩
  | case2 c minGap attempts r c1 attempts1 hcond =>
    rw [Rounded.Controller.respawnTargetSafeLoop, if_neg hcond]
    exact ⟨_, _, rfl⟩

/-- The rounded `respawnTargetSafe()` changes the target and the random stream
only. -/
theorem Rounded.Controller.respawnTargetSafe_shape_rounded (fl : ℚ → ℚ) (c : Controller) :
    ∃ tgt rng, Rounded.Controller.respawnTargetSafe fl c =
      { c with target := tgt, env := { c.env with rng := rng } } := by
  obtain ⟨tgt, rng, h⟩ := Rounded.Controller.respawnTargetSafeLoop_shape_rounded fl c c.targetMinGap 0
  unfold Rounded.Controller.respawnTargetSafe
  simp only [h]
  exact ⟨_, _, rfl⟩

/-- The rounded `ensureTargetValid()` changes the target and the random stream
only. -/
theorem Rounded.Controller.ensureTargetValid_shape_rounded (fl : ℚ → ℚ) (c : Controller) :
    ∃ tgt rng, Rounded.Controller.ensureTargetValid fl c =
      { c with target := tgt, env := { c.env with rng := rng } } := by
  unfold Rounded.Controller.ensureTargetValid
  split
  · exact Rounded.Controller.respawnTargetSafe_shape_rounded fl c
  · exact ⟨c.target, c.env.rng, rfl⟩

/-- The rounded `triggerHit()` outside the state `HIT`: the hit is counted; it
wins when the counter reaches `winHits`, and otherwise respawns the target and
returns to `PLAY`. -/
theorem Rounded.Controller.triggerHit_eq_rounded (fl : ℚ → ℚ) (c : Controller)
    (hs : c.gameState ≠ GameState.HIT) :
    Rounded.Controller.triggerHit fl c =
      if c.hitCount + 1 ≥ c.winHits then c.hitPending.transitionToWin
      else { Rounded.Controller.respawnTargetSafe fl c.hitPending with
        gameState := GameState.PLAY } := by
  unfold Rounded.Controller.triggerHit
  rw [if_neg hs]
  by_cases hw : c.hitCount + 1 ≥ c.winHits
  · rw [if_pos hw]
    simp only [Rounded.Controller.finishHit, hw, decide_True, if_true]
    rfl
  · rw [if_neg hw]
    simp only [Rounded.Controller.finishHit, hw, decide_False]
    rfl

/-- The fields that a hit sets, and those it leaves alone. -/
theorem Rounded.Controller.triggerHit_spec_rounded (fl : ℚ → ℚ) (c : Controller)
    (hs : c.gameState ≠ GameState.HIT) :
    (Rounded.Controller.triggerHit fl c).hitCount = c.hitCount + 1 ∧
    (Rounded.Controller.triggerHit fl c).winHits = c.winHits ∧
    (Rounded.Controller.triggerHit fl c).gameState =
      (if c.hitCount + 1 ≥ c.winHits then GameState.WIN else GameState.PLAY) ∧
    (Rounded.Controller.triggerHit fl c).overlapStartTime = none ∧
    (Rounded.Controller.triggerHit fl c).flashState = none ∧
    (Rounded.Controller.triggerHit fl c).time = c.time ∧
    (Rounded.Controller.triggerHit fl c).overlapThreshold = c.overlapThreshold := by
  rw [Rounded.Controller.triggerHit_eq_rounded fl c hs]
  by_cases hw : c.hitCount + 1 ≥ c.winHits
  · simp only [if_pos hw]
    simp [Controller.transitionToWin, Controller.restoreTargetColor, Controller.hitPending]
  · simp only [if_neg hw]
    obtain ⟨tgt, rng, h⟩ := Rounded.Controller.respawnTargetSafe_shape_rounded fl c.hitPending
    rw [h]
    simp [Controller.restoreTargetColor, Controller.hitPending]

/-- A tick of the rounded `update()` outside `WIN` is `handleOverlap()` and
`updateFlash()` run on the state `beforeOverlap`. -/
theorem Rounded.Controller.update_eq_of_playing_rounded (fl : ℚ → ℚ) (M : MathFns) (c : Controller)
    (deltaTime : ℚ)
    (hs : c.gameState = GameState.PLAY ∨ c.gameState = GameState.HIT ∨
      c.gameState = GameState.TOUCH) :
    Rounded.Controller.update fl M c deltaTime =
      Rounded.Controller.updateFlash fl
        (Rounded.Controller.handleOverlap fl
          (Rounded.Controller.beforeOverlap fl M c deltaTime)) := by
  unfold Rounded.Controller.update
  rw [if_pos hs]
  rfl

/-- What the steps of a rounded tick before `handleOverlap()` leave alone, and
the time they set. -/
theorem Rounded.Controller.beforeOverlap_frame_rounded (fl : ℚ → ℚ) (M : MathFns) (c : Controller)
    (deltaTime : ℚ) :
    (Rounded.Controller.beforeOverlap fl M c deltaTime).gameState = c.gameState ∧
    (Rounded.Controller.beforeOverlap fl M c deltaTime).hitCount = c.hitCount ∧
    (Rounded.Controller.beforeOverlap fl M c deltaTime).winHits = c.winHits ∧
    (Rounded.Controller.beforeOverlap fl M c deltaTime).overlapStartTime =
      c.overlapStartTime ∧
    (Rounded.Controller.beforeOverlap fl M c deltaTime).overlapThreshold =
      c.overlapThreshold ∧
    (Rounded.Controller.beforeOverlap fl M c deltaTime).flashState = c.flashState ∧
    (Rounded.Controller.beforeOverlap fl M c deltaTime).time =
      fl (c.time + fl (deltaTime / 1000)) := by
  obtain ⟨tgt, rng, h⟩ := Rounded.Controller.ensureTargetValid_shape_rounded fl
    { c with time := fl (c.time + fl (deltaTime / 1000)) }
  unfold Rounded.Controller.beforeOverlap
  rw [h]
  simp [Rounded.Controller.updateBlock, Rounded.Controller.updateSegments,
    Rounded.Controller.updateWaves]

/-- The rounded `handleOverlap()` in `PLAY` or `TOUCH` while block and target
overlap: the overlap is recorded, and a hit is triggered when the rounded
elapsed overlap time has reached the threshold. -/
theorem Rounded.Controller.handleOverlap_eq_of_overlap_rounded (fl : ℚ → ℚ) (c : Controller)
    (hs : c.gameState = GameState.PLAY ∨ c.gameState = GameState.TOUCH)
    (ho : Rounded.Controller.isOverlapping fl c = true) :
    Rounded.Controller.handleOverlap fl c =
      if fl (c.touching.time - c.touching.overlapStartTime.getD 0) ≥
          c.touching.overlapThreshold
      then Rounded.Controller.triggerHit fl c.touching else c.touching := by
  have h1 : ¬ (c.gameState = GameState.HIT ∨ c.gameState = GameState.WIN) := by
    rcases hs with h | h <;> rw [h] <;> decide
  unfold Rounded.Controller.handleOverlap Controller.touching
  rw [if_neg h1]
  simp only [ho, Bool.true_eq_false, if_false]

/-- The rounded `handleOverlap()` in `PLAY` or `TOUCH` while block and target
overlap.  With `start` the pending overlap start, or the current time when none
is pending: while the rounded `time - start` is below the threshold the state
is `TOUCH`, the overlap start is `start` and no hit is counted; from the
threshold on exactly one hit is counted and the overlap start is cleared. -/
theorem Rounded.Controller.handleOverlap_overlapping_rounded (fl : ℚ → ℚ) (c : Controller)
    (hs : c.gameState = GameState.PLAY ∨ c.gameState = GameState.TOUCH)
    (ho : Rounded.Controller.isOverlapping fl c = true) :
    (Rounded.Controller.handleOverlap fl c).winHits = c.winHits ∧
    (Rounded.Controller.handleOverlap fl c).time = c.time ∧
    (Rounded.Controller.handleOverlap fl c).overlapThreshold = c.overlapThreshold ∧
    (fl (c.time - c.overlapStartTime.getD c.time) < c.overlapThreshold →
      (Rounded.Controller.handleOverlap fl c).hitCount = c.hitCount ∧
      (Rounded.Controller.handleOverlap fl c).overlapStartTime =
        some (c.overlapStartTime.getD c.time) ∧
      (Rounded.Controller.handleOverlap fl c).gameState = GameState.TOUCH ∧
      Rounded.Controller.handleOverlap fl c = c.touching) ∧
    (c.overlapThreshold ≤ fl (c.time - c.overlapStartTime.getD c.time) →
      (Rounded.Controller.handleOverlap fl c).hitCount = c.hitCount + 1 ∧
      (Rounded.Controller.handleOverlap fl c).overlapStartTime = none ∧
      (Rounded.Controller.handleOverlap fl c).flashState = none ∧
      (Rounded.Controller.handleOverlap fl c).gameState =
        (if c.hitCount + 1 ≥ c.winHits then GameState.WIN else GameState.PLAY)) := by
  obtain ⟨hg, hh, hw, ht, hT, hst⟩ := c.touching_spec
  have hne : c.touching.gameState ≠ GameState.HIT := by rw [hg]; decide
  obtain ⟨th, tw, tg, tst, tfs, tt, tT⟩ := Rounded.Controller.triggerHit_spec_rounded fl c.touching hne
  rw [Rounded.Controller.handleOverlap_eq_of_overlap_rounded fl c hs ho, ht, hT, hst, Option.getD_some]
  by_cases hge : c.overlapThreshold ≤ fl (c.time - c.overlapStartTime.getD c.time)
  · rw [if_pos hge, th, tw, tg, tst, tfs, tt, tT, hh, hw, ht, hT]
    exact ⟨rfl, rfl, rfl, fun h => absurd hge (not_le.mpr h), fun _ => ⟨rfl, rfl, rfl, rfl⟩⟩
  · rw [if_neg hge, hh, hw, ht, hT, hst, hg]
    exact ⟨rfl, rfl, rfl, fun _ => ⟨rfl, rfl, rfl, rfl⟩, fun h => absurd h hge⟩

/-- The rounded `updateFlash()` leaves counters, times and overlap start alone;
it does nothing without a flash, and otherwise keeps the state or makes it
`PLAY`. -/
theorem Rounded.Controller.updateFlash_spec_rounded (fl : ℚ → ℚ) (c : Controller) :
    (Rounded.Controller.updateFlash fl c).hitCount = c.hitCount ∧
    (Rounded.Controller.updateFlash fl c).winHits = c.winHits ∧
    (Rounded.Controller.updateFlash fl c).time = c.time ∧
    (Rounded.Controller.updateFlash fl c).overlapThreshold = c.overlapThreshold ∧
    (Rounded.Controller.updateFlash fl c).overlapStartTime = c.overlapStartTime ∧
    ((Rounded.Controller.updateFlash fl c).gameState = c.gameState ∨
      (Rounded.Controller.updateFlash fl c).gameState = GameState.PLAY) ∧
    (c.flashState = none → Rounded.Controller.updateFlash fl c = c) ∧
    ((Rounded.Controller.updateFlash fl c).waves = c.waves ∧
      (Rounded.Controller.updateFlash fl c).block = c.block ∧
      (Rounded.Controller.updateFlash fl c).target = c.target ∧
      (Rounded.Controller.updateFlash fl c).barLength = c.barLength) := by
  unfold Rounded.Controller.updateFlash
  cases hfs : c.flashState with
  | none => simp
  | some fs =>
    simp only
    split_ifs <;> simp [Controller.restoreTargetColor]

/-! ## The controller on doubles: a sustained overlap is one hit -/

theorem Rounded.Controller.run_append_rounded (fl : ℚ → ℚ) (M : MathFns) (c : Controller)
    (a b : List ℚ) :
    Rounded.Controller.run fl M c (a ++ b) =
      Rounded.Controller.run fl M (Rounded.Controller.run fl M c a) b := by
  induction a generalizing c with
  | nil => rfl
  | cons d ds ih => exact ih (Rounded.Controller.update fl M c d)

theorem Rounded.Controller.overlapsThroughout_append_rounded (fl : ℚ → ℚ) (M : MathFns)
    (c : Controller) (a b : List ℚ) :
    Rounded.Controller.OverlapsThroughout fl M c (a ++ b) ↔
      Rounded.Controller.OverlapsThroughout fl M c a ∧
        Rounded.Controller.OverlapsThroughout fl M (Rounded.Controller.run fl M c a) b := by
  induction a generalizing c with
  | nil => simp [Rounded.Controller.OverlapsThroughout, Rounded.Controller.run]
  | cons d ds ih =>
    show _ ∧ Rounded.Controller.OverlapsThroughout fl M
        (Rounded.Controller.update fl M c d) (ds ++ b) ↔
      (_ ∧ Rounded.Controller.OverlapsThroughout fl M
        (Rounded.Controller.update fl M c d) ds) ∧
        Rounded.Controller.OverlapsThroughout fl M
          (Rounded.Controller.run fl M (Rounded.Controller.update fl M c d) ds) b
    rw [ih, and_assoc]

theorem Rounded.timeAfter_append (fl : ℚ → ℚ) (time : ℚ) (a b : List ℚ) :
    Rounded.timeAfter fl time (a ++ b) =
      Rounded.timeAfter fl (Rounded.timeAfter fl time a) b := by
  induction a generalizing time with
  | nil => rfl
  | cons d ds ih => exact ih _

theorem Rounded.belowThreshold_append (fl : ℚ → ℚ) (start threshold time : ℚ)
    (a b : List ℚ) :
    Rounded.BelowThreshold fl start threshold time (a ++ b) ↔
      Rounded.BelowThreshold fl start threshold time a ∧
        Rounded.BelowThreshold fl start threshold (Rounded.timeAfter fl time a) b := by
  induction a generalizing time with
  | nil => simp [Rounded.BelowThreshold, Rounded.timeAfter]
  | cons d ds ih =>
    show _ ∧ Rounded.BelowThreshold fl start threshold _ (ds ++ b) ↔
      (_ ∧ Rounded.BelowThreshold fl start threshold _ ds) ∧
        Rounded.BelowThreshold fl start threshold
          (Rounded.timeAfter fl (fl (time + fl (d / 1000))) ds) b
    rw [ih, and_assoc]

/-- One rounded tick in `PLAY` or `TOUCH` during which block and target
overlap.  With `now` the time of the tick and `start` the pending overlap
start, or `now` when none is pending: while the rounded `now - start` is below
the threshold no hit is counted and the overlap start is `start`; from the
threshold on exactly one hit is counted and the overlap start is cleared. -/
theorem Rounded.Controller.update_overlapping_rounded (fl : ℚ → ℚ) (M : MathFns) (c : Controller)
    (deltaTime : ℚ)
    (hs : c.gameState = GameState.PLAY ∨ c.gameState = GameState.TOUCH)
    (ho : Rounded.Controller.isOverlapping fl
      (Rounded.Controller.beforeOverlap fl M c deltaTime) = true) :
    (Rounded.Controller.update fl M c deltaTime).time = fl (c.time + fl (deltaTime / 1000)) ∧
    (Rounded.Controller.update fl M c deltaTime).overlapThreshold = c.overlapThreshold ∧
    (fl (fl (c.time + fl (deltaTime / 1000)) -
        c.overlapStartTime.getD (fl (c.time + fl (deltaTime / 1000)))) < c.overlapThreshold →
      (Rounded.Controller.update fl M c deltaTime).hitCount = c.hitCount ∧
      (Rounded.Controller.update fl M c deltaTime).overlapStartTime =
        some (c.overlapStartTime.getD (fl (c.time + fl (deltaTime / 1000)))) ∧
      ((Rounded.Controller.update fl M c deltaTime).gameState = GameState.PLAY ∨
        (Rounded.Controller.update fl M c deltaTime).gameState = GameState.TOUCH)) ∧
    (c.overlapThreshold ≤ fl (fl (c.time + fl (deltaTime / 1000)) -
        c.overlapStartTime.getD (fl (c.time + fl (deltaTime / 1000)))) →
      (Rounded.Controller.update fl M c deltaTime).hitCount = c.hitCount + 1 ∧
      (Rounded.Controller.update fl M c deltaTime).overlapStartTime = none ∧
      ((Rounded.Controller.update fl M c deltaTime).gameState = GameState.PLAY ∨
        (Rounded.Controller.update fl M c deltaTime).gameState = GameState.WIN)) := by
  have hs3 : c.gameState = GameState.PLAY ∨ c.gameState = GameState.HIT ∨
      c.gameState = GameState.TOUCH := by
    rcases hs with h | h
    · exact Or.inl h
    · exact Or.inr (Or.inr h)
  obtain ⟨bg, bh, bw, bst, bT, -, bt⟩ := Rounded.Controller.beforeOverlap_frame_rounded fl M c deltaTime
  have hsb : (Rounded.Controller.beforeOverlap fl M c deltaTime).gameState = GameState.PLAY ∨
      (Rounded.Controller.beforeOverlap fl M c deltaTime).gameState = GameState.TOUCH := by
    rw [bg]; exact hs
  obtain ⟨-, ot, oT, olt, oge⟩ := Rounded.Controller.handleOverlap_overlapping_rounded fl _ hsb ho
  obtain ⟨fh, -, ft, fT, fst, fg, fnone, -⟩ := Rounded.Controller.updateFlash_spec_rounded fl
    (Rounded.Controller.handleOverlap fl (Rounded.Controller.beforeOverlap fl M c deltaTime))
  rw [bt, bst, bT] at olt oge
  rw [bh] at olt oge
  rw [Rounded.Controller.update_eq_of_playing_rounded fl M c deltaTime hs3, ft, fT, fh, fst, ot, oT, bt,
    bT]
  refine ⟨rfl, rfl, ?_, ?_⟩
  · intro hlt
    obtain ⟨h1, h2, h3, -⟩ := olt hlt
    refine ⟨h1, h2, ?_⟩
    rcases fg with h | h
    · rw [h, h3]; exact Or.inr rfl
    · exact Or.inl h
  · intro hge
    obtain ⟨h1, h2, h3, h4⟩ := oge hge
    refine ⟨h1, h2, ?_⟩
    rw [fnone h3, h4]
    split_ifs
    · exact Or.inr rfl
    · exact Or.inl rfl

/-- One rounded tick in `PLAY` with no overlap pending and a positive
threshold counts no hit, whether block and target overlap or not; when they
do, the overlap starts at the time of the tick. -/
theorem Rounded.Controller.update_fresh_rounded (fl : ℚ → ℚ) (hfl0 : fl 0 = 0) (M : MathFns)
    (c : Controller) (deltaTime : ℚ)
    (hs : c.gameState = GameState.PLAY) (hnone : c.overlapStartTime = none)
    (hT : 0 < c.overlapThreshold) :
    (Rounded.Controller.update fl M c deltaTime).hitCount = c.hitCount ∧
    (Rounded.Controller.isOverlapping fl
        (Rounded.Controller.beforeOverlap fl M c deltaTime) = true →
      (Rounded.Controller.update fl M c deltaTime).overlapStartTime =
        some (fl (c.time + fl (deltaTime / 1000))) ∧
      ((Rounded.Controller.update fl M c deltaTime).gameState = GameState.PLAY ∨
        (Rounded.Controller.update fl M c deltaTime).gameState = GameState.TOUCH)) := by
  by_cases ho : Rounded.Controller.isOverlapping fl
      (Rounded.Controller.beforeOverlap fl M c deltaTime) = true
  · obtain ⟨-, -, hlt, -⟩ := Rounded.Controller.update_overlapping_rounded fl M c deltaTime
      (Or.inl hs) ho
    rw [hnone, Option.getD_none, sub_self, hfl0] at hlt
    exact ⟨(hlt hT).1, fun _ => (hlt hT).2⟩
  · refine ⟨?_, fun h => absurd h ho⟩
    obtain ⟨bg, bh, -, -, -, -, -⟩ := Rounded.Controller.beforeOverlap_frame_rounded fl M c deltaTime
    have h1 : ¬ ((Rounded.Controller.beforeOverlap fl M c deltaTime).gameState =
        GameState.HIT ∨
        (Rounded.Controller.beforeOverlap fl M c deltaTime).gameState = GameState.WIN) := by
      rw [bg, hs]; decide
    have hf : Rounded.Controller.isOverlapping fl
        (Rounded.Controller.beforeOverlap fl M c deltaTime) = false :=
      Bool.eq_false_iff.mpr ho
    have he : Rounded.Controller.handleOverlap fl
        (Rounded.Controller.beforeOverlap fl M c deltaTime) =
        Controller.resetTouchState
          { Rounded.Controller.beforeOverlap fl M c deltaTime with
            overlappingNow := false } := by
      unfold Rounded.Controller.handleOverlap
      rw [if_neg h1]
      simp only [hf, if_true]
    obtain ⟨rh, -, -, -⟩ := Controller.resetTouchState_spec
      { Rounded.Controller.beforeOverlap fl M c deltaTime with overlappingNow := false }
    obtain ⟨fh, -, -, -, -, -, -, -⟩ := Rounded.Controller.updateFlash_spec_rounded fl
      (Rounded.Controller.handleOverlap fl (Rounded.Controller.beforeOverlap fl M c deltaTime))
    rw [Rounded.Controller.update_eq_of_playing_rounded fl M c deltaTime (Or.inl hs), fh, he, rh]
    exact bh

/-- A rounded tick in `WIN` leaves the hit counter as it is or resets it to
`0`. -/
theorem Rounded.Controller.update_win_hitCount (fl : ℚ → ℚ) (M : MathFns) (c : Controller)
    (deltaTime : ℚ) (hs : c.gameState = GameState.WIN) :
    (Rounded.Controller.update fl M c deltaTime).hitCount = c.hitCount ∨
      (Rounded.Controller.update fl M c deltaTime).hitCount = 0 := by
  have h1 : ¬ (c.gameState = GameState.PLAY ∨ c.gameState = GameState.HIT ∨
      c.gameState = GameState.TOUCH) := by
    rw [hs]; decide
  obtain ⟨tgt, rng, h⟩ := Rounded.Controller.ensureTargetValid_shape_rounded fl
    { c with time := fl (c.time + fl (deltaTime / 1000)) }
  unfold Rounded.Controller.update
  rw [if_neg h1, if_pos hs]
  simp only [h]
  split
  · split_ifs
    · right
      obtain ⟨tgt2, rng2, h2⟩ := Rounded.Controller.respawnTargetSafe_shape_rounded fl
        { ({ c with time := fl (c.time + fl (deltaTime / 1000)) } : Controller) with
          target := tgt
          env := { c.env with rng := rng }
          hitCount := 0
          time := 0
          winStartTime := none
          waves := []
          block :=
            { c.block with
              center := fl (c.barLength * (1 / 2))
              targetCenter := fl (c.barLength * (1 / 2))
              velocity := 0 } }
      unfold Rounded.Controller.resetGame
      simp only
      rw [h2]
      rfl
    · left; rfl
  · left; rfl

/-- A run of rounded ticks that starts in `PLAY` or `TOUCH` with an overlap
pending since `s`, keeps block and target overlapping and on each tick computes
an elapsed overlap time below the threshold: no hit is counted and the overlap
stays pending. -/
theorem Rounded.Controller.run_below_threshold_rounded (fl : ℚ → ℚ) (M : MathFns) (c : Controller)
    (s : ℚ) (ticks : List ℚ)
    (hs : c.gameState = GameState.PLAY ∨ c.gameState = GameState.TOUCH)
    (hst : c.overlapStartTime = some s)
    (hbelow : Rounded.BelowThreshold fl s c.overlapThreshold c.time ticks)
    (hov : Rounded.Controller.OverlapsThroughout fl M c ticks) :
    (Rounded.Controller.run fl M c ticks).hitCount = c.hitCount ∧
    (Rounded.Controller.run fl M c ticks).overlapStartTime = some s ∧
    (Rounded.Controller.run fl M c ticks).time = Rounded.timeAfter fl c.time ticks ∧
    ((Rounded.Controller.run fl M c ticks).gameState = GameState.PLAY ∨
      (Rounded.Controller.run fl M c ticks).gameState = GameState.TOUCH) ∧
    (Rounded.Controller.run fl M c ticks).overlapThreshold = c.overlapThreshold := by
  induction ticks generalizing c with
  | nil => exact ⟨rfl, hst, rfl, hs, rfl⟩
  | cons d ds ih =>
    obtain ⟨ut, uT, ult, -⟩ := Rounded.Controller.update_overlapping_rounded fl M c d hs hov.1
    rw [hst, Option.getD_some] at ult
    obtain ⟨uh, ust, ug⟩ := ult hbelow.1
    have hb2 : Rounded.BelowThreshold fl s
        (Rounded.Controller.update fl M c d).overlapThreshold
        (Rounded.Controller.update fl M c d).time ds := by
      rw [ut, uT]; exact hbelow.2
    obtain ⟨rh, rst, rt, rg, rT⟩ := ih (Rounded.Controller.update fl M c d) ug ust hb2 hov.2
    have hrun : Rounded.Controller.run fl M c (d :: ds) =
        Rounded.Controller.run fl M (Rounded.Controller.update fl M c d) ds := rfl
    rw [hrun, rh, rst, rt, rT, uh, ut, uT]
    exact ⟨rfl, rfl, rfl, rg, rfl⟩

/-- C2: ticks of `update()` on doubles (every quotient, sum and difference
rounded by `fl`, which keeps `0`) from `PLAY` with no overlap pending and a
positive threshold, block and target overlapping on every tick.  The first
tick starts the overlap period at its time `start`; on the following ticks on
which the elapsed overlap time `time - overlapStartTime` that the controller
computes stays below the threshold the hit counter is unchanged; on the first
tick at which it reaches the threshold the counter goes up by exactly one and
the overlap start is cleared; the tick after that counts no further hit,
whether the overlap goes on or not; and when the game goes on in `PLAY`, no
further hit is counted while the overlap continues with a computed elapsed time
below the threshold, counted from the tick after the hit. -/
theorem Rounded.Controller.sustained_overlap_hits_once (fl : ℚ → ℚ) (M : MathFns)
    (c : Controller) (first : ℚ) (quiet : List ℚ) (last next : ℚ)
    (hfl0 : fl 0 = 0)
    (hs : c.gameState = GameState.PLAY) (hnone : c.overlapStartTime = none)
    (hT : 0 < c.overlapThreshold)
    (hov : Rounded.Controller.OverlapsThroughout fl M c (first :: (quiet ++ [last])))
    (hquiet : Rounded.BelowThreshold fl (Rounded.timeAfter fl c.time [first])
      c.overlapThreshold (Rounded.timeAfter fl c.time [first]) quiet)
    (hlast : c.overlapThreshold ≤
      fl (Rounded.timeAfter fl c.time (first :: (quiet ++ [last])) -
        Rounded.timeAfter fl c.time [first])) :
    (∀ pre suf, quiet = pre ++ suf →
      (Rounded.Controller.run fl M c (first :: pre)).hitCount = c.hitCount ∧
      (Rounded.Controller.run fl M c (first :: pre)).overlapStartTime =
        some (Rounded.timeAfter fl c.time [first]) ∧
      (Rounded.Controller.run fl M c (first :: pre)).time =
        Rounded.timeAfter fl c.time (first :: pre)) ∧
    ((Rounded.Controller.run fl M c (first :: (quiet ++ [last]))).hitCount = c.hitCount + 1 ∧
      (Rounded.Controller.run fl M c (first :: (quiet ++ [last]))).overlapStartTime = none) ∧
    (Rounded.Controller.run fl M c (first :: (quiet ++ [last, next]))).hitCount ≤
      c.hitCount + 1 ∧
    ((Rounded.Controller.run fl M c (first :: (quiet ++ [last]))).gameState = GameState.PLAY →
      ∀ more : List ℚ,
        Rounded.BelowThreshold fl
          (Rounded.timeAfter fl c.time (first :: (quiet ++ [last, next])))
          c.overlapThreshold
          (Rounded.timeAfter fl c.time (first :: (quiet ++ [last, next]))) more →
        Rounded.Controller.OverlapsThroughout fl M
          (Rounded.Controller.run fl M c (first :: (quiet ++ [last]))) (next :: more) →
        (Rounded.Controller.run fl M
          (Rounded.Controller.run fl M c (first :: (quiet ++ [last])))
          (next :: more)).hitCount = c.hitCount + 1) := by
  have hstart : Rounded.timeAfter fl c.time [first] = fl (c.time + fl (first / 1000)) := rfl
  rw [hstart] at hquiet hlast ⊢
  -- the first tick starts the overlap period
  obtain ⟨ut, uT, -, -⟩ := Rounded.Controller.update_overlapping_rounded fl M c first (Or.inl hs) hov.1
  obtain ⟨uh, ufresh⟩ := Rounded.Controller.update_fresh_rounded fl hfl0 M c first hs hnone hT
  obtain ⟨ust, ug⟩ := ufresh hov.1
  have hov1 : Rounded.Controller.OverlapsThroughout fl M
      (Rounded.Controller.update fl M c first) (quiet ++ [last]) := hov.2
  rw [Rounded.Controller.overlapsThroughout_append_rounded] at hov1
  -- the quiet ticks
  have hq := Rounded.Controller.run_below_threshold_rounded fl M
    (Rounded.Controller.update fl M c first) (fl (c.time + fl (first / 1000))) quiet ug ust
    (by rw [ut, uT]; exact hquiet) hov1.1
  obtain ⟨qh, qst, qt, qg, qT⟩ := hq
  rw [ut] at qt
  -- the tick that reaches the threshold
  have htl : Rounded.timeAfter fl c.time (first :: (quiet ++ [last])) =
      fl (Rounded.timeAfter fl (fl (c.time + fl (first / 1000))) quiet + fl (last / 1000)) := by
    show Rounded.timeAfter fl (fl (c.time + fl (first / 1000))) (quiet ++ [last]) = _
    rw [Rounded.timeAfter_append]; rfl
  rw [htl] at hlast
  obtain ⟨lt, lT, -, lge⟩ := Rounded.Controller.update_overlapping_rounded fl M
    (Rounded.Controller.run fl M (Rounded.Controller.update fl M c first) quiet) last qg
    hov1.2.1
  rw [qst, Option.getD_some, qt, qT, uT] at lge
  obtain ⟨lh, lst, lg⟩ := lge hlast
  rw [qh, uh] at lh
  rw [qt] at lt
  have hrun1 : Rounded.Controller.run fl M c (first :: (quiet ++ [last])) =
      Rounded.Controller.update fl M
        (Rounded.Controller.run fl M (Rounded.Controller.update fl M c first) quiet) last := by
    show Rounded.Controller.run fl M (Rounded.Controller.update fl M c first)
      (quiet ++ [last]) = _
    rw [Rounded.Controller.run_append_rounded]; rfl
  have hrun2 : Rounded.Controller.run fl M c (first :: (quiet ++ [last, next])) =
      Rounded.Controller.update fl M
        (Rounded.Controller.update fl M
          (Rounded.Controller.run fl M (Rounded.Controller.update fl M c first) quiet) last)
        next := by
    show Rounded.Controller.run fl M (Rounded.Controller.update fl M c first)
      (quiet ++ [last, next]) = _
    rw [Rounded.Controller.run_append_rounded]; rfl
  have hTv : (Rounded.Controller.update fl M
      (Rounded.Controller.run fl M (Rounded.Controller.update fl M c first) quiet)
      last).overlapThreshold = c.overlapThreshold := by rw [lT, qT, uT]
  refine ⟨?_, ?_, ?_, ?_⟩
  · intro pre suf hsplit
    rw [hsplit, Rounded.Controller.overlapsThroughout_append_rounded] at hov1
    rw [hsplit, Rounded.belowThreshold_append] at hquiet
    have hp := Rounded.Controller.run_below_threshold_rounded fl M
      (Rounded.Controller.update fl M c first) (fl (c.time + fl (first / 1000))) pre ug ust
      (by rw [ut, uT]; exact hquiet.1) hov1.1.1
    have hrun : Rounded.Controller.run fl M c (first :: pre) =
        Rounded.Controller.run fl M (Rounded.Controller.update fl M c first) pre := rfl
    rw [hrun, hp.1, hp.2.1, hp.2.2.1, uh, ut]
    exact ⟨rfl, rfl, rfl⟩
  · rw [hrun1]
    exact ⟨lh, lst⟩
  · rw [hrun2]
    rcases lg with hp | hw
    · rw [(Rounded.Controller.update_fresh_rounded fl hfl0 M _ next hp lst (by rw [hTv]; exact hT)).1,
        lh]
    · rcases Rounded.Controller.update_win_hitCount fl M _ next hw with hh | hh
      · rw [hh, lh]
      · rw [hh]; exact Nat.zero_le _
  · rw [hrun1]
    intro hp more hmore hovm
    obtain ⟨nt, nT, -, -⟩ := Rounded.Controller.update_overlapping_rounded fl M _ next (Or.inl hp)
      hovm.1
    obtain ⟨nh, nfresh⟩ := Rounded.Controller.update_fresh_rounded fl hfl0 M _ next hp lst
      (by rw [hTv]; exact hT)
    obtain ⟨nst, ng⟩ := nfresh hovm.1
    rw [lt] at nst nt
    have htn : Rounded.timeAfter fl c.time (first :: (quiet ++ [last, next])) =
        fl (fl (Rounded.timeAfter fl (fl (c.time + fl (first / 1000))) quiet +
          fl (last / 1000)) + fl (next / 1000)) := by
      show Rounded.timeAfter fl (fl (c.time + fl (first / 1000))) (quiet ++ [last, next]) = _
      rw [Rounded.timeAfter_append]; rfl
    rw [htn] at hmore
    have hm := Rounded.Controller.run_below_threshold_rounded fl M
      (Rounded.Controller.update fl M
        (Rounded.Controller.update fl M
          (Rounded.Controller.run fl M (Rounded.Controller.update fl M c first) quiet) last)
        next) _ more ng nst (by rw [nt, nT, hTv]; exact hmore) hovm.2
    have hrun3 : Rounded.Controller.run fl M
        (Rounded.Controller.update fl M
          (Rounded.Controller.run fl M (Rounded.Controller.update fl M c first) quiet) last)
        (next :: more) =
        Rounded.Controller.run fl M
          (Rounded.Controller.update fl M
            (Rounded.Controller.update fl M
              (Rounded.Controller.run fl M (Rounded.Controller.update fl M c first) quiet)
              last) next) more := rfl
    rw [hrun3, hm.1, nh, lh]

/-- On a rounding that keeps `0`, a block at rest on its target is not moved by
the rounded `update(dt)`. -/
theorem Rounded.BlockSegment.update_rests_on_target (fl : ℚ → ℚ) (hfl0 : fl 0 = 0)
    (b : BlockSegment) (dt : ℚ)
    (hrest : b.center = b.targetCenter) (hvel : b.velocity = 0) :
    Rounded.BlockSegment.update fl b dt = b := by
  have hlt : |fl (b.targetCenter - b.center)| < 1 := by rw [hrest, sub_self, hfl0]; simp
  unfold Rounded.BlockSegment.update
  rw [if_pos hlt]
  cases b
  simp only at hrest hvel
  simp [hrest, hvel]

/-- A rounded tick in `PLAY` or `TOUCH` with no wave under way, a valid target
and the block at rest where it overlaps the target: the overlap is seen by
`handleOverlap()`, and while the computed elapsed overlap time is below the
threshold the tick leaves waves, block, target and bar length as they are. -/
theorem Rounded.Controller.update_rests (fl : ℚ → ℚ) (hfl0 : fl 0 = 0) (M : MathFns)
    (c : Controller) (deltaTime : ℚ)
    (hs : c.gameState = GameState.PLAY ∨ c.gameState = GameState.TOUCH)
    (hw : c.waves = []) (hv1 : 0 ≤ c.target.center) (hv2 : c.target.center ≤ c.barLength)
    (hrest : c.block.center = c.block.targetCenter) (hvel : c.block.velocity = 0)
    (hov : |fl (c.block.center - c.target.center)| ≤ fl (c.block.length + c.target.length)) :
    Rounded.Controller.isOverlapping fl
      (Rounded.Controller.beforeOverlap fl M c deltaTime) = true ∧
    (fl (fl (c.time + fl (deltaTime / 1000)) -
        c.overlapStartTime.getD (fl (c.time + fl (deltaTime / 1000)))) < c.overlapThreshold →
      (Rounded.Controller.update fl M c deltaTime).waves = [] ∧
      (Rounded.Controller.update fl M c deltaTime).block = c.block ∧
      (Rounded.Controller.update fl M c deltaTime).target = c.target ∧
      (Rounded.Controller.update fl M c deltaTime).barLength = c.barLength) := by
  have hvalid : ¬ (c.target.center < 0 ∨ c.target.center > c.barLength) := by
    rintro (h | h)
    · exact absurd hv1 (not_le.mpr h)
    · exact absurd hv2 (not_le.mpr h)
  have hb : (Rounded.Controller.beforeOverlap fl M c deltaTime).waves = [] ∧
      (Rounded.Controller.beforeOverlap fl M c deltaTime).block = c.block ∧
      (Rounded.Controller.beforeOverlap fl M c deltaTime).target = c.target ∧
      (Rounded.Controller.beforeOverlap fl M c deltaTime).barLength = c.barLength := by
    unfold Rounded.Controller.beforeOverlap Rounded.Controller.ensureTargetValid
    rw [if_neg hvalid]
    simp [Rounded.Controller.updateBlock, Rounded.Controller.updateSegments,
      Rounded.Controller.updateWaves, hw, Rounded.Controller.forEachWave,
      Rounded.BlockSegment.update_rests_on_target fl hfl0 _ _ hrest hvel]
  obtain ⟨bw, bb, bt, bL⟩ := hb
  have ho : Rounded.Controller.isOverlapping fl
      (Rounded.Controller.beforeOverlap fl M c deltaTime) = true := by
    unfold Rounded.Controller.isOverlapping
    rw [bb, bt]
    exact decide_eq_true hov
  refine ⟨ho, ?_⟩
  intro hlt
  have hs3 : c.gameState = GameState.PLAY ∨ c.gameState = GameState.HIT ∨
      c.gameState = GameState.TOUCH := by
    rcases hs with h | h
    · exact Or.inl h
    · exact Or.inr (Or.inr h)
  obtain ⟨bg, -, -, bst, bT, -, btime⟩ := Rounded.Controller.beforeOverlap_frame_rounded fl M c deltaTime
  have hsb : (Rounded.Controller.beforeOverlap fl M c deltaTime).gameState = GameState.PLAY ∨
      (Rounded.Controller.beforeOverlap fl M c deltaTime).gameState = GameState.TOUCH := by
    rw [bg]; exact hs
  obtain ⟨-, -, -, hbelow, -⟩ := Rounded.Controller.handleOverlap_overlapping_rounded fl
    (Rounded.Controller.beforeOverlap fl M c deltaTime) hsb ho
  rw [btime, bst, bT] at hbelow
  obtain ⟨-, -, -, he⟩ := hbelow hlt
  obtain ⟨-, -, -, -, -, -, -, fw, fb, ft, fL⟩ := Rounded.Controller.updateFlash_spec_rounded fl
    (Rounded.Controller.handleOverlap fl (Rounded.Controller.beforeOverlap fl M c deltaTime))
  obtain ⟨tw, tb, ttg, tL⟩ := (Rounded.Controller.beforeOverlap fl M c deltaTime).touching_frame
  rw [Rounded.Controller.update_eq_of_playing_rounded fl M c deltaTime hs3, fw, fb, ft, fL, he, tw, tb,
    ttg, tL, bw, bb, bt, bL]
  exact ⟨rfl, rfl, rfl, rfl⟩

/-- One tick on doubles of a controller in `PLAY` or `TOUCH` with no wave under
way whose block, target, bar length and threshold are those of
`sampleOverlap`: block and target overlap at `handleOverlap()`, and while the
computed elapsed overlap time is below the threshold the tick keeps all of
that, counts no hit and holds the overlap start. -/
theorem Rounded.Controller.sampleOverlap_tick (c : Controller) (deltaTime : ℚ)
    (hs : c.gameState = GameState.PLAY ∨ c.gameState = GameState.TOUCH)
    (hw : c.waves = []) (hb : c.block = sampleOverlap.block)
    (ht : c.target = sampleOverlap.target) (hL : c.barLength = 3000)
    (hT : c.overlapThreshold = 2) :
    Rounded.Controller.isOverlapping binary64
      (Rounded.Controller.beforeOverlap binary64 sampleMath c deltaTime) = true ∧
    (binary64 (binary64 (c.time + binary64 (deltaTime / 1000)) -
        c.overlapStartTime.getD (binary64 (c.time + binary64 (deltaTime / 1000)))) < 2 →
      ((Rounded.Controller.update binary64 sampleMath c deltaTime).gameState = GameState.PLAY ∨
        (Rounded.Controller.update binary64 sampleMath c deltaTime).gameState =
          GameState.TOUCH) ∧
      (Rounded.Controller.update binary64 sampleMath c deltaTime).waves = [] ∧
      (Rounded.Controller.update binary64 sampleMath c deltaTime).block = sampleOverlap.block ∧
      (Rounded.Controller.update binary64 sampleMath c deltaTime).target =
        sampleOverlap.target ∧
      (Rounded.Controller.update binary64 sampleMath c deltaTime).barLength = 3000 ∧
      (Rounded.Controller.update binary64 sampleMath c deltaTime).overlapThreshold = 2 ∧
      (Rounded.Controller.update binary64 sampleMath c deltaTime).time =
        binary64 (c.time + binary64 (deltaTime / 1000)) ∧
      (Rounded.Controller.update binary64 sampleMath c deltaTime).overlapStartTime =
        some (c.overlapStartTime.getD (binary64 (c.time + binary64 (deltaTime / 1000)))) ∧
      (Rounded.Controller.update binary64 sampleMath c deltaTime).hitCount = c.hitCount) := by
  have hb0 : sampleOverlap.block.center = 1500 ∧ sampleOverlap.block.targetCenter = 1500 ∧
      sampleOverlap.block.velocity = 0 ∧ sampleOverlap.block.length = 30 :=
    ⟨rfl, rfl, rfl, rfl⟩
  have ht0 : sampleOverlap.target.center = 1560 ∧ sampleOverlap.target.length = 90 :=
    ⟨rfl, rfl⟩
  have hdiff : binary64 (1500 - 1560) = -60 := by
    have := binary64_scaled (-60) 0 (by norm_num)
    norm_num at this
    norm_num [this]
  have hsum : binary64 (30 + 90) = 120 := by
    have := binary64_scaled 120 0 (by norm_num)
    norm_num at this
    norm_num [this]
  have r := Rounded.Controller.update_rests binary64 binary64_zero sampleMath c deltaTime hs hw
    (by rw [ht, ht0.1]; norm_num) (by rw [ht, hL, ht0.1]; norm_num)
    (by rw [hb, hb0.1, hb0.2.1]) (by rw [hb]; exact hb0.2.2.1)
    (by rw [hb, ht, hb0.1, ht0.1, hb0.2.2.2, ht0.2, hdiff, hsum]; norm_num)
  refine ⟨r.1, ?_⟩
  intro hlt
  obtain ⟨ut, uT, ubelow, -⟩ := Rounded.Controller.update_overlapping_rounded binary64 sampleMath c
    deltaTime hs r.1
  rw [hT] at ubelow uT
  obtain ⟨uh, ust, ug⟩ := ubelow hlt
  obtain ⟨w1, b1, t1, L1⟩ := r.2 (by rw [hT]; exact hlt)
  exact ⟨ug, w1, b1.trans hb, t1.trans ht, L1.trans hL, uT, ut, ust, uh⟩

theorem Rounded.Controller.sustained_overlap_hits_once_witness :
    (Rounded.Controller.run binary64 sampleMath sampleOverlap (300 :: [1000])).hitCount = 0 ∧
    (Rounded.Controller.run binary64 sampleMath sampleOverlap
      (300 :: [1000, 1000])).hitCount = 0 ∧
    (Rounded.Controller.run binary64 sampleMath sampleOverlap
      (300 :: [1000, 1000])).time = 2589569785738035 / 1125899906842624 ∧
    (Rounded.Controller.run binary64 sampleMath sampleOverlap
      (300 :: [1000, 1000])).overlapStartTime = some (5404319552844595 / 18014398509481984) ∧
    binary64 (2589569785738035 / 1125899906842624 - 5404319552844595 / 18014398509481984) = 9007199254740991 / 4503599627370496 ∧
    (Rounded.Controller.run binary64 sampleMath sampleOverlap
      (300 :: ([1000, 1000] ++ [1000]))).hitCount = 0 + 1 ∧
    (Rounded.Controller.run binary64 sampleMath sampleOverlap
      (300 :: ([1000, 1000] ++ [1000, 16]))).hitCount ≤ 0 + 1 := by
  have hT0 : sampleOverlap.overlapThreshold = 2 := rfl
  have htime0 : sampleOverlap.time = 0 := rfl
  have hst0 : sampleOverlap.overlapStartTime = none := rfl
  have hh0 : sampleOverlap.hitCount = 0 := rfl
  have h1000 : binary64 (1000 / 1000) = 1 := by
    have := binary64_scaled 1 0 (by norm_num)
    norm_num at this
    norm_num [this]
  have h300 : binary64 (300 / 1000) =
      5404319552844595 / 18014398509481984 := by
    rw [binary64_eval (-54) 5404319552844595 (by norm_num [abs_of_pos]) (by norm_num [abs_of_pos])
      (Or.inl (by norm_num [abs_lt]))]
    norm_num
  have hT2 : binary64 (5404319552844595 / 18014398509481984 + 1) =
      5854679515581645 / 4503599627370496 := by
    rw [binary64_eval (-52) 5854679515581645 (by norm_num [abs_of_pos]) (by norm_num [abs_of_pos])
      (Or.inl (by norm_num [abs_lt]))]
    norm_num
  have hT3 : binary64 (5854679515581645 / 4503599627370496 + 1) =
      2589569785738035 / 1125899906842624 := by
    rw [binary64_eval (-51) 5179139571476070 (by norm_num [abs_of_pos]) (by norm_num [abs_of_pos])
      (Or.inr ⟨by norm_num [abs_of_pos], by norm_num⟩)]
    norm_num
  have hT4 : binary64 (2589569785738035 / 1125899906842624 + 1) =
      3715469692580659 / 1125899906842624 := by
    rw [binary64_eval (-51) 7430939385161318 (by norm_num [abs_of_pos]) (by norm_num [abs_of_pos])
      (Or.inl (by norm_num [abs_lt]))]
    norm_num
  have hE2 : binary64 (5854679515581645 / 4503599627370496 - 5404319552844595 / 18014398509481984) =
      1 := by
    rw [binary64_eval (-52) 4503599627370496 (by norm_num [abs_of_pos]) (by norm_num [abs_of_pos])
      (Or.inl (by norm_num [abs_lt]))]
    norm_num
  have hE3 : binary64 (2589569785738035 / 1125899906842624 - 5404319552844595 / 18014398509481984) =
      9007199254740991 / 4503599627370496 := by
    rw [binary64_eval (-52) 9007199254740991 (by norm_num [abs_of_pos]) (by norm_num [abs_of_pos])
      (Or.inl (by norm_num [abs_lt]))]
    norm_num
  have hE4 : binary64 (3715469692580659 / 1125899906842624 - 5404319552844595 / 18014398509481984) =
      3 := by
    rw [binary64_eval (-51) 6755399441055744 (by norm_num [abs_of_pos]) (by norm_num [abs_of_pos])
      (Or.inl (by norm_num [abs_lt]))]
    norm_num
  have hT1 : binary64 (0 + 5404319552844595 / 18014398509481984) = 5404319552844595 / 18014398509481984 := by
    rw [zero_add, ← h300, binary64_idem]
  -- the first tick, at time 0.3
  obtain ⟨o1, k1⟩ := Rounded.Controller.sampleOverlap_tick sampleOverlap 300 (Or.inl rfl) rfl
    rfl rfl rfl rfl
  rw [hst0, Option.getD_none, sub_self, binary64_zero, htime0, h300, hT1] at k1
  obtain ⟨g1, w1, b1, t1, L1, th1, time1, st1, -⟩ := k1 (by norm_num)
  -- the second tick, at time 1.3
  obtain ⟨o2, k2⟩ := Rounded.Controller.sampleOverlap_tick
    (Rounded.Controller.update binary64 sampleMath sampleOverlap 300) 1000 g1 w1 b1 t1 L1 th1
  rw [st1, Option.getD_some, time1, h1000, hT2, hE2] at k2
  obtain ⟨g2, w2, b2, t2, L2, th2, time2, st2, -⟩ := k2 (by norm_num)
  -- the third tick, at time 2.3: the computed elapsed time is below 2
  obtain ⟨o3, k3⟩ := Rounded.Controller.sampleOverlap_tick
    (Rounded.Controller.update binary64 sampleMath
      (Rounded.Controller.update binary64 sampleMath sampleOverlap 300) 1000) 1000
    g2 w2 b2 t2 L2 th2
  rw [st2, Option.getD_some, time2, h1000, hT3, hE3] at k3
  obtain ⟨g3, w3, b3, t3, L3, th3, time3, st3, -⟩ := k3 (by norm_num)
  -- the fourth tick, at time 3.3
  obtain ⟨o4, -⟩ := Rounded.Controller.sampleOverlap_tick
    (Rounded.Controller.update binary64 sampleMath
      (Rounded.Controller.update binary64 sampleMath
        (Rounded.Controller.update binary64 sampleMath sampleOverlap 300) 1000) 1000) 1000
    g3 w3 b3 t3 L3 th3
  have hquiet : Rounded.BelowThreshold binary64
      (Rounded.timeAfter binary64 sampleOverlap.time [300]) sampleOverlap.overlapThreshold
      (Rounded.timeAfter binary64 sampleOverlap.time [300]) [1000, 1000] := by
    simp only [Rounded.BelowThreshold, Rounded.timeAfter]
    rw [htime0, hT0, h300, hT1, h1000, hT2, hE2, hT3, hE3]
    norm_num
  have hlast : sampleOverlap.overlapThreshold ≤
      binary64 (Rounded.timeAfter binary64 sampleOverlap.time
          (300 :: ([1000, 1000] ++ [1000])) -
        Rounded.timeAfter binary64 sampleOverlap.time [300]) := by
    simp only [Rounded.timeAfter, List.cons_append, List.nil_append]
    rw [htime0, hT0, h300, hT1, h1000, hT2, hT3, hT4, hE4]
    norm_num
  have h := Rounded.Controller.sustained_overlap_hits_once binary64 sampleMath sampleOverlap
    300 [1000, 1000] 1000 16 binary64_zero rfl rfl (by rw [hT0]; norm_num)
    ⟨o1, o2, o3, o4, trivial⟩ hquiet hlast
  obtain ⟨hq1, -, -⟩ := h.1 [1000] [1000] rfl
  obtain ⟨hq2, hs2, ht2⟩ := h.1 [1000, 1000] [] rfl
  rw [hh0] at hq1 hq2
  refine ⟨hq1, hq2, ?_, ?_, hE3, h.2.1.1, h.2.2.1⟩
  · rw [ht2]
    simp only [Rounded.timeAfter]
    rw [htime0, h300, hT1, h1000, hT2, hT3]
  · rw [hs2]
    simp only [Rounded.timeAfter]
    rw [htime0, h300, hT1]

end Slinky
